import Mathlib

/-!
Shallow embedding of the analysis and lowering pipeline of `src/rrecomp.cpp`
(the IDO static recompiler core).  The pipeline state (`St`) mirrors the
file-scope globals of the source; each `r_passN` function below is a direct
translation of the corresponding C++ function.  Machine integers are modelled
as `Nat` with explicit `% 2^32` where 32-bit overflow is possible; fatal
errors (`exit`, failed `assert`) are modelled with `Except`.

The instruction decoder (the external `rabbitizer` library) is out of scope of
the repository; instructions are modelled as records of the accessor values the
core reads (`RAB_INSTR_GET_*`, `getProcessedImmediate`, ...), and the
rabbitizer descriptor predicates (`isJump`, `modifiesRt`, ...) are modelled as
explicit tables over the opcode ids that `rrecomp.cpp` mentions; every opcode
the source does not treat specially is collapsed into the catch-all id
`InstrId.other`, matching the `default:` cases of the source.
-/

/-- Opcode ids used by `rrecomp.cpp` (`RABBITIZER_INSTR_ID_cpu_*`).  `other`
stands for any id the source only ever handles through `default:` cases. -/
inductive InstrId where
  | nop | lui | mtc1 | mfc1 | cfc1 | ctc1
  | lb | lbu | lh | lhu | lw | lwu | lwl | lwr | ld | ldl | ldr
  | sb | sh | sw | swl | swr | sd
  | lwc1 | lwc2 | swc1 | swc2 | ldc1 | sdc1
  | addi | addiu | add | addu | sub | subu
  | and | andi | or | ori | xor | xori | nor | not | negu | move
  | sll | srl | sra | sllv | srlv | srav
  | slt | slti | sltiu | sltu
  | mult | multu | div | divu | mfhi | mflo
  | beq | bne | beqz | bnez | bgez | bgtz | blez | bltz | bc1f | bc1t
  | beql | bnel | bgezl | bgtzl | blezl | bltzl | bc1fl | bc1tl
  | bgezal | b | j | jal | jalr | jr
  | tne | teq | tge | tgeu | tlt
  | add_s | add_d | sub_s | sub_d | mul_s | mul_d | div_s | div_d
  | neg_s | neg_d | mov_s | mov_d | sqrt_s
  | c_lt_s | c_le_s | c_eq_s | c_lt_d | c_le_d | c_eq_d
  | cvt_s_w | cvt_d_w | cvt_d_s | cvt_s_d | cvt_w_d | cvt_w_s
  | cvt_l_d | cvt_l_s | cvt_s_l | cvt_d_l
  | trunc_w_s | trunc_w_d | trunc_l_d | trunc_l_s
  | brk
  | other
  deriving DecidableEq, Repr

/-- A decoded instruction, as `rrecomp.cpp` observes it through the rabbitizer
accessors.  `rs`/`rt`/`rd`/`sa` are the raw register/shift fields
(`RAB_INSTR_GET_*`); `fs`/`ft`/`fd` the COP1 register fields; `imm` is
`RabbitizerInstruction_getProcessedImmediate` of the original decode (for
branch instructions rabbitizer reports the branch *target* vram here);
`instrIndexVram` is `RabbitizerInstruction_getInstrIndexAsVram` (J-type
target); `branchOffset` is `RabbitizerInstruction_getBranchOffset`.
`uniqueId` is the (possibly patched) `uniqueId` field and `descr` the
(possibly patched) `descriptor` field; the source occasionally sets the two
inconsistently (e.g. `r_link_with_lui` rewrites an `ADDIU` user to `MOVE`
while installing the `ORI` descriptor), which is why both are kept. -/
structure Instr where
  uniqueId : InstrId := .other
  descr : InstrId := .other
  rs : Nat := 0
  rt : Nat := 0
  rd : Nat := 0
  sa : Nat := 0
  fs : Nat := 0
  ft : Nat := 0
  fd : Nat := 0
  imm : Int := 0
  instrIndexVram : Nat := 0
  branchOffset : Int := 0
  vram : Nat := 0
  word : Nat := 0
  cop1cs : Nat := 31
  deriving DecidableEq, Repr

/-- Modelled from the rabbitizer descriptor tables: `isJump` is true for the
jump and branch instructions (the source relies on branch targets reaching the
`isIType` arm of `r_pass1`, so branches are jumps for this predicate). -/
def InstrId.isJump : InstrId → Bool
  | .j | .jal | .jalr | .jr | .bgezal
  | .beq | .bne | .beqz | .bnez | .bgez | .bgtz | .blez | .bltz
  | .bc1f | .bc1t
  | .beql | .bnel | .bgezl | .bgtzl | .blezl | .bltzl | .bc1fl | .bc1tl
  | .b => true
  | _ => false

/-- Modelled from the rabbitizer descriptor tables
(`RabbitizerInstrDescriptor_isIType`): immediate-carrying instructions among
the ids the source cares about (used only for branch-target label insertion in
`r_pass1`). -/
def InstrId.isIType : InstrId → Bool
  | .beq | .bne | .beqz | .bnez | .bgez | .bgtz | .blez | .bltz
  | .bc1f | .bc1t
  | .beql | .bnel | .bgezl | .bgtzl | .blezl | .bltzl | .bc1fl | .bc1tl
  | .b | .bgezal
  | .addi | .addiu | .andi | .ori | .xori | .slti | .sltiu | .lui
  | .lb | .lbu | .lh | .lhu | .lw | .lwu | .lwl | .lwr | .ld | .ldl | .ldr
  | .sb | .sh | .sw | .swl | .swr | .sd
  | .lwc1 | .lwc2 | .swc1 | .swc2 | .ldc1 | .sdc1 => true
  | _ => false

/-- Modelled from the rabbitizer descriptor tables
(`RabbitizerInstrDescriptor_modifiesRt`). -/
def InstrId.modifiesRt : InstrId → Bool
  | .addi | .addiu | .andi | .ori | .xori | .slti | .sltiu | .lui
  | .lb | .lbu | .lh | .lhu | .lw | .lwu | .lwl | .lwr | .ld | .ldl | .ldr
  | .mfc1 | .cfc1 => true
  | _ => false

/-- Modelled from the rabbitizer descriptor tables
(`RabbitizerInstrDescriptor_modifiesRd`). -/
def InstrId.modifiesRd : InstrId → Bool
  | .add | .addu | .sub | .subu | .and | .or | .xor | .nor | .not | .negu
  | .move | .sll | .srl | .sra | .sllv | .srlv | .srav
  | .slt | .sltu | .mfhi | .mflo | .jalr => true
  | _ => false

/-- Modelled from the rabbitizer operand tables:
`RabbitizerInstruction_hasOperandAlias(instr, RAB_OPERAND_cpu_rs)` (memory
operands alias their base register `rs`). -/
def InstrId.hasRs : InstrId → Bool
  | .add | .addu | .sub | .subu | .and | .or | .xor | .nor | .not
  | .move | .sllv | .srlv | .srav | .slt | .sltu
  | .addi | .addiu | .andi | .ori | .xori | .slti | .sltiu
  | .lb | .lbu | .lh | .lhu | .lw | .lwu | .lwl | .lwr | .ld | .ldl | .ldr
  | .sb | .sh | .sw | .swl | .swr | .sd
  | .lwc1 | .lwc2 | .swc1 | .swc2 | .ldc1 | .sdc1
  | .mult | .multu | .div | .divu
  | .beq | .bne | .beqz | .bnez | .bgez | .bgtz | .blez | .bltz
  | .beql | .bnel | .bgezl | .bgtzl | .blezl | .bltzl | .bgezal
  | .jr | .jalr
  | .tne | .teq | .tge | .tgeu | .tlt => true
  | _ => false

/-- Modelled from the rabbitizer operand tables:
`RabbitizerInstruction_hasOperandAlias(instr, RAB_OPERAND_cpu_rt)`. -/
def InstrId.hasRt : InstrId → Bool
  | .add | .addu | .sub | .subu | .and | .or | .xor | .nor | .negu
  | .sll | .srl | .sra | .sllv | .srlv | .srav | .slt | .sltu
  | .addi | .addiu | .andi | .ori | .xori | .slti | .sltiu | .lui
  | .lb | .lbu | .lh | .lhu | .lw | .lwu | .lwl | .lwr | .ld | .ldl | .ldr
  | .sb | .sh | .sw | .swl | .swr | .sd
  | .mult | .multu | .div | .divu
  | .beq | .bne | .beql | .bnel
  | .mtc1 | .mfc1 | .cfc1 | .ctc1
  | .tne | .teq | .tge | .tgeu | .tlt => true
  | _ => false

/-- O32 GPR numbers (`RabbitizerRegister_GprO32`): `$zero = 0` ... `$ra = 31`,
plus the two synthetic ids the source defines for `$hi`/`$lo`. -/
def REG_zero : Nat := 0
def REG_at : Nat := 1
def REG_v0 : Nat := 2
def REG_v1 : Nat := 3
def REG_a0 : Nat := 4
def REG_a1 : Nat := 5
def REG_a2 : Nat := 6
def REG_a3 : Nat := 7
def REG_t0 : Nat := 8
def REG_t9 : Nat := 25
def REG_gp : Nat := 28
def REG_sp : Nat := 29
def REG_ra : Nat := 31
def REG_hi : Nat := 32
def REG_lo : Nat := 33

/-- `r_map_reg`: bit mask of a register (bit 0 is the "reachable" marker, so
register `reg` maps to bit `reg + 1`). -/
def r_map_reg (reg : Nat) : Nat := 1 <<< (reg - REG_zero + 1)

/-- `r_temporary_regs`: mask of `$t0 .. $t9`. -/
def r_temporary_regs : Nat :=
  r_map_reg 8 ||| r_map_reg 9 ||| r_map_reg 10 ||| r_map_reg 11 |||
  r_map_reg 12 ||| r_map_reg 13 ||| r_map_reg 14 ||| r_map_reg 15 |||
  r_map_reg 24 ||| r_map_reg 25

/-- CFG edge (`struct Edge`): target/source index plus the four tag bits. -/
structure Edge where
  i : Nat
  function_entry : Bool := false
  function_exit : Bool := false
  extern_function : Bool := false
  function_pointer : Bool := false
  deriving DecidableEq, Repr

/-- Instruction record (`struct RInsn`).  `linked_value` also stores the bit
pattern of `linked_float` (the two share a union in the source). -/
structure RInsn where
  instruction : Instr := {}
  is_global_got_memop : Bool := false
  no_following_successor : Bool := false
  patched : Bool := false
  patched_addr : Nat := 0
  linked_insn : Int := 0
  linked_value : Nat := 0
  jtbl_addr : Nat := 0
  num_cases : Nat := 0
  index_reg : Nat := 0
  successors : List Edge := []
  predecessors : List Edge := []
  b_liveout : Nat := 0
  b_livein : Nat := 0
  f_livein : Nat := 0
  f_liveout : Nat := 0
  deriving DecidableEq, Repr

/-- Function record (`struct Function`); `value-initialized` on first map
access, hence the zero/false defaults. -/
structure Function where
  returns : List Nat := []
  end_addr : Nat := 0
  nargs : Nat := 0
  nret : Nat := 0
  v0_in : Bool := false
  referenced_by_function_pointer : Bool := false
  deriving DecidableEq, Repr

/-- Entry of the static `extern_functions` catalog. -/
structure ExternFunction where
  name : String
  params : String
  flags : Nat
  deriving DecidableEq, Repr

def FLAG_NO_MEM : Nat := 1
def FLAG_VARARG : Nat := 2

/-- Pipeline state: the file-scope globals of `rrecomp.cpp` that the analysis
passes read and write.  `rodata_section` is `none` when the input has no
`.rodata` (the source's NULL pointer); its bytes are big-endian, indexed from
the start of the section.  `label_addresses` models the `set<uint32_t>` (the
claims below never depend on its ordering), `functions` the
`map<uint32_t, Function>` as an association list with unique keys. -/
structure St where
  conservative : Bool := false
  text_vaddr : Nat := 0
  text_section_len : Nat := 0
  rodata_section : Option (List Nat) := none
  rodata_vaddr : Nat := 0
  rodata_section_len : Nat := 0
  gp_value : Nat := 0
  gp_value_adj : Nat := 0
  got_locals : List Nat := []
  got_globals : List Nat := []
  symbol_names : List (Nat × String) := []
  main_addr : Nat := 0
  mcount_addr : Nat := 0
  data_function_pointers : List (Nat × Nat) := []
  li_function_pointers : List Nat := []
  rinsns : List RInsn := []
  label_addresses : List Nat := []
  functions : List (Nat × Function) := []
  deriving DecidableEq, Repr

/-- Read `rinsns[i]`; out-of-range indices yield a default record (the source
would be out-of-bounds there; no theorem below depends on this choice). -/
def St.insnAt (st : St) (i : Nat) : RInsn := st.rinsns.getD i {}

/-- Write `rinsns[i]` through an update function (no-op when out of range). -/
def listModify (l : List RInsn) (i : Nat) (f : RInsn → RInsn) : List RInsn :=
  match l.get? i with
  | some x => l.set i (f x)
  | none => l

def St.modifyInsn (st : St) (i : Nat) (f : RInsn → RInsn) : St :=
  { st with rinsns := listModify st.rinsns i f }

/-- `addr_to_i`. -/
def addr_to_i (st : St) (addr : Nat) : Nat := (addr - st.text_vaddr) / 4

/-- Insertion into the `set<uint32_t> label_addresses`. -/
def St.insertLabel (st : St) (a : Nat) : St :=
  if a ∈ st.label_addresses then st else { st with label_addresses := a :: st.label_addresses }

/-- `add_function`: create a (default) entry for `addr` when it lies in
`.text` and is not yet present. -/
def add_function (st : St) (addr : Nat) : St :=
  if st.text_vaddr ≤ addr ∧ addr < st.text_vaddr + st.text_section_len then
    match st.functions.lookup addr with
    | some _ => st
    | none => { st with functions := st.functions ++ [(addr, {})] }
  else st

/-- `get_dest_reg` (consults the descriptor, i.e. the `descr` field). -/
def get_dest_reg (instr : Instr) : Nat :=
  if instr.descr.modifiesRt then instr.rt
  else if instr.descr.modifiesRd then instr.rd
  else REG_zero

/-- `get_dest_reg_mask`. -/
def get_dest_reg_mask (instr : Instr) : Nat :=
  if instr.descr.modifiesRt then r_map_reg instr.rt
  else if instr.descr.modifiesRd then r_map_reg instr.rd
  else 0

/-- `get_single_source_reg_mask`. -/
def get_single_source_reg_mask (instr : Instr) : Nat :=
  if instr.descr.hasRs then r_map_reg instr.rs
  else if instr.descr.hasRt then r_map_reg instr.rt
  else 0

/-- `get_all_source_reg_mask`. -/
def get_all_source_reg_mask (instr : Instr) : Nat :=
  (if instr.descr.hasRs then r_map_reg instr.rs else 0) |||
  (if instr.descr.hasRt ∧ ¬instr.descr.modifiesRt then r_map_reg instr.rt else 0)

/-- Truncation to `uint32_t`. -/
def u32 (x : Nat) : Nat := x % 2 ^ 32

/-- Conversion of a C `int` value to `uint32_t` (two's complement wraparound). -/
def u32i (x : Int) : Nat := (x % (2 ^ 32 : Int)).toNat

/-- `read_u32_be` over a byte list (big endian). -/
def read_u32_be (bytes : List Nat) (off : Nat) : Nat :=
  (bytes.getD off 0 <<< 24) + (bytes.getD (off + 1) 0 <<< 16) +
  (bytes.getD (off + 2) 0 <<< 8) + bytes.getD (off + 3) 0

/-- Shorthand accessors for fields of `rinsns[k]`. -/
def St.uidAt (st : St) (k : Nat) : InstrId := (st.insnAt k).instruction.uniqueId

def St.descrAt (st : St) (k : Nat) : InstrId := (st.insnAt k).instruction.descr

def St.rsAt (st : St) (k : Nat) : Nat := (st.insnAt k).instruction.rs

def St.rtAt (st : St) (k : Nat) : Nat := (st.insnAt k).instruction.rt

def St.rdAt (st : St) (k : Nat) : Nat := (st.insnAt k).instruction.rd

def St.immAt (st : St) (k : Nat) : Int := (st.insnAt k).instruction.imm

def St.linkedAt (st : St) (k : Nat) : Int := (st.insnAt k).linked_insn

/-- Patch `rinsns[j]` to a NOP (`patched = true`, id and descriptor `NOP`),
as the source does in several places of `r_pass1`. -/
def nopPatch (st : St) (j : Nat) : St :=
  st.modifyInsn j fun r =>
    { r with patched := true,
             instruction := { r.instruction with uniqueId := .nop, descr := .nop } }

/-- Backward scan of `r_link_with_lui` (the `for (search ...)` loop).  Returns
the producer index together with the resolved address when the GOT-local `LW`
branch fires; `none` when the scan ends without linking.  `fuel` counts the
remaining iterations (the source iterates `search` from `offset - 1` down to
`max(0, offset - 128)`). -/
def luiScanGo (st : St) (offset reg : Nat) (mem_imm : Int) :
    Nat → Nat → Option (Nat × Nat)
  | _, 0 => none
  | search, fuel + 1 =>
    match st.uidAt search with
    | .lui =>
      if reg = st.rtAt search then none
      else luiScanGo st offset reg mem_imm (search - 1) fuel
    | .lw | .ld | .addiu | .add | .sub | .subu =>
      -- `mem_imm0` is the producer's immediate, `got_entry` the GOT slot
      if reg = get_dest_reg (st.insnAt search).instruction then
        if st.uidAt search = .lw ∧ st.rsAt search = REG_gp then
          if u32i (st.immAt search + st.gp_value_adj) / 4 < st.got_locals.length then
            some (search,
              u32i ((st.got_locals.getD (u32i (st.immAt search + st.gp_value_adj) / 4) 0 : Int) +
                mem_imm))
          else none
        else none
      else luiScanGo st offset reg mem_imm (search - 1) fuel
    | .jr =>
      if st.rdAt search = REG_ra ∧ 2 ≤ offset - search then none
      else luiScanGo st offset reg mem_imm (search - 1) fuel
    | _ => luiScanGo st offset reg mem_imm (search - 1) fuel

/-- `r_link_with_lui`.  The assert on an unsupported user-site instruction is
modelled as an error. -/
def r_link_with_lui (st : St) (offset reg : Nat) (mem_imm : Int) :
    Except String St :=
  match luiScanGo st offset reg mem_imm (offset - 1) (offset - (offset - 128)) with
  | none => .ok st
  | some (search, addr) =>
    let st := st.modifyInsn search fun r =>
      { r with linked_insn := (offset : Int), linked_value := addr,
               patched := true, patched_addr := addr,
               instruction := { r.instruction with uniqueId := .ori, descr := .ori } }
    let st := st.modifyInsn offset fun r =>
      { r with linked_insn := (search : Int), linked_value := addr }
    match st.uidAt offset with
    | .addiu =>
      -- the source copies the descriptor of `rinsns[search]`, which was just
      -- patched to `ORI`, so the rewritten `MOVE` keeps the `ORI` descriptor
      let st := st.modifyInsn offset fun r =>
        { r with patched := true,
                 instruction := { r.instruction with uniqueId := .move, descr := .ori } }
      if st.text_vaddr ≤ addr ∧ addr < st.text_vaddr + st.text_section_len then
        .ok (add_function st addr)
      else .ok st
    | .lb | .lbu | .sb | .lh | .lhu | .sh | .lw | .sw | .ldc1 | .lwc1 | .swc1 =>
      .ok (st.modifyInsn offset fun r => { r with patched := true, patched_addr := 0 })
    | _ => .error "Unsupported instruction type"

/-- Result of the backward scan of `r_link_with_jalr`. -/
inductive JalrDec where
  | lwOri (search : Nat)
  | addiuChain (search : Nat) (first : Int)
  deriving DecidableEq, Repr

/-- Backward scan of `r_link_with_jalr`. -/
def jalrScanGo (st : St) : Nat → Nat → Option JalrDec
  | _, 0 => none
  | search, fuel + 1 =>
    if get_dest_reg (st.insnAt search).instruction = REG_t9 then
      match st.uidAt search with
      | .lw | .ori =>
        if (st.insnAt search).is_global_got_memop ∨ st.uidAt search = .ori then
          some (.lwOri search)
        else none
      | .addiu =>
        if st.linkedAt search ≠ -1 then some (.addiuChain search (st.linkedAt search))
        else none
      | .ld | .addu | .add | .sub | .subu => none
      | _ => jalrScanGo st (search - 1) fuel
    else if st.uidAt search = .jr ∧ st.rsAt search = REG_ra then none
    else jalrScanGo st (search - 1) fuel

/-- `r_link_with_jalr`. -/
def r_link_with_jalr (st : St) (offset : Nat) : St :=
  match jalrScanGo st (offset - 1) (offset - (offset - 128)) with
  | none => st
  | some (.lwOri search) =>
    let uidS := st.uidAt search  -- descriptor copied before `search` is NOP'd
    let lv := (st.insnAt search).linked_value
    let st := st.modifyInsn search fun r => { r with linked_insn := (offset : Int) }
    let st := st.modifyInsn offset fun r =>
      { r with linked_insn := (search : Int), linked_value := lv,
               patched := true, patched_addr := u32i r.instruction.imm,
               instruction := { r.instruction with uniqueId := .jal, descr := uidS } }
    let st := st.modifyInsn search fun r =>
      { r with patched := true, is_global_got_memop := false,
               instruction := { r.instruction with uniqueId := .nop, descr := .nop } }
    add_function st lv
  | some (.addiuChain search first) =>
    let lv := (st.insnAt search).linked_value
    let st := st.modifyInsn search fun r => { r with linked_insn := (offset : Int) }
    st.modifyInsn offset fun r => { r with linked_insn := first, linked_value := lv }

/-- Backward scan of the floating-point `LI` detection in `r_pass1`
(the `MTC1` case): find the producing `LUI`. -/
def mtc1ScanGo (st : St) (rt : Nat) : Nat → Nat → Option Nat
  | _, 0 => none
  | s, fuel + 1 =>
    match st.uidAt s with
    | .lui => if st.rtAt s = rt then some s else none
    | .lw | .ld | .lh | .lhu | .lb | .lbu | .addiu | .add | .sub | .subu =>
      if rt = st.rdAt s then none else mtc1ScanGo st rt (s - 1) fuel
    | .jr =>
      if st.rsAt s = REG_ra then none else mtc1ScanGo st rt (s - 1) fuel
    | _ => mtc1ScanGo st rt (s - 1) fuel

/-- Search for the bound-checking `SLTIU $at` in the jump-table recognition
(`for (j = 5; j <= end; j++)`, breaking on an earlier `JR`). -/
def sltiuSearch (st : St) (lw he : Nat) : Nat → Nat → Option Nat
  | _, 0 => none
  | jv, fuel + 1 =>
    if st.uidAt (lw - he - jv) = .sltiu ∧ st.rtAt (lw - he - jv) = REG_at then some jv
    else if st.uidAt (lw - he - jv) = .jr then none
    else sltiuSearch st lw he (jv + 1) fuel

/-- Insert the (gp-relative) jump-table entries into `label_addresses`. -/
def insertJtblLabels (st : St) (bytes : List Nat) (jtblPos : Nat) :
    Nat → Nat → St
  | _, 0 => st
  | k, n + 1 =>
    let target := u32 (read_u32_be bytes (jtblPos + k * 4) + st.gp_value)
    insertJtblLabels (st.insertLabel target) bytes jtblPos (k + 1) n

/-- The parameters the `JR` jump-table recognition extracts from the
instruction window when it succeeds. -/
structure JtblRec where
  jtbl_addr : Nat
  num_cases : Nat
  index_reg : Nat
  and_variant : Bool
  is_pic : Bool
  lw : Nat
  addu_index : Nat
  deriving Repr, DecidableEq

/-- The pattern-matching part of the `JR` jump-table recognition of `r_pass1`
(lines 611-736 of the source): pure reads of the instruction window around
the `JR` at `i`.  Index arithmetic that would be negative (out-of-bounds
reads in the C++) clamps at zero here, matching `St.insnAt`'s total model of
`rinsns[]`. -/
def r_jtbl_recognize (st : St) (i : Nat) : Option JtblRec :=
  if 7 ≤ i then
    let is_pic := st.uidAt (i - 1) = .addu ∧ st.rtAt (i - 1) = REG_gp
    let ip := if is_pic then 1 else 0
    let has_nop := st.uidAt (i - ip - 1) = .nop
    let hn := if has_nop then 1 else 0
    let has_extra := st.uidAt (i - ip - hn - 5) ≠ .beqz
    let he := if has_extra then 1 else 0
    let lw0 := i - ip - hn - 1
    let lw := if st.uidAt lw0 ≠ .lw then lw0 - 1 else lw0
    if st.uidAt lw = .lw ∧ st.linkedAt lw ≠ -1 then
      let addu_index0 := lw - 1
      let addu_index := if st.uidAt addu_index0 ≠ .addu then addu_index0 - 1 else addu_index0
      let index_reg := st.rsAt (addu_index - 1)
      if st.uidAt addu_index ≠ .addu then none
      else if st.uidAt (addu_index - 1) ≠ .sll then none
      else if get_dest_reg (st.insnAt (addu_index - 1)).instruction ≠ st.rsAt i then none
      else
        let andi_index : Option Nat :=
          if st.uidAt (lw - 3) = .andi then some (lw - 3)
          else if st.uidAt (lw - 4) = .andi then some (lw - 4)
          else none
        let endj := if i = 368393 then 18 else 14
        let sltiu_index := sltiuSearch st lw he 5 (endj - 4)
        let andi_index := if sltiu_index.isSome then none else andi_index
        let found? : Option (Nat × Bool) :=
          match sltiu_index with
          | some jv =>
            if st.uidAt (lw - he - jv) = .sltiu then some (u32i (st.immAt (lw - he - jv)), false)
            else if i = 219382 then some (13, false)
            else if i = 370995 then some (12, false)
            else none
          | none =>
            match andi_index with
            | some ai => some (u32 (u32i (st.immAt ai) + 1), true)
            | none =>
              if i = 219382 then some (13, false)
              else if i = 370995 then some (12, false)
              else none
        match found? with
        | none => none
        | some (num_cases, and_variant) =>
          some { jtbl_addr := (st.insnAt lw).linked_value, num_cases := num_cases,
                 index_reg := index_reg, and_variant := and_variant, is_pic := is_pic,
                 lw := lw, addu_index := addu_index }
    else none
  else none

/-- The `JR` jump-table handling of `r_pass1` (lines 611-753 of the source):
on successful recognition, patch the participating instructions to NOPs,
record the table parameters on the `JR`, and fatally reject a table that is
not entirely inside `.rodata`. -/
def r_jtbl_step (st : St) (i : Nat) : Except String St :=
  match st.rodata_section with
  | none => .ok st
  | some bytes =>
    match r_jtbl_recognize st i with
    | none => .ok st
    | some jt =>
      -- the check below reads the `rodata_vaddr`/`rodata_section_len`
      -- globals, which none of the instruction patches touch
      let rv := st.rodata_vaddr
      let rl := st.rodata_section_len
      let st := if jt.is_pic then nopPatch st (i - 1) else st
      let st := st.modifyInsn i fun r =>
        { r with jtbl_addr := jt.jtbl_addr, num_cases := jt.num_cases,
                 index_reg := jt.index_reg }
      let st := nopPatch st jt.lw
      let st := nopPatch st jt.addu_index
      let st := nopPatch st (jt.addu_index - 1)
      let st := if ¬jt.and_variant then nopPatch st (jt.addu_index - 2) else st
      -- `num_cases * sizeof(uint32_t)` is a `size_t` product, so the
      -- left-hand sum does not wrap; the right-hand `uint32_t` sum does
      if jt.jtbl_addr < rv ∨ jt.jtbl_addr + jt.num_cases * 4 > u32 (rv + rl) then
        .error "jump table outside rodata"
      else
        .ok (insertJtblLabels st bytes (jt.jtbl_addr - rv) 0 jt.num_cases)

/-- One iteration of the `r_pass1` loop body for instruction index `i`. -/
def r_pass1_step (st : St) (i : Nat) : Except String St := do
  -- BAL canonicalization: BGEZAL $zero → JAL
  let st :=
    if st.uidAt i = .bgezal ∧ st.rsAt i = REG_zero then
      st.modifyInsn i fun r =>
        { r with patched := true, patched_addr := u32i r.instruction.imm,
                 instruction := { r.instruction with uniqueId := .jal, descr := .jal } }
    else st
  -- jump handling (label/function registration, jump tables)
  let st ←
    if (st.descrAt i).isJump then
      if st.uidAt i = .jal ∨ st.uidAt i = .j then
        let target := if (st.insnAt i).patched then (st.insnAt i).patched_addr
                      else (st.insnAt i).instruction.instrIndexVram
        pure (add_function (st.insertLabel target) target)
      else if st.uidAt i = .jr then
        r_jtbl_step st i
      else if (st.descrAt i).isIType then
        pure (st.insertLabel (u32i (st.immAt i)))
      else pure st
    else pure st
  -- the opcode switch
  let st ←
    match st.uidAt i with
    | .mtc1 =>
      match mtc1ScanGo st (st.rtAt i) (i - 1) i with
      | none => pure st
      | some s =>
        let lui_imm := u32 (u32i (st.immAt s) <<< 16)
        pure <| st.modifyInsn s fun r =>
          { r with linked_insn := (i : Int), linked_value := lui_imm,
                   patched := true, patched_addr := lui_imm,
                   instruction := { r.instruction with uniqueId := .ori, descr := .ori } }
    | .sd | .sw | .sh | .sb | .lb | .lbu | .ld | .ldl | .ldr | .lh | .lhu
    | .lw | .lwu | .ldc1 | .lwc1 | .lwc2 | .swc1 | .swc2 =>
      let mem_rs := st.rsAt i
      let mem_imm := st.immAt i
      if mem_rs = REG_gp then
        let got_entry := u32i (mem_imm + st.gp_value_adj) / 4
        if got_entry < st.got_locals.length then pure st
        else
          let got_entry := got_entry - st.got_locals.length
          if got_entry < st.got_globals.length then
            if st.uidAt i = .lw then
              let dest_vaddr := st.got_globals.getD got_entry 0
              pure <| st.modifyInsn i fun r =>
                { r with is_global_got_memop := true, linked_value := dest_vaddr,
                         patched := true, patched_addr := dest_vaddr,
                         instruction := { r.instruction with uniqueId := .ori, descr := .ori } }
            else throw "assert: got-global memop must be LW"
          else pure st
      else r_link_with_lui st i mem_rs mem_imm
    | .addiu | .ori =>
      let rd := st.rdAt i
      let rs := st.rsAt i
      let imm := st.immAt i
      if rs = REG_zero then pure st
      else if rd ≠ REG_gp then r_link_with_lui st i rs imm
      else pure st
    | .jalr =>
      if st.rsAt i = REG_t9 then
        let st := r_link_with_jalr st i
        if st.linkedAt i ≠ -1 then
          let lv := (st.insnAt i).linked_value
          let st := st.modifyInsn i fun r =>
            { r with patched := true, patched_addr := r.linked_value,
                     instruction := { r.instruction with uniqueId := .jal, descr := .jal } }
          pure (add_function (st.insertLabel lv) lv)
        else pure st
      else pure st
    | _ => pure st
  -- GP-restore elision (PIC prologue `LUI/ADDIU/ADDU $gp,$gp,$t9`)
  if st.uidAt i = .addu ∧ st.rdAt i = REG_gp ∧ st.rsAt i = REG_gp ∧
      st.rtAt i = REG_t9 ∧ 2 ≤ i then
    pure (nopPatch (nopPatch (nopPatch st (i - 2)) (i - 1)) i)
  else pure st

/-- Loop driver of `r_pass1`. -/
def r_pass1_go (st : St) : Nat → Nat → Except String St
  | _, 0 => .ok st
  | i, fuel + 1 => do
    let st ← r_pass1_step st i
    r_pass1_go st (i + 1) fuel

/-- `r_pass1`: symbol resolution over the whole instruction vector. -/
def r_pass1 (st : St) : Except String St := r_pass1_go st 0 st.rinsns.length

/-- `r_add_edge`: append one successor entry at `fromI` and one predecessor
entry at `toI`, with identical tag bits (`from`/`to` in the source). -/
def r_add_edge (st : St) (fromI toI : Nat)
    (function_entry : Bool := false) (function_exit : Bool := false)
    (extern_function : Bool := false) (function_pointer : Bool := false) : St :=
  let fe : Edge := { i := toI, function_entry, function_exit, extern_function, function_pointer }
  let be : Edge := { i := fromI, function_entry, function_exit, extern_function, function_pointer }
  let st := st.modifyInsn fromI fun r => { r with successors := r.successors ++ [fe] }
  st.modifyInsn toI fun r => { r with predecessors := r.predecessors ++ [be] }

/-- Branch target index: `addr_to_i(patched ? patched_addr : vram + branch offset)`. -/
def branchTargetIdx (st : St) (i : Nat) : Nat :=
  addr_to_i st
    (if (st.insnAt i).patched then (st.insnAt i).patched_addr
     else (((st.insnAt i).instruction.vram : Int) + (st.insnAt i).instruction.branchOffset).toNat)

/-- Add the jump-table case edges out of the delay slot of a `JR` (the
`for (j = 0; j < num_cases; j++)` loop of `r_pass3`). -/
def addJtblEdges (st : St) (i : Nat) (bytes : List Nat) (jtblPos : Nat) :
    Nat → Nat → St
  | _, 0 => st
  | jv, n + 1 =>
    let dest_addr := u32 (read_u32_be bytes (jtblPos + jv * 4) + st.gp_value)
    addJtblEdges (r_add_edge st (i + 1) (addr_to_i st dest_addr)) i bytes jtblPos (jv + 1) n

/-- Add the `function_exit` edges from each return of the callee back to the
instruction after the call's delay slot. -/
def addReturnEdges (st : St) (i2 : Nat) : List Nat → St
  | [] => st
  | ret :: rest => addReturnEdges (r_add_edge st (addr_to_i st ret) i2 false true) i2 rest

/-- One iteration of the `r_pass3` loop body for instruction index `i`. -/
def r_pass3_step (st : St) (i : Nat) : Except String St :=
  if (st.insnAt i).no_following_successor then .ok st
  else
    match st.uidAt i with
    | .beq | .bgez | .bgtz | .blez | .bltz | .bne | .beqz | .bnez | .bc1f | .bc1t =>
      let st := r_add_edge st i (i + 1)
      .ok (r_add_edge st (i + 1) (branchTargetIdx st i))
    | .beql | .bgezl | .bgtzl | .blezl | .bltzl | .bnel | .bc1fl | .bc1tl =>
      let st := r_add_edge st i (i + 1)
      let st := r_add_edge st i (i + 2)
      let st := r_add_edge st (i + 1) (branchTargetIdx st i)
      .ok (st.modifyInsn (i + 1) fun r => { r with no_following_successor := true })
    | .b | .j =>
      let st := r_add_edge st i (i + 1)
      let st := r_add_edge st (i + 1) (branchTargetIdx st i)
      .ok (st.modifyInsn (i + 1) fun r => { r with no_following_successor := true })
    | .jr =>
      let st := r_add_edge st i (i + 1)
      if (st.insnAt i).jtbl_addr ≠ 0 then
        let jtbl_pos := u32 ((st.insnAt i).jtbl_addr - st.rodata_vaddr)
        if jtbl_pos < st.rodata_section_len ∧
            jtbl_pos + (st.insnAt i).num_cases * 4 ≤ st.rodata_section_len then
          let bytes := st.rodata_section.getD []
          let st := addJtblEdges st i bytes jtbl_pos 0 (st.insnAt i).num_cases
          .ok (st.modifyInsn (i + 1) fun r => { r with no_following_successor := true })
        else .error "assert: jump table bounds"
      else
        if st.rsAt i = REG_ra then
          .ok (st.modifyInsn (i + 1) fun r => { r with no_following_successor := true })
        else .error "assert: jump to address in register not supported"
    | .jal =>
      let st := r_add_edge st i (i + 1)
      let dest := if (st.insnAt i).patched then (st.insnAt i).patched_addr
                  else (st.insnAt i).instruction.instrIndexVram
      if st.mcount_addr < dest ∧ st.text_vaddr ≤ dest ∧
          dest < st.text_vaddr + st.text_section_len then
        let st := r_add_edge st (i + 1) (addr_to_i st dest) true
        match st.functions.lookup dest with
        | none => .error "assert: JAL target not a function"
        | some f =>
          let st := addReturnEdges st (i + 2) f.returns
          .ok (st.modifyInsn (i + 1) fun r => { r with no_following_successor := true })
      else
        let st := r_add_edge st (i + 1) (i + 2) false false true
        .ok (st.modifyInsn (i + 1) fun r => { r with no_following_successor := true })
    | .jalr =>
      let st := r_add_edge st i (i + 1)
      let st := r_add_edge st (i + 1) (i + 2) false false false true
      .ok (st.modifyInsn (i + 1) fun r => { r with no_following_successor := true })
    | _ => .ok (r_add_edge st i (i + 1))

/-- Loop driver of `r_pass3`. -/
def r_pass3_go (st : St) : Nat → Nat → Except String St
  | _, 0 => .ok st
  | i, fuel + 1 => do
    let st ← r_pass3_step st i
    r_pass3_go st (i + 1) fuel

/-- `r_pass3`: CFG construction. -/
def r_pass3 (st : St) : Except String St := r_pass3_go st 0 st.rinsns.length

/-- Per-instruction transfer type (`typedef enum { TYPE_NOP, ... } TYPE`). -/
inductive TYPE where
  | NOP | T1S | T2S | T1D | T1D_1S | T1D_2S | D_LO_HI_2S | T1S_POS1
  deriving DecidableEq, Repr

/-- `r_insn_to_type`.  The source takes the instruction by reference and, for
a jump-table `JR`, packs `index_reg` into the word's `rs` field
(`RAB_INSTR_PACK_rs`); the updated record is returned alongside the type.
`ADD_S`/`ADD_D` fall through to `TYPE_NOP` (a dead `return TYPE_1D_2S`
follows in the source).  The `JR` case tests the `rt` field against `$ra`
(and `rt` of a decoded `JR` is the zero field). -/
def r_insn_to_type (insn : RInsn) : TYPE × RInsn :=
  match insn.instruction.uniqueId with
  | .add_s | .add_d => (.NOP, insn)
  | .add | .addu | .addi | .addiu | .andi | .ori
  | .lb | .lbu | .lh | .lhu | .lw | .lwl
  | .move | .negu | .not | .sll | .slti | .sltiu | .sra | .srl | .xori =>
    (.T1D_1S, insn)
  | .mfhi => (.T1D_1S, insn)
  | .mflo => (.T1D_1S, insn)
  | .and | .or | .nor | .sllv | .slt | .sltu | .srav | .srlv | .subu | .xor =>
    (.T1D_2S, insn)
  | .cfc1 | .mfc1 | .lui => (.T1D, insn)
  | .ctc1 | .bgez | .bgezl | .bgtz | .bgtzl | .blez | .blezl | .bltz | .bltzl
  | .beqz | .bnez | .mtc1 => (.T1S, insn)
  | .beq | .beql | .bne | .bnel | .sb | .sh | .sw | .swl
  | .tne | .teq | .tge | .tgeu | .tlt => (.T2S, insn)
  | .div => (.D_LO_HI_2S, insn)
  | .div_s | .div_d => (.NOP, insn)
  | .divu | .mult | .multu => (.D_LO_HI_2S, insn)
  | .neg_s | .neg_d => (.NOP, insn)
  | .jalr => (.T1S, insn)
  | .jr =>
    let insn :=
      if insn.jtbl_addr ≠ 0 then
        { insn with instruction := { insn.instruction with rs := insn.index_reg } }
      else insn
    if insn.instruction.rt = REG_ra then (.NOP, insn) else (.T1S, insn)
  | .lwc1 | .ldc1 | .swc1 | .sdc1 => (.T1S_POS1, insn)
  | _ => (.NOP, insn)

/-- The static `extern_functions` catalog (split into chunks to keep list-literal elaboration fast; `extern_functions` below is their concatenation in source order). -/
def externFunctionsChunk0 : List ExternFunction := [
  ⟨"exit", "vi", 0⟩,
  ⟨"abort", "v", 0⟩,
  ⟨"sbrk", "pi", 0⟩,
  ⟨"malloc", "pu", 0⟩,
  ⟨"calloc", "puu", 0⟩,
  ⟨"realloc", "ppu", 0⟩,
  ⟨"free", "vp", 0⟩,
  ⟨"fscanf", "ipp", 2⟩,
  ⟨"printf", "ip", 2⟩,
  ⟨"sprintf", "ipp", 2⟩,
  ⟨"fprintf", "ipp", 2⟩,
  ⟨"_doprnt", "ippp", 0⟩,
  ⟨"strlen", "up", 0⟩,
  ⟨"open", "ipii", 0⟩,
  ⟨"creat", "ipi", 0⟩,
  ⟨"access", "ipi", 0⟩,
  ⟨"rename", "ipp", 0⟩,
  ⟨"utime", "ipp", 0⟩,
  ⟨"flock", "iii", 0⟩,
  ⟨"chmod", "ipu", 0⟩]

def externFunctionsChunk1 : List ExternFunction := [
  ⟨"umask", "ii", 1⟩,
  ⟨"ecvt", "pdipp", 0⟩,
  ⟨"fcvt", "pdipp", 0⟩,
  ⟨"sqrt", "dd", 1⟩,
  ⟨"sqrtf", "ff", 1⟩,
  ⟨"atoi", "ip", 0⟩,
  ⟨"atol", "ip", 0⟩,
  ⟨"atof", "dp", 0⟩,
  ⟨"strtol", "ippi", 0⟩,
  ⟨"strtoul", "uppi", 0⟩,
  ⟨"strtoll", "lppi", 0⟩,
  ⟨"strtoull", "jppi", 0⟩,
  ⟨"strtod", "dpp", 0⟩,
  ⟨"strchr", "ppi", 0⟩,
  ⟨"strrchr", "ppi", 0⟩,
  ⟨"strcspn", "upp", 0⟩,
  ⟨"strpbrk", "ppp", 0⟩,
  ⟨"fstat", "iip", 0⟩,
  ⟨"stat", "ipp", 0⟩,
  ⟨"ftruncate", "iii", 0⟩]

def externFunctionsChunk2 : List ExternFunction := [
  ⟨"bcopy", "vppu", 0⟩,
  ⟨"memcpy", "pppu", 0⟩,
  ⟨"memccpy", "pppiu", 0⟩,
  ⟨"read", "iipu", 0⟩,
  ⟨"write", "iipu", 0⟩,
  ⟨"fopen", "ppp", 0⟩,
  ⟨"freopen", "pppp", 0⟩,
  ⟨"fclose", "ip", 0⟩,
  ⟨"ftell", "ip", 0⟩,
  ⟨"rewind", "vp", 0⟩,
  ⟨"fseek", "ipii", 0⟩,
  ⟨"lseek", "iiii", 0⟩,
  ⟨"fflush", "ip", 0⟩,
  ⟨"dup", "ii", 0⟩,
  ⟨"dup2", "iii", 0⟩,
  ⟨"pipe", "ip", 0⟩,
  ⟨"perror", "vp", 0⟩,
  ⟨"fdopen", "iip", 0⟩,
  ⟨"memset", "ppiu", 0⟩,
  ⟨"bcmp", "ippu", 0⟩]

def externFunctionsChunk3 : List ExternFunction := [
  ⟨"memcmp", "ippu", 0⟩,
  ⟨"getpid", "i", 1⟩,
  ⟨"getpgrp", "i", 0⟩,
  ⟨"remove", "ip", 0⟩,
  ⟨"unlink", "ip", 0⟩,
  ⟨"close", "ii", 0⟩,
  ⟨"strcmp", "ipp", 0⟩,
  ⟨"strncmp", "ippu", 0⟩,
  ⟨"strcpy", "ppp", 0⟩,
  ⟨"strncpy", "pppu", 0⟩,
  ⟨"strcat", "ppp", 0⟩,
  ⟨"strncat", "pppu", 0⟩,
  ⟨"strtok", "ppp", 0⟩,
  ⟨"strstr", "ppp", 0⟩,
  ⟨"strdup", "pp", 0⟩,
  ⟨"toupper", "ii", 1⟩,
  ⟨"tolower", "ii", 1⟩,
  ⟨"gethostname", "ipu", 0⟩,
  ⟨"isatty", "ii", 0⟩,
  ⟨"strftime", "upupp", 0⟩]

def externFunctionsChunk4 : List ExternFunction := [
  ⟨"times", "ip", 0⟩,
  ⟨"clock", "i", 1⟩,
  ⟨"ctime", "pp", 0⟩,
  ⟨"localtime", "pp", 0⟩,
  ⟨"setvbuf", "ippiu", 0⟩,
  ⟨"__semgetc", "ip", 0⟩,
  ⟨"__semputc", "iip", 0⟩,
  ⟨"fgetc", "ip", 0⟩,
  ⟨"fgets", "ipip", 0⟩,
  ⟨"__filbuf", "ip", 0⟩,
  ⟨"__flsbuf", "iip", 0⟩,
  ⟨"ungetc", "iip", 0⟩,
  ⟨"gets", "pp", 0⟩,
  ⟨"fread", "upuup", 0⟩,
  ⟨"fwrite", "upuup", 0⟩,
  ⟨"fputs", "ipp", 0⟩,
  ⟨"puts", "ip", 0⟩,
  ⟨"getcwd", "ppu", 0⟩,
  ⟨"time", "ip", 0⟩,
  ⟨"bzero", "vpu", 0⟩]

def externFunctionsChunk5 : List ExternFunction := [
  ⟨"fp_class_d", "id", 1⟩,
  ⟨"ldexp", "ddi", 1⟩,
  ⟨"__ll_mul", "lll", 1⟩,
  ⟨"__ll_div", "lll", 1⟩,
  ⟨"__ll_rem", "ljl", 1⟩,
  ⟨"__ll_lshift", "llj", 1⟩,
  ⟨"__ll_rshift", "llj", 1⟩,
  ⟨"__ull_div", "jjj", 1⟩,
  ⟨"__ull_rem", "jjj", 1⟩,
  ⟨"__ull_rshift", "jjj", 1⟩,
  ⟨"__d_to_ull", "jd", 1⟩,
  ⟨"__d_to_ll", "ld", 1⟩,
  ⟨"__f_to_ull", "jf", 1⟩,
  ⟨"__f_to_ll", "lf", 1⟩,
  ⟨"__ull_to_f", "fj", 1⟩,
  ⟨"__ll_to_f", "fl", 1⟩,
  ⟨"__ull_to_d", "dj", 1⟩,
  ⟨"__ll_to_d", "dl", 1⟩,
  ⟨"_exit", "vi", 0⟩,
  ⟨"_cleanup", "v", 0⟩]

def externFunctionsChunk6 : List ExternFunction := [
  ⟨"_rld_new_interface", "pu", 2⟩,
  ⟨"_exithandle", "v", 0⟩,
  ⟨"_prctl", "ii", 2⟩,
  ⟨"_atod", "dpii", 0⟩,
  ⟨"pathconf", "ipi", 0⟩,
  ⟨"getenv", "pp", 0⟩,
  ⟨"gettxt", "ppp", 0⟩,
  ⟨"setlocale", "pip", 0⟩,
  ⟨"mmap", "ppuiiii", 0⟩,
  ⟨"munmap", "ipu", 0⟩,
  ⟨"mprotect", "ipui", 0⟩,
  ⟨"sysconf", "ii", 0⟩,
  ⟨"getpagesize", "i", 0⟩,
  ⟨"strerror", "pi", 0⟩,
  ⟨"ioctl", "iiu", 2⟩,
  ⟨"fcntl", "iii", 2⟩,
  ⟨"signal", "pit", 0⟩,
  ⟨"sigset", "pit", 0⟩,
  ⟨"get_fpc_csr", "i", 0⟩,
  ⟨"set_fpc_csr", "ii", 0⟩]

def externFunctionsChunk7 : List ExternFunction := [
  ⟨"setjmp", "ip", 0⟩,
  ⟨"longjmp", "vpi", 0⟩,
  ⟨"tempnam", "ppp", 0⟩,
  ⟨"tmpnam", "pp", 0⟩,
  ⟨"mktemp", "pp", 0⟩,
  ⟨"mkstemp", "ip", 0⟩,
  ⟨"tmpfile", "p", 0⟩,
  ⟨"wait", "ip", 0⟩,
  ⟨"kill", "iii", 0⟩,
  ⟨"execlp", "ip", 2⟩,
  ⟨"execv", "ipp", 0⟩,
  ⟨"execvp", "ipp", 0⟩,
  ⟨"fork", "i", 0⟩,
  ⟨"system", "ip", 0⟩,
  ⟨"tsearch", "pppp", 0⟩,
  ⟨"tfind", "pppp", 0⟩,
  ⟨"qsort", "vpuut", 0⟩,
  ⟨"regcmp", "pp", 2⟩,
  ⟨"regex", "ppp", 2⟩,
  ⟨"__assert", "vppi", 0⟩]

/-- The full `extern_functions` table of the source. -/
def extern_functions : List ExternFunction :=
  externFunctionsChunk0 ++ externFunctionsChunk1 ++ externFunctionsChunk2 ++ externFunctionsChunk3 ++ externFunctionsChunk4 ++ externFunctionsChunk5 ++ externFunctionsChunk6 ++ externFunctionsChunk7

/-- Lookup of the extern record for a call-site target address
(`symbol_names.find` followed by the linear scan over `extern_functions`). -/
def findExternFn (st : St) (address : Nat) : Option ExternFunction :=
  match st.symbol_names.lookup address with
  | none => none
  | some name => extern_functions.find? fun fn => fn.name = name

/-- The O32 argument-register walk of `r_pass5` (the `for (const char* p =
found_fn->params + 1; ...)` loop, lines 1748-1801 of the source), one step per
parameter character.  Note the source's alignment test is `pos % 1 != 0`,
which is never true (flagged `// !!!` in the source); it is transcribed
verbatim here. -/
def externArgsWalk : List Char → Nat → Nat → Bool → Nat → Nat
  | [], _, _, _, args => args
  | c :: rest, pos, pos_float, only_floats_so_far, args =>
    match c with
    | 'i' | 'u' | 'p' | 't' =>
      let args := if pos < 4 then args ||| r_map_reg (REG_a0 + pos) else args
      externArgsWalk rest (pos + 1) pos_float false args
    | 'f' =>
      if only_floats_so_far ∧ pos_float < 4 then
        externArgsWalk rest (pos + 1) (pos_float + 2) only_floats_so_far args
      else
        let args := if pos < 4 then args ||| r_map_reg (REG_a0 + pos) else args
        externArgsWalk rest (pos + 1) pos_float only_floats_so_far args
    | 'd' =>
      let pos := if pos % 1 ≠ 0 then pos + 1 else pos
      if only_floats_so_far ∧ pos_float < 4 then
        externArgsWalk rest (pos + 2) (pos_float + 2) only_floats_so_far args
      else
        let args := if pos < 4 then
            args ||| r_map_reg (REG_a0 + pos) ||| r_map_reg (REG_a0 + pos + 1)
          else args
        externArgsWalk rest (pos + 2) pos_float only_floats_so_far args
    | 'l' | 'j' =>
      let pos := if pos % 1 ≠ 0 then pos + 1 else pos
      let args := if pos < 4 then
          args ||| r_map_reg (REG_a0 + pos) ||| r_map_reg (REG_a0 + pos + 1)
        else args
      externArgsWalk rest (pos + 2) pos_float false args
    | _ => externArgsWalk rest pos pos_float only_floats_so_far args

/-- The argument-register mask that `r_pass5` computes for a call to an
extern function: the vararg worst case, the parameter walk, then `$sp`. -/
def externCallArgsMask (fn : ExternFunction) : Nat :=
  let args : Nat := 1
  let args :=
    if fn.flags &&& FLAG_VARARG ≠ 0 then
      args ||| r_map_reg (REG_a0 + 0) ||| r_map_reg (REG_a0 + 1) |||
        r_map_reg (REG_a0 + 2) ||| r_map_reg (REG_a0 + 3)
    else args
  externArgsWalk (fn.params.toList.drop 1) 0 0 true args ||| r_map_reg REG_sp

/-- The caller-saved mask cleared on call-shaped edges in both liveness
passes (`$v0, $v1, $a0-$a3` plus the temporaries). -/
def callerSavedMask : Nat :=
  r_map_reg REG_v0 ||| r_map_reg REG_a0 ||| r_map_reg REG_a1 |||
  r_map_reg REG_a2 ||| r_map_reg REG_a3 ||| r_map_reg REG_v1 ||| r_temporary_regs

/-- `f_livein` seed of a function entry in `r_pass4` (`livein_func_start`). -/
def livein_func_start : Nat :=
  1 ||| r_map_reg REG_a0 ||| r_map_reg REG_a1 ||| r_map_reg REG_sp ||| r_map_reg REG_zero

/-- Propagation over the successor edges of one `r_pass4` iteration
(the `for (Edge& e : insn.successors)` loop).  Returns the updated state and
worklist together with the `function_entry` flag accumulated by the loop.
The debug `fprintf(stderr, ...)` calls of the source have no state effect and
are omitted.  `live & ~mask` is `Nat.ldiff live mask`. -/
def r_pass4_prop (st : St) (i : Nat) (live : Nat) :
    List Edge → List Nat → Bool → Except String (St × List Nat × Bool)
  | [], q, function_entry => .ok (st, q, function_entry)
  | e :: es, q, function_entry => do
    let res : Except String (Nat × Bool) :=
      if e.function_exit then
        pure (live &&& (1 ||| r_map_reg REG_v0 ||| r_map_reg REG_v1 ||| r_map_reg REG_zero),
          function_entry)
      else if e.function_entry then
        pure (live &&& (1 ||| r_map_reg REG_v0 ||| r_map_reg REG_a0 ||| r_map_reg REG_a1 |||
            r_map_reg REG_a2 ||| r_map_reg REG_a3 ||| r_map_reg REG_sp ||| r_map_reg REG_zero),
          true)
      else if e.extern_function then
        let address := if (st.insnAt (i - 1)).patched then (st.insnAt (i - 1)).patched_addr
                       else (st.insnAt (i - 1)).instruction.instrIndexVram
        match findExternFn st address with
        | none => .error "assert: missing extern function"
        | some found_fn =>
          let ret_type := found_fn.params.toList.headD ' '
          let nl := live.ldiff callerSavedMask
          let nl :=
            match ret_type with
            | 'i' | 'u' | 'p' => nl ||| r_map_reg REG_v0
            | 'l' | 'j' => nl ||| r_map_reg REG_v0 ||| r_map_reg REG_v1
            | _ => nl
          pure (nl, function_entry)
      else if e.function_pointer then
        pure (live.ldiff callerSavedMask ||| r_map_reg REG_v0 ||| r_map_reg REG_v1,
          function_entry)
      else pure (live, function_entry)
    let (new_live, function_entry) ← res
    if (st.insnAt e.i).f_livein ||| new_live ≠ (st.insnAt e.i).f_livein then
      let st := st.modifyInsn e.i fun r => { r with f_livein := r.f_livein ||| new_live }
      r_pass4_prop st i live es ((st.text_vaddr + e.i * 4) :: q) function_entry
    else
      r_pass4_prop st i live es q function_entry

/-- The `live` value `r_pass4` computes from the popped instruction before
comparing with its `f_liveout` (the `switch (insn_to_type(...))` block). -/
def pass4Live (ty : TYPE) (insn : RInsn) : Nat :=
  let live := insn.f_livein ||| 1
  match ty with
  | .T1D => live ||| get_dest_reg_mask insn.instruction
  | .T1D_1S =>
    if live &&& get_single_source_reg_mask insn.instruction ≠ 0 then
      live ||| get_dest_reg_mask insn.instruction
    else live
  | .T1D_2S =>
    let src_regs_map := get_all_source_reg_mask insn.instruction
    if live &&& src_regs_map = src_regs_map then
      live ||| get_dest_reg_mask insn.instruction
    else live
  | .D_LO_HI_2S =>
    let src_regs_map := get_all_source_reg_mask insn.instruction
    if live &&& src_regs_map = src_regs_map then
      live ||| r_map_reg REG_lo ||| r_map_reg REG_hi
    else live
  | _ => live

/-- One iteration of the `r_pass4` worklist loop, for the popped address
`addr`, with `q` the remaining worklist. -/
def r_pass4_step (st : St) (addr : Nat) (q : List Nat) : Except String (St × List Nat) := do
  let i := addr_to_i st addr
  let (ty, insn) := r_insn_to_type (st.insnAt i)
  let st := st.modifyInsn i fun _ => insn
  let live := pass4Live ty insn
  if insn.f_liveout ||| live = insn.f_liveout then
    .ok (st, q)
  else
    let live := live ||| insn.f_liveout
    let st := st.modifyInsn i fun r => { r with f_liveout := live }
    let (st, q, function_entry) ← r_pass4_prop st i live insn.successors q false
    if function_entry then
      -- skip-call edge for callee-saved liveness propagation
      let live := live.ldiff callerSavedMask
      if (st.insnAt (i + 1)).f_livein ||| live ≠ (st.insnAt (i + 1)).f_livein then
        let st := st.modifyInsn (i + 1) fun r => { r with f_livein := r.f_livein ||| live }
        .ok (st, (st.text_vaddr + (i + 1) * 4) :: q)
      else .ok (st, q)
    else .ok (st, q)

/-- Worklist seeding of `r_pass4` (before its `while (!q.empty())`). -/
def r_pass4_seed (st : St) : St × List Nat :=
  let q := [st.main_addr]
  let st := st.modifyInsn (addr_to_i st st.main_addr) fun r =>
    { r with f_livein := livein_func_start }
  let (st, q) := st.data_function_pointers.foldl (fun (p : St × List Nat) it =>
    (p.1.modifyInsn (addr_to_i p.1 it.2) fun r =>
      { r with f_livein := livein_func_start ||| r_map_reg REG_a2 ||| r_map_reg REG_a3 },
     it.2 :: p.2)) (st, q)
  st.li_function_pointers.foldl (fun (p : St × List Nat) addr =>
    (p.1.modifyInsn (addr_to_i p.1 addr) fun r =>
      { r with f_livein := livein_func_start ||| r_map_reg REG_a2 ||| r_map_reg REG_a3 },
     addr :: p.2)) (st, q)

/-- All liveness masks the passes manipulate fit in bits `0..34` (bit 0 is the
reachability marker, bit 34 is `$lo`). -/
def FULLMASK : Nat := 2 ^ 35 - 1

/-- Missing-bit count (as a numeric gap) of the forward masks of one record. -/
def insnMissing4 (r : RInsn) : Nat := (FULLMASK - r.f_livein) + (FULLMASK - r.f_liveout)

def sumMissing4 : List RInsn → Nat
  | [] => 0
  | r :: rest => insnMissing4 r + sumMissing4 rest

/-- Termination measure of the `r_pass4` worklist loop. -/
def measure4 (st : St) (q : List Nat) : Nat := sumMissing4 st.rinsns + q.length

/-- The `while (!q.empty())` loop of `r_pass4`, fuelled. -/
def r_pass4_loop : Nat → St → List Nat → Except String (St × List Nat)
  | 0, st, q => .ok (st, q)
  | fuel + 1, st, q =>
    match q with
    | [] => .ok (st, [])
    | addr :: rest => do
      let (st, q) ← r_pass4_step st addr rest
      r_pass4_loop fuel st q

/-- `r_pass4`: forward liveness.  The fuel `measure4` is proved sufficient to
drain the worklist below (claim C5). -/
def r_pass4 (st : St) : Except String St := do
  let (st, q) := r_pass4_seed st
  let (st, _) ← r_pass4_loop (measure4 st q) st q
  pure st

/-- Propagation over the predecessor edges of one `r_pass5` iteration.  The
argument-register computation for `extern_function` edges (lines 1739-1807 of
the source) is `externCallArgsMask` above. -/
def r_pass5_prop (st : St) (i : Nat) (live : Nat) :
    List Edge → List Nat → Bool → Except String (St × List Nat × Bool)
  | [], q, function_exit => .ok (st, q, function_exit)
  | e :: es, q, function_exit => do
    let res : Except String (Nat × Bool) :=
      if e.function_exit then
        pure (live &&& (1 ||| r_map_reg REG_v0 ||| r_map_reg REG_v1), true)
      else if e.function_entry then
        pure (live &&& (1 ||| r_map_reg REG_v0 ||| r_map_reg REG_a0 ||| r_map_reg REG_a1 |||
            r_map_reg REG_a2 ||| r_map_reg REG_a3 ||| r_map_reg REG_sp),
          function_exit)
      else if e.extern_function then
        let address := if (st.insnAt i).patched then (st.insnAt i).patched_addr
                       else (st.insnAt (i - 2)).instruction.instrIndexVram
        match findExternFn st address with
        | none => .error "assert: missing extern function"
        | some found_fn =>
          pure (live.ldiff callerSavedMask ||| externCallArgsMask found_fn, function_exit)
      else if e.function_pointer then
        pure (live.ldiff callerSavedMask ||| r_map_reg REG_a0 ||| r_map_reg REG_a1 |||
            r_map_reg REG_a2 ||| r_map_reg REG_a3,
          function_exit)
      else pure (live, function_exit)
    let (new_live, function_exit) ← res
    if (st.insnAt e.i).b_liveout ||| new_live ≠ (st.insnAt e.i).b_liveout then
      let st := st.modifyInsn e.i fun r => { r with b_liveout := r.b_liveout ||| new_live }
      r_pass5_prop st i live es ((st.text_vaddr + e.i * 4) :: q) function_exit
    else
      r_pass5_prop st i live es q function_exit

/-- The `live` value `r_pass5` computes from the popped instruction before
comparing with its `b_livein`. -/
def pass5Live (ty : TYPE) (insn : RInsn) : Nat :=
  let live := insn.b_liveout ||| 1
  match ty with
  | .T1S => live ||| get_single_source_reg_mask insn.instruction
  | .T1S_POS1 => live ||| get_single_source_reg_mask insn.instruction
  | .T2S => live ||| get_all_source_reg_mask insn.instruction
  | .T1D => live.ldiff (get_dest_reg_mask insn.instruction)
  | .T1D_1S =>
    if live &&& get_dest_reg_mask insn.instruction ≠ 0 then
      live.ldiff (get_dest_reg_mask insn.instruction) |||
        get_single_source_reg_mask insn.instruction
    else live
  | .T1D_2S =>
    if live &&& get_dest_reg_mask insn.instruction ≠ 0 then
      live.ldiff (get_dest_reg_mask insn.instruction) |||
        get_all_source_reg_mask insn.instruction
    else live
  | .D_LO_HI_2S =>
    let used := live &&& (r_map_reg REG_lo ||| r_map_reg REG_hi) ≠ 0
    let live := live.ldiff (r_map_reg REG_lo ||| r_map_reg REG_hi)
    if used then live ||| get_all_source_reg_mask insn.instruction else live
  | .NOP => live

/-- One iteration of the `r_pass5` worklist loop. -/
def r_pass5_step (st : St) (addr : Nat) (q : List Nat) : Except String (St × List Nat) := do
  let i := addr_to_i st addr
  let (ty, insn) := r_insn_to_type (st.insnAt i)
  let st := st.modifyInsn i fun _ => insn
  let live := pass5Live ty insn
  if insn.b_livein ||| live = insn.b_livein then
    .ok (st, q)
  else
    let live := live ||| insn.b_livein
    let st := st.modifyInsn i fun r => { r with b_livein := live }
    let (st, q, function_exit) ← r_pass5_prop st i live insn.predecessors q false
    if function_exit then
      -- skip-call edge for callee-saved liveness propagation
      let live := live.ldiff callerSavedMask
      if (st.insnAt (i - 1)).b_liveout ||| live ≠ (st.insnAt (i - 1)).b_liveout then
        let st := st.modifyInsn (i - 1) fun r => { r with b_liveout := r.b_liveout ||| live }
        .ok (st, (st.text_vaddr + (i - 1) * 4) :: q)
      else .ok (st, q)
    else .ok (st, q)

/-- `functions[addr]` through `map::operator[]`: inserts a value-initialized
record when the key is absent. -/
def getOrInsertFunction (st : St) (addr : Nat) : Function × St :=
  match st.functions.lookup addr with
  | some f => (f, st)
  | none => ({}, { st with functions := st.functions ++ [(addr, {})] })

/-- Seed the returns of one function with `b_liveout` mask `m`, pushing each
return address. -/
def seedReturns (m : Nat) : St → List Nat → List Nat → St × List Nat
  | st, q, [] => (st, q)
  | st, q, ret :: rest =>
    let st := st.modifyInsn (addr_to_i st ret) fun r => { r with b_liveout := m }
    seedReturns m st (ret :: q) rest

/-- Push every instruction with a non-zero `f_livein` (reachable), ascending. -/
def seedReachable (st : St) : Nat → Nat → List Nat → List Nat
  | _, 0, q => q
  | i, n + 1, q =>
    let q := if (st.insnAt i).f_livein ≠ 0 then (st.text_vaddr + i * 4) :: q else q
    seedReachable st (i + 1) n q

/-- Worklist seeding of `r_pass5` (the code before its `while (!q.empty())`).
The initial `q = functions[main_addr].returns` copies the vector; here the
worklist is a stack growing at the head, so the seeding order is mirrored —
the set of seeded work items and their masks are those of the source. -/
def r_pass5_seed (st : St) : Except String (St × List Nat) := do
  if (st.functions.lookup st.main_addr).isNone then
    .error "assert: functions.count(main_addr)"
  else
    let mainF := (st.functions.lookup st.main_addr).getD {}
    let q := mainF.returns
    let st := mainF.returns.foldl (fun (st : St) a =>
      st.modifyInsn (addr_to_i st a) fun r =>
        { r with b_liveout := 1 ||| r_map_reg REG_v0 }) st
    let m2 := 1 ||| r_map_reg REG_v0 ||| r_map_reg REG_v1
    let (st, q) := st.data_function_pointers.foldl (fun (p : St × List Nat) it =>
      let (f, st) := getOrInsertFunction p.1 it.2
      seedReturns m2 st p.2 f.returns) (st, q)
    let (st, q) := st.li_function_pointers.foldl (fun (p : St × List Nat) addr =>
      let (f, st) := getOrInsertFunction p.1 addr
      seedReturns m2 st p.2 f.returns) (st, q)
    let q := seedReachable st 0 st.rinsns.length q
    .ok (st, q)

/-- Missing-bit gap of the backward masks of one record. -/
def insnMissing5 (r : RInsn) : Nat := (FULLMASK - r.b_livein) + (FULLMASK - r.b_liveout)

def sumMissing5 : List RInsn → Nat
  | [] => 0
  | r :: rest => insnMissing5 r + sumMissing5 rest

/-- Termination measure of the `r_pass5` worklist loop. -/
def measure5 (st : St) (q : List Nat) : Nat := sumMissing5 st.rinsns + q.length

/-- The `while (!q.empty())` loop of `r_pass5`, fuelled. -/
def r_pass5_loop : Nat → St → List Nat → Except String (St × List Nat)
  | 0, st, q => .ok (st, q)
  | fuel + 1, st, q =>
    match q with
    | [] => .ok (st, [])
    | addr :: rest => do
      let (st, q) ← r_pass5_step st addr rest
      r_pass5_loop fuel st q

/-- `r_pass5`: backward liveness. -/
def r_pass5 (st : St) : Except String St := do
  let (st, q) ← r_pass5_seed st
  let (st, _) ← r_pass5_loop (measure5 st q) st q
  pure st

/-- Per-function body of `r_pass6` (the `for (auto& it : functions)` body):
`nret` from the returns, `nargs` and `v0_in` from the entry instruction.
`rinsns.at(addr_to_i(addr))` is total here through `St.insnAt`. -/
def r_pass6_fn (st : St) (addr : Nat) (f : Function) : Function :=
  let nret := f.returns.foldl (fun nret ret =>
    let r := st.insnAt (addr_to_i st ret)
    if r.f_liveout &&& r.b_liveout &&& r_map_reg REG_v1 ≠ 0 then 2
    else if r.f_liveout &&& r.b_liveout &&& r_map_reg REG_v0 ≠ 0 ∧ nret = 0 then 1
    else nret) f.nret
  let insn := st.insnAt (addr_to_i st addr)
  let nargs := (List.range 4).foldl (fun nargs i =>
    if insn.f_livein &&& insn.b_livein &&& r_map_reg (REG_a0 + i) ≠ 0 then 1 + i
    else nargs) f.nargs
  let v0_in := insn.f_livein &&& insn.b_livein &&& r_map_reg REG_v0 ≠ 0 ∧
    ¬f.referenced_by_function_pointer
  { f with nret := nret, nargs := nargs, v0_in := v0_in }

/-- `r_pass6`: signature inference over every function. -/
def r_pass6 (st : St) : St :=
  { st with functions := st.functions.map fun p => (p.1, r_pass6_fn st p.1 p.2) }

/-- One lowercase hex digit. -/
def hexDigit (d : Nat) : Char := "0123456789abcdef".toList.getD d 'x'

/-- Hex digit accumulation (most significant first); `fuel` bounds the digit
count and `n` itself always suffices. -/
def natHexAux : Nat → Nat → List Char → List Char
  | 0, _, acc => acc
  | fuel + 1, n, acc =>
    if n = 0 then acc else natHexAux fuel (n / 16) (hexDigit (n % 16) :: acc)

/-- Lowercase hex rendering (C `printf("%x", n)` / `"%llx"`). -/
def natHex (n : Nat) : String :=
  if n = 0 then "0" else String.mk (natHexAux n n [])

/-- Uppercase hex rendering (C `printf("%X", n)`). -/
def natHexUpper (n : Nat) : String := String.mk ((natHex n).toList.map Char.toUpper)

/-- Signed decimal rendering (C `printf("%d", i)`). -/
def intDec (i : Int) : String := toString i

def natDec (n : Nat) : String := toString n

/-- `r_r`: O32 GPR names. -/
def r_r (reg : Nat) : String :=
  ["zero", "at", "v0", "v1", "a0", "a1", "a2", "a3",
   "t0", "t1", "t2", "t3", "t4", "t5", "t6", "t7",
   "s0", "s1", "s2", "s3", "s4", "s5", "s6", "s7",
   "t8", "t9", "k0", "k1", "gp", "sp", "fp", "ra"].getD reg ""

/-- COP1 O32 register numbers used by the lowerer (`fv0 = 0` = `$f0`,
`fa0 = 12` = `$f12`, `FpcCsr = 31`), modelled from rabbitizer. -/
def COP1_fv0 : Nat := 0
def COP1_fa0 : Nat := 12
def COP1_FpcCsr : Nat := 31

/-- `r_wr`: word view of an FP register (the source's table indexed by
`reg - fv0`). -/
def r_wr (reg : Nat) : String :=
  "f" ++ natDec (2 * (reg / 2)) ++ ".w[" ++ natDec (reg % 2) ++ "]"

/-- `r_fr`: float view of an FP register. -/
def r_fr (reg : Nat) : String :=
  "f" ++ natDec (2 * (reg / 2)) ++ ".f[" ++ natDec (reg % 2) ++ "]"

/-- `r_dr`: double view of an (even) FP register; the odd case asserts in the
source, and the lowering functions below propagate that as an error. -/
def r_dr (reg : Nat) : String := "f" ++ natDec reg

/-- `// fdead`/`// bdead` annotation text (note the trailing space and the
absence of a newline: whatever follows is printed on the same output line). -/
def fdeadTag (mask : Nat) : String := "// fdead " ++ natHex mask ++ " "

def bdeadTag (mask : Nat) : String := "// bdead " ++ natHex mask ++ " "

/-- The dead-code annotation block of `r_dump_instr` (lines 2217-2272 of the
source): the text emitted before the instruction's statement. -/
def r_dump_ann (insn : RInsn) (conservative : Bool) : String :=
  if ¬insn.instruction.descr.isJump ∧ ¬conservative then
    match (r_insn_to_type insn).1 with
    | .T1S =>
      if insn.f_livein &&& get_single_source_reg_mask insn.instruction = 0 then
        fdeadTag insn.f_livein
      else ""
    | .T1S_POS1 =>
      if insn.f_livein &&& get_single_source_reg_mask insn.instruction = 0 then
        fdeadTag insn.f_livein
      else ""
    | .T2S =>
      let src_regs_map := get_all_source_reg_mask insn.instruction
      if ¬(insn.f_livein &&& src_regs_map = src_regs_map) then fdeadTag insn.f_livein
      else ""
    | .T1D_2S =>
      if insn.f_livein &&& r_map_reg insn.instruction.rt = 0 then fdeadTag insn.f_livein
      else if insn.f_livein &&& get_single_source_reg_mask insn.instruction = 0 then
        fdeadTag insn.f_livein
      else if insn.b_liveout &&& get_dest_reg_mask insn.instruction = 0 then
        bdeadTag insn.b_liveout
      else ""
    | .T1D_1S =>
      if insn.f_livein &&& get_single_source_reg_mask insn.instruction = 0 then
        fdeadTag insn.f_livein
      else if insn.b_liveout &&& get_dest_reg_mask insn.instruction = 0 then
        bdeadTag insn.b_liveout
      else ""
    | .T1D =>
      if insn.b_liveout &&& get_dest_reg_mask insn.instruction = 0 then
        bdeadTag insn.b_liveout
      else ""
    | .D_LO_HI_2S =>
      let src_regs_map := get_all_source_reg_mask insn.instruction
      if ¬(insn.f_livein &&& src_regs_map = src_regs_map) then fdeadTag insn.f_livein
      else if insn.b_liveout &&& (r_map_reg REG_lo ||| r_map_reg REG_hi) = 0 then
        bdeadTag insn.b_liveout
      else ""
    | .NOP => ""
  else ""

/-- Unsigned immediate as printed by the lowerer
(`insn.patched ? insn.patched_addr : getProcessedImmediate`). -/
def dumpImmU (insn : RInsn) : Nat :=
  if insn.patched then insn.patched_addr else u32i insn.instruction.imm

/-- Signed immediate as printed by the lowerer (`int32_t s_imm = ...`). -/
def dumpImmS (insn : RInsn) : Int :=
  let v := dumpImmU insn
  if v < 2 ^ 31 then (v : Int) else (v : Int) - 2 ^ 32

/-- Text of the arguments marshalled for one extern call in `r_dump_jal`
(the `for (const char* p = &found_fn->params[1]; ...)` loop).  Returns the
accumulated text and the `needs_sp` flag.  The `pos % 1 != 0` alignment test
of the source (always false) is transcribed verbatim. -/
def jalMarshalWalk : List Char → Nat → Nat → Bool → Bool → Bool → String →
    String × Bool
  | [], _, _, _, _, needs_sp, acc => (acc, needs_sp)
  | c :: rest, pos, pos_float, only_floats_so_far, first, needs_sp, acc =>
    let sep := if ¬first then ", " else ""
    match c with
    | 't' =>
      let txt := "trampoline, " ++
        (if pos < 4 then r_r (REG_a0 + pos)
         else "MEM_U32(sp + " ++ natDec (pos * 4) ++ ")")
      jalMarshalWalk rest (pos + 1) pos_float false false true (acc ++ sep ++ txt)
    | 'i' | 'u' | 'p' =>
      let txt :=
        if pos < 4 then r_r (REG_a0 + pos)
        else "MEM_" ++ (if c = 'i' then "S" else "U") ++ "32(sp + " ++
          natDec (pos * 4) ++ ")"
      jalMarshalWalk rest (pos + 1) pos_float false false needs_sp (acc ++ sep ++ txt)
    | 'f' =>
      if only_floats_so_far ∧ pos_float < 4 then
        jalMarshalWalk rest (pos + 1) (pos_float + 2) only_floats_so_far false needs_sp
          (acc ++ sep ++ r_fr (COP1_fa0 + pos_float))
      else
        let txt :=
          if pos < 4 then "BITCAST_U32_TO_F32(" ++ r_r (REG_a0 + pos) ++ ")"
          else "BITCAST_U32_TO_F32(MEM_U32(sp + " ++ natDec (pos * 4) ++ "))"
        jalMarshalWalk rest (pos + 1) pos_float only_floats_so_far false needs_sp
          (acc ++ sep ++ txt)
    | 'd' =>
      let pos := if pos % 1 ≠ 0 then pos + 1 else pos
      if only_floats_so_far ∧ pos_float < 4 then
        jalMarshalWalk rest (pos + 2) (pos_float + 2) only_floats_so_far false needs_sp
          (acc ++ sep ++ "double_from_FloatReg(" ++ r_dr (COP1_fa0 + pos_float) ++ ")")
      else
        let txt :=
          if pos < 4 then
            "BITCAST_U64_TO_F64(((uint64_t)" ++ r_r (REG_a0 + pos) ++
              " << 32) | (uint64_t)" ++ r_r (REG_a0 + pos + 1) ++ ")"
          else
            "BITCAST_U64_TO_F64(((uint64_t)MEM_U32(sp + " ++ natDec (pos * 4) ++
              ") << 32) | (uint64_t)MEM_U32(sp + " ++ natDec ((pos + 1) * 4) ++ "))"
        jalMarshalWalk rest (pos + 2) pos_float only_floats_so_far false needs_sp
          (acc ++ sep ++ txt)
    | 'l' | 'j' =>
      let pos := if pos % 1 ≠ 0 then pos + 1 else pos
      let txt :=
        (if c = 'l' then "(int64_t)" else "") ++
        (if pos < 4 then
          "(((uint64_t)" ++ r_r (REG_a0 + pos) ++ " << 32) | (uint64_t)" ++
            r_r (REG_a0 + pos + 1) ++ ")"
        else
          "(((uint64_t)MEM_U32(sp + " ++ natDec (pos * 4) ++
            ") << 32) | (uint64_t)MEM_U32(sp + " ++ natDec ((pos + 1) * 4) ++ "))")
      jalMarshalWalk rest (pos + 2) pos_float false false needs_sp (acc ++ sep ++ txt)
    | _ => jalMarshalWalk rest pos pos_float only_floats_so_far first needs_sp (acc ++ sep)

/-- `find_function`: the greatest function entry at or below `addr`
(`functions.upper_bound(addr)` then `--it`). -/
def find_function (st : St) (addr : Nat) : Option (Nat × Function) :=
  st.functions.foldl (fun acc p =>
    if p.1 ≤ addr then
      match acc with
      | none => some p
      | some q => if q.1 ≤ p.1 then some p else some q
    else acc) none

/-- The `//name:` symbol comment line of `r_dump_instr`. -/
def dumpSymComment (st : St) (i : Nat) : String :=
  match st.symbol_names.lookup (st.text_vaddr + i * 4) with
  | some nm => "//" ++ nm ++ ":\n"
  | none => ""

/-- The operand text produced by the external disassembler
(`RabbitizerInstruction_disassembleOperands`), abstracted as empty text; it
only appears inside `//swr` comments and `UNIMPLEMENTED` diagnostics. -/
def disasmText (_instr : Instr) : String := ""

/-- Emit the jump-table rows (`&&L%x,\n`) of the `JR` lowering, inserting each
target into `label_addresses`. -/
def dumpJtblCases (bytes : List Nat) (jtblPos : Nat) :
    St → Nat → Nat → String → String × St
  | st, _, 0, acc => (acc, st)
  | st, k, n + 1, acc =>
    let dest_addr := u32 (read_u32_be bytes (jtblPos + k * 4) + st.gp_value)
    dumpJtblCases bytes jtblPos (st.insertLabel dest_addr) (k + 1) n
      (acc ++ "&&L" ++ natHex dest_addr ++ ",\n")

/-- The vararg spill lines of `r_dump_jal`. -/
def jalVarargSpill : String :=
  (List.range 4).foldl (fun acc jv =>
    acc ++ "MEM_U32(sp + " ++ natDec (jv * 4) ++ ") = " ++ r_r (REG_a0 + jv) ++ ";\n") ""

/-- The four `SWL` byte stores. -/
def swlLines (rs rt : String) (s_imm : Int) : String :=
  (List.range 4).foldl (fun acc iv =>
    acc ++ "MEM_U8(" ++ rs ++ " + " ++ intDec s_imm ++ " + " ++ natDec iv ++
      ") = (uint8_t)(" ++ rt ++ " >> " ++ natDec ((3 - iv) * 8) ++ ");\n") ""

/-- The non-branching statement arms of `r_dump_instr` (the cases of the
big `switch` that do not recurse into a delay slot). -/
def r_dump_simple (st : St) (i : Nat) : Except String (String × St) :=
  let insn := st.insnAt i
  let rs := r_r insn.instruction.rs
  let rt := r_r insn.instruction.rt
  let rd := r_r insn.instruction.rd
  match insn.instruction.uniqueId with
    | .add | .addu => pure (rd ++ " = " ++ rs ++ " + " ++ rt ++ ";\n", st)
    | .add_s =>
      pure (r_fr insn.instruction.fd ++ " = " ++ r_fr insn.instruction.fs ++ " + " ++
        r_fr insn.instruction.ft ++ ";\n", st)
    | .add_d =>
      pure (r_dr insn.instruction.fd ++ " = FloatReg_from_double(double_from_FloatReg(" ++
        r_dr insn.instruction.fs ++ ") + double_from_FloatReg(" ++
        r_dr insn.instruction.ft ++ "));\n", st)
    | .addi | .addiu =>
      pure (rt ++ " = " ++ rs ++ " + 0x" ++ natHex (dumpImmU insn) ++ ";\n", st)
    | .and => pure (rd ++ " = " ++ rs ++ " & " ++ rt ++ ";\n", st)
    | .andi =>
      pure (rt ++ " = " ++ rs ++ " & 0x" ++ natHex (dumpImmU insn) ++ ";\n", st)
    | .brk => pure ("abort();\n", st)
    | .c_lt_s =>
      pure ("cf = " ++ r_fr insn.instruction.fs ++ " < " ++ r_fr insn.instruction.ft ++ ";\n", st)
    | .c_le_s =>
      pure ("cf = " ++ r_fr insn.instruction.fs ++ " <= " ++ r_fr insn.instruction.ft ++ ";\n", st)
    | .c_eq_s =>
      pure ("cf = " ++ r_fr insn.instruction.fs ++ " == " ++ r_fr insn.instruction.ft ++ ";\n", st)
    | .c_lt_d =>
      pure ("cf = double_from_FloatReg(" ++ r_dr insn.instruction.fs ++
        ") < double_from_FloatReg(" ++ r_dr insn.instruction.ft ++ ");\n", st)
    | .c_le_d =>
      pure ("cf = double_from_FloatReg(" ++ r_dr insn.instruction.fs ++
        ") <= double_from_FloatReg(" ++ r_dr insn.instruction.ft ++ ");\n", st)
    | .c_eq_d =>
      pure ("cf = double_from_FloatReg(" ++ r_dr insn.instruction.fs ++
        ") == double_from_FloatReg(" ++ r_dr insn.instruction.ft ++ ");\n", st)
    | .cvt_s_w =>
      pure (r_fr insn.instruction.fd ++ " = (int)" ++ r_wr insn.instruction.fs ++ ";\n", st)
    | .cvt_d_w =>
      pure (r_dr insn.instruction.fd ++ " = FloatReg_from_double((int)" ++
        r_wr insn.instruction.fs ++ ");\n", st)
    | .cvt_d_s =>
      pure (r_dr insn.instruction.fd ++ " = FloatReg_from_double(" ++
        r_fr insn.instruction.fs ++ ");\n", st)
    | .cvt_s_d =>
      pure (r_fr insn.instruction.fd ++ " = double_from_FloatReg(" ++
        r_dr insn.instruction.fs ++ ");\n", st)
    | .cvt_w_d =>
      pure (r_wr insn.instruction.fd ++ " = cvt_w_d(double_from_FloatReg(" ++
        r_dr insn.instruction.fs ++ "));\n", st)
    | .cvt_w_s =>
      pure (r_wr insn.instruction.fd ++ " = cvt_w_s(" ++ r_fr insn.instruction.fs ++ ");\n", st)
    | .cvt_l_d | .cvt_l_s | .cvt_s_l | .cvt_d_l =>
      pure ("UNIMPLEMENTED 0x" ++ natHexUpper insn.instruction.word ++ " : " ++
        disasmText insn.instruction ++ "\n", st)
    | .cfc1 =>
      if insn.instruction.cop1cs = COP1_FpcCsr then pure (rt ++ " = fcsr;\n", st)
      else .error "assert: cop1cs"
    | .ctc1 =>
      if insn.instruction.cop1cs = COP1_FpcCsr then pure ("fcsr = " ++ rt ++ ";\n", st)
      else .error "assert: cop1cs"
    | .div =>
      pure ("lo = (int)" ++ rs ++ " / (int)" ++ rt ++ "; " ++
        "hi = (int)" ++ rs ++ " % (int)" ++ rt ++ ";\n", st)
    | .divu =>
      pure ("lo = " ++ rs ++ " / " ++ rt ++ "; " ++
        "hi = " ++ rs ++ " % " ++ rt ++ ";\n", st)
    | .div_s =>
      pure (r_fr insn.instruction.fd ++ " = " ++ r_fr insn.instruction.fs ++ " / " ++
        r_fr insn.instruction.ft ++ ";\n", st)
    | .div_d =>
      pure (r_dr insn.instruction.fd ++ " = FloatReg_from_double(double_from_FloatReg(" ++
        r_dr insn.instruction.fs ++ ") / double_from_FloatReg(" ++
        r_dr insn.instruction.ft ++ "));\n", st)
    | .mov_s =>
      pure (r_fr insn.instruction.fd ++ " = " ++ r_fr insn.instruction.fs ++ ";\n", st)
    | .mov_d =>
      pure (r_dr insn.instruction.fd ++ " = " ++ r_dr insn.instruction.fs ++ ";\n", st)
    | .mul_s =>
      pure (r_fr insn.instruction.fd ++ " = " ++ r_fr insn.instruction.fs ++ " * " ++
        r_fr insn.instruction.ft ++ ";\n", st)
    | .mul_d =>
      pure (r_dr insn.instruction.fd ++ " = FloatReg_from_double(double_from_FloatReg(" ++
        r_dr insn.instruction.fs ++ ") * double_from_FloatReg(" ++
        r_dr insn.instruction.ft ++ "));\n", st)
    | .negu => pure (rd ++ " = -" ++ rt ++ ";\n", st)
    | .neg_s =>
      pure (r_fr insn.instruction.fd ++ " = -" ++ r_fr insn.instruction.fs ++ ";\n", st)
    | .neg_d =>
      pure (r_dr insn.instruction.fd ++ " = FloatReg_from_double(-double_from_FloatReg(" ++
        r_dr insn.instruction.fs ++ "));\n", st)
    | .sub =>
      pure ("UNIMPLEMENTED 0x" ++ natHexUpper insn.instruction.word ++ " : " ++
        disasmText insn.instruction ++ "\n", st)
    | .sub_s =>
      pure (r_fr insn.instruction.fd ++ " = " ++ r_fr insn.instruction.fs ++ " - " ++
        r_fr insn.instruction.ft ++ ";\n", st)
    | .sub_d =>
      pure (r_dr insn.instruction.fd ++ " = FloatReg_from_double(double_from_FloatReg(" ++
        r_dr insn.instruction.fs ++ ") - double_from_FloatReg(" ++
        r_dr insn.instruction.ft ++ "));\n", st)
    | .lb =>
      pure (rt ++ " = MEM_S8(" ++ rs ++ " + " ++ intDec (dumpImmS insn) ++ ");\n", st)
    | .lbu =>
      pure (rt ++ " = MEM_U8(" ++ rs ++ " + " ++ intDec (dumpImmS insn) ++ ");\n", st)
    | .lh =>
      pure (rt ++ " = MEM_S16(" ++ rs ++ " + " ++ intDec (dumpImmS insn) ++ ");\n", st)
    | .lhu =>
      pure (rt ++ " = MEM_U16(" ++ rs ++ " + " ++ intDec (dumpImmS insn) ++ ");\n", st)
    | .lui =>
      pure (rt ++ " = 0x" ++ natHex (u32 (dumpImmU insn <<< 16)) ++ ";\n", st)
    | .lw =>
      pure (rt ++ " = MEM_U32(" ++ rs ++ " + " ++ intDec (dumpImmS insn) ++ ");\n", st)
    | .lwc1 =>
      pure (r_wr insn.instruction.ft ++ " = MEM_U32(" ++ rs ++ " + " ++
        intDec (dumpImmS insn) ++ ");\n", st)
    | .ldc1 =>
      if insn.instruction.ft % 2 = 0 then
        pure (r_wr (insn.instruction.ft + 1) ++ " = MEM_U32(" ++ rs ++ " + " ++
          intDec (dumpImmS insn) ++ ");\n" ++
          r_wr insn.instruction.ft ++ " = MEM_U32(" ++ rs ++ " + " ++
          intDec (dumpImmS insn) ++ " + 4);\n", st)
      else .error "assert: ldc1 odd register"
    | .lwl =>
      let s_imm := dumpImmS insn
      pure (rt ++ " = " ++ rs ++ " + " ++ intDec s_imm ++ "; " ++
        rt ++ " = (MEM_U8(" ++ rt ++ ") << 24) | (MEM_U8(" ++ rt ++
        " + 1) << 16) | (MEM_U8(" ++ rt ++ " + 2) << 8) | MEM_U8(" ++ rt ++ " + 3);\n", st)
    | .lwr => pure ("", st)
    | .mfc1 => pure (rt ++ " = " ++ r_wr insn.instruction.fs ++ ";\n", st)
    | .mfhi => pure (rd ++ " = hi;\n", st)
    | .mflo => pure (rd ++ " = lo;\n", st)
    | .move => pure (rd ++ " = " ++ rs ++ ";\n", st)
    | .mtc1 => pure (r_wr insn.instruction.fs ++ " = " ++ rt ++ ";\n", st)
    | .mult =>
      pure ("lo = " ++ rs ++ " * " ++ rt ++ ";\n" ++
        "hi = (uint32_t)((int64_t)(int)" ++ rs ++ " * (int64_t)(int)" ++ rt ++
        " >> 32);\n", st)
    | .multu =>
      pure ("lo = " ++ rs ++ " * " ++ rt ++ ";\n" ++
        "hi = (uint32_t)((uint64_t)" ++ rs ++ " * (uint64_t)" ++ rt ++ " >> 32);\n", st)
    | .sqrt_s =>
      pure (r_fr insn.instruction.fd ++ " = sqrtf(" ++ r_fr insn.instruction.fs ++ ");\n", st)
    | .nor => pure (rd ++ " = ~(" ++ rs ++ " | " ++ rt ++ ");\n", st)
    | .not => pure (rd ++ " = ~" ++ rs ++ ";\n", st)
    | .or => pure (rd ++ " = " ++ rs ++ " | " ++ rt ++ ";\n", st)
    | .ori =>
      pure (rt ++ " = " ++ rs ++ " | 0x" ++ natHex (dumpImmU insn) ++ ";\n", st)
    | .sb =>
      pure ("MEM_U8(" ++ rs ++ " + " ++ intDec (dumpImmS insn) ++ ") = (uint8_t)" ++
        rt ++ ";\n", st)
    | .sh =>
      pure ("MEM_U16(" ++ rs ++ " + " ++ intDec (dumpImmS insn) ++ ") = (uint16_t)" ++
        rt ++ ";\n", st)
    | .sll =>
      pure (rd ++ " = " ++ rt ++ " << " ++ natDec insn.instruction.sa ++ ";\n", st)
    | .sllv => pure (rd ++ " = " ++ rt ++ " << (" ++ rs ++ " & 0x1f);\n", st)
    | .slt => pure (rd ++ " = (int)" ++ rs ++ " < (int)" ++ rt ++ ";\n", st)
    | .slti =>
      pure (rt ++ " = (int)" ++ rs ++ " < (int)0x" ++ natHex (dumpImmU insn) ++ ";\n", st)
    | .sltiu =>
      pure (rt ++ " = " ++ rs ++ " < 0x" ++ natHex (dumpImmU insn) ++ ";\n", st)
    | .sltu => pure (rd ++ " = " ++ rs ++ " < " ++ rt ++ ";\n", st)
    | .sra =>
      pure (rd ++ " = (int)" ++ rt ++ " >> " ++ natDec insn.instruction.sa ++ ";\n", st)
    | .srav => pure (rd ++ " = (int)" ++ rt ++ " >> (" ++ rs ++ " & 0x1f);\n", st)
    | .srl =>
      pure (rd ++ " = " ++ rt ++ " >> " ++ natDec insn.instruction.sa ++ ";\n", st)
    | .srlv => pure (rd ++ " = " ++ rt ++ " >> (" ++ rs ++ " & 0x1f);\n", st)
    | .subu => pure (rd ++ " = " ++ rs ++ " - " ++ rt ++ ";\n", st)
    | .sw =>
      pure ("MEM_U32(" ++ rs ++ " + " ++ intDec (dumpImmS insn) ++ ") = " ++ rt ++ ";\n", st)
    | .swc1 =>
      pure ("MEM_U32(" ++ rs ++ " + " ++ intDec (dumpImmS insn) ++ ") = " ++
        r_wr insn.instruction.rt ++ ";\n", st)
    | .sdc1 =>
      if insn.instruction.ft % 2 = 0 then
        pure ("MEM_U32(" ++ rs ++ " + " ++ intDec (dumpImmS insn) ++ ") = " ++
          r_wr (insn.instruction.ft + 1) ++ ";\n" ++
          "MEM_U32(" ++ rs ++ " + " ++ intDec (dumpImmS insn) ++ " + 4) = " ++
          r_wr insn.instruction.ft ++ ";\n", st)
      else .error "assert: sdc1 odd register"
    | .swl => pure (swlLines rs rt (dumpImmS insn), st)
    | .swr => pure ("//swr " ++ disasmText insn.instruction ++ "\n", st)
    | .trunc_w_s =>
      pure (r_wr insn.instruction.fd ++ " = (int)" ++ r_fr insn.instruction.fs ++ ";\n", st)
    | .trunc_w_d =>
      pure (r_wr insn.instruction.fd ++ " = (int)double_from_FloatReg(" ++
        r_dr insn.instruction.fs ++ ");\n", st)
    | .trunc_l_d | .trunc_l_s =>
      pure ("UNIMPLEMENTED 0x" ++ natHexUpper insn.instruction.word ++ " : " ++
        disasmText insn.instruction ++ "\n", st)
    | .xor => pure (rd ++ " = " ++ rs ++ " ^ " ++ rt ++ ";\n", st)
    | .xori =>
      pure (rt ++ " = " ++ rs ++ " ^ 0x" ++ natHex (dumpImmU insn) ++ ";\n", st)
    | .tne =>
      pure ("assert(" ++ rs ++ " == " ++ rt ++ " && \"tne " ++
        intDec (dumpImmS insn) ++ "\");\n", st)
    | .teq =>
      pure ("assert(" ++ rs ++ " != " ++ rt ++ " && \"teq " ++
        intDec (dumpImmS insn) ++ "\");\n", st)
    | .tge =>
      pure ("assert((int)" ++ rs ++ " < (int)" ++ rt ++ " && \"tge " ++
        intDec (dumpImmS insn) ++ "\");\n", st)
    | .tgeu =>
      pure ("assert(" ++ rs ++ " < " ++ rt ++ " && \"tgeu " ++
        intDec (dumpImmS insn) ++ "\");\n", st)
    | .tlt =>
      pure ("assert((int)" ++ rs ++ " >= (int)" ++ rt ++ " && \"tlt " ++
        intDec (dumpImmS insn) ++ "\");\n", st)
    | .nop => pure ("//nop;\n", st)
    | _ =>
      pure ("UNIMPLEMENTED 0x" ++ natHexUpper insn.instruction.word ++ " : " ++
        disasmText insn.instruction ++ "\n", st)

mutual

/-- `r_dump_cond_branch`: the delay slot is emitted inside the taken path. -/
def r_dump_cond_branch (fuel : Nat) (st : St) (i : Nat) (lhs op rhs : String) :
    Except String (String × St) :=
  match fuel with
  | 0 => .error "fuel"
  | fuel + 1 => do
    let insn := st.insnAt i
    let cast1 := if op ≠ "==" ∧ op ≠ "!=" then "(int)" else ""
    let cast2 := if (op ≠ "==" ∧ op ≠ "!=") ∧ rhs ≠ "0" then "(int)" else ""
    let head := "if (" ++ cast1 ++ lhs ++ " " ++ op ++ " " ++ cast2 ++ rhs ++ ") \x7b"
    let (delay, st) ← r_dump_instr fuel st (i + 1)
    let addr := if insn.patched then insn.patched_addr else u32i insn.instruction.imm
    pure (head ++ delay ++ "goto L" ++ natHex addr ++ ";\x7d\n", st)
termination_by structural fuel

/-- `r_dump_cond_branch_likely` (TRACE off): adds the not-taken `goto` to
`i + 2` and registers that label. -/
def r_dump_cond_branch_likely (fuel : Nat) (st : St) (i : Nat) (lhs op rhs : String) :
    Except String (String × St) :=
  match fuel with
  | 0 => .error "fuel"
  | fuel + 1 => do
    let target := st.text_vaddr + (i + 2) * 4
    let (s, st) ← r_dump_cond_branch fuel st i lhs op rhs
    pure (s ++ "else goto L" ++ natHex target ++ ";\n", st.insertLabel target)
termination_by structural fuel

/-- `r_dump_jal`: extern calls go through `wrapper_<name>` with the marshal
walk, internal calls through `f_<name>`/`func_<addr>` with the inferred
signature. -/
def r_dump_jal (fuel : Nat) (st : St) (i : Nat) (imm : Nat) :
    Except String (String × St) :=
  match fuel with
  | 0 => .error "fuel"
  | fuel + 1 => do
    let found_fn := findExternFn st imm
    let (delay, st) ← r_dump_instr fuel st (i + 1)
    let (body, st) ←
      match found_fn with
      | some fn => do
        let spill := if fn.flags &&& FLAG_VARARG ≠ 0 then jalVarargSpill else ""
        let ret_type := fn.params.toList.headD ' '
        let retPre :=
          match ret_type with
          | 'i' | 'u' | 'p' => r_r REG_v0 ++ " = "
          | 'f' => r_fr COP1_fv0 ++ " = "
          | 'd' => "tempf64 = "
          | 'l' | 'j' => "temp64 = "
          | _ => ""
        let first := ¬(fn.flags &&& FLAG_NO_MEM ≠ 0)
        let memtxt := if ¬(fn.flags &&& FLAG_NO_MEM ≠ 0) then "mem" else ""
        let (argstxt, needs_sp) :=
          jalMarshalWalk (fn.params.toList.drop 1) 0 0 true first false ""
        let firstAfter := first ∧ fn.params.toList.drop 1 = []
        let sptxt :=
          if fn.flags &&& FLAG_VARARG ≠ 0 ∨ needs_sp then
            (if firstAfter then "" else ", ") ++ r_r REG_sp
          else ""
        let retPost :=
          if ret_type = 'l' ∨ ret_type = 'j' then
            r_r REG_v0 ++ " = (uint32_t)(temp64 >> 32);\n" ++
              r_r REG_v1 ++ " = (uint32_t)temp64;\n"
          else if ret_type = 'd' then
            r_dr COP1_fv0 ++ " = FloatReg_from_double(tempf64);\n"
          else ""
        pure (spill ++ retPre ++ "wrapper_" ++ fn.name ++ "(" ++ memtxt ++ argstxt ++
          sptxt ++ ");\n" ++ retPost, st)
      | none => do
        match st.functions.lookup imm with
        | none => .error "functions.find(imm) == end"
        | some f =>
          let retPre :=
            if f.nret = 1 then "v0 = "
            else if f.nret = 2 then "temp64 = "
            else ""
          let callee :=
            match st.symbol_names.lookup imm with
            | some nm => "f_" ++ nm
            | none => "func_" ++ natHex imm
          let args :=
            (if f.v0_in then ", " ++ r_r REG_v0 else "") ++
            (List.range f.nargs).foldl (fun acc k => acc ++ ", " ++ r_r (REG_a0 + k)) ""
          let retPost :=
            if f.nret = 2 then
              r_r REG_v0 ++ " = (uint32_t)(temp64 >> 32);\n" ++
                r_r REG_v1 ++ " = (uint32_t)temp64;\n"
            else ""
          pure (retPre ++ callee ++ "(mem, sp" ++ args ++ ");\n" ++ retPost, st)
    let target := st.text_vaddr + (i + 2) * 4
    pure (delay ++ body ++ "goto L" ++ natHex target ++ ";\n", st.insertLabel target)
termination_by structural fuel

/-- `r_dump_instr`: symbol comment, dead-code annotation, then the statement
for the instruction (TRACE off). -/
def r_dump_instr (fuel : Nat) (st : St) (i : Nat) : Except String (String × St) :=
  match fuel with
  | 0 => .error "fuel"
  | fuel + 1 => do
    let insn := st.insnAt i
    let symPart := dumpSymComment st i
    let ann := r_dump_ann insn st.conservative
    let rs := r_r insn.instruction.rs
    let rt := r_r insn.instruction.rt
    let res : Except String (String × St) :=
      match insn.instruction.uniqueId with
      | .beq => r_dump_cond_branch fuel st i rs "==" rt
      | .beql => r_dump_cond_branch_likely fuel st i rs "==" rt
      | .bgez => r_dump_cond_branch fuel st i rs ">=" "0"
      | .bgezl => r_dump_cond_branch_likely fuel st i rs ">=" "0"
      | .bgtz => r_dump_cond_branch fuel st i rs ">" "0"
      | .bgtzl => r_dump_cond_branch_likely fuel st i rs ">" "0"
      | .blez => r_dump_cond_branch fuel st i rs "<=" "0"
      | .blezl => r_dump_cond_branch_likely fuel st i rs "<=" "0"
      | .bltz => r_dump_cond_branch fuel st i rs "<" "0"
      | .bltzl => r_dump_cond_branch_likely fuel st i rs "<" "0"
      | .bne => r_dump_cond_branch fuel st i rs "!=" rt
      | .bnel => r_dump_cond_branch_likely fuel st i rs "!=" rt
      | .beqz => r_dump_cond_branch fuel st i rs "==" "0"
      | .b => do
        let (delay, st) ← r_dump_instr fuel st (i + 1)
        pure (delay ++ "goto L" ++ natHex (dumpImmU insn) ++ ";\n", st)
      | .bc1f => do
        let (delay, st) ← r_dump_instr fuel st (i + 1)
        pure ("if (!cf) \x7b" ++ delay ++ "goto L" ++ natHex (dumpImmU insn) ++ ";\x7d\n", st)
      | .bc1t => do
        let (delay, st) ← r_dump_instr fuel st (i + 1)
        pure ("if (cf) \x7b" ++ delay ++ "goto L" ++ natHex (dumpImmU insn) ++ ";\x7d\n", st)
      | .bc1fl => do
        let target := st.text_vaddr + (i + 2) * 4
        let (delay, st) ← r_dump_instr fuel st (i + 1)
        pure ("if (!cf) \x7b" ++ delay ++ "goto L" ++ natHex (dumpImmU insn) ++ ";\x7d\n" ++
          "else goto L" ++ natHex target ++ ";\n", st.insertLabel target)
      | .bc1tl => do
        let target := st.text_vaddr + (i + 2) * 4
        let (delay, st) ← r_dump_instr fuel st (i + 1)
        pure ("if (cf) \x7b" ++ delay ++ "goto L" ++ natHex (dumpImmU insn) ++ ";\x7d\n" ++
          "else goto L" ++ natHex target ++ ";\n", st.insertLabel target)
      | .bnez => r_dump_cond_branch fuel st i rs "!=" "0"
      | .j => do
        let (delay, st) ← r_dump_instr fuel st (i + 1)
        pure (delay ++ "goto L" ++ natHex (dumpImmU insn) ++ ";\n", st)
      | .jal => r_dump_jal fuel st i (dumpImmU insn)
      | .jalr => do
        let (delay, st) ← r_dump_instr fuel st (i + 1)
        let target := st.text_vaddr + (i + 2) * 4
        pure ("fp_dest = " ++ rs ++ ";\n" ++ delay ++
          "temp64 = trampoline(mem, sp, " ++ r_r REG_a0 ++ ", " ++ r_r REG_a1 ++ ", " ++
            r_r REG_a2 ++ ", " ++ r_r REG_a3 ++ ", fp_dest);\n" ++
          r_r REG_v0 ++ " = (uint32_t)(temp64 >> 32);\n" ++
          r_r REG_v1 ++ " = (uint32_t)temp64;\n" ++
          "goto L" ++ natHex target ++ ";\n", st.insertLabel target)
      | .jr =>
        if insn.jtbl_addr ≠ 0 then
          let jtbl_pos := u32 (insn.jtbl_addr - st.rodata_vaddr)
          if jtbl_pos < st.rodata_section_len ∧
              jtbl_pos + insn.num_cases * 4 ≤ st.rodata_section_len then do
            let bytes := st.rodata_section.getD []
            let head := ";static void *const Lswitch" ++ natHex insn.jtbl_addr ++ "[] = \x7b\n"
            let (rows, st) := dumpJtblCases bytes jtbl_pos st 0 insn.num_cases ""
            let mid := "\x7d;\n" ++ "dest = Lswitch" ++ natHex insn.jtbl_addr ++ "[" ++
              r_r insn.index_reg ++ "];\n"
            let (delay, st) ← r_dump_instr fuel st (i + 1)
            pure (head ++ rows ++ mid ++ delay ++ "goto *dest;\n", st)
          else .error "assert: jump table bounds"
        else
          if insn.instruction.rs ≠ REG_ra then
            pure ("UNSUPPORTED JR " ++ rs ++ "    (no jumptable available)\n", st)
          else do
            let (delay, st) ← r_dump_instr fuel st (i + 1)
            match find_function st (st.text_vaddr + i * 4) with
            | none => .error "find_function out of range"
            | some (_, f) =>
              let retStmt :=
                if f.nret = 0 then "return;\n"
                else if f.nret = 1 then "return v0;\n"
                else if f.nret = 2 then "return ((uint64_t)v0 << 32) | v1;\n"
                else ""
              pure (delay ++ retStmt, st)
      | _ => r_dump_simple st i
    let (stmt, st2) ← res
    pure (symPart ++ ann ++ stmt, st2)
termination_by structural fuel

end

/-! ### Definitions used to state the claims -/

/-- Modelled from the spec (section 4.5): the O32 argument-register walk as
the specification words it — `d` and `l`/`j` parameters first align `pos` up
to the next even value whenever `pos` is odd, and only then mark the two
consecutive argument registers and advance `pos` by 2.  This is the
specification-side definition compared against `externArgsWalk` (the
source-side walk). -/
def externArgsWalkSpec : List Char → Nat → Nat → Bool → Nat → Nat
  | [], _, _, _, args => args
  | c :: rest, pos, pos_float, only_floats_so_far, args =>
    match c with
    | 'i' | 'u' | 'p' | 't' =>
      let args := if pos < 4 then args ||| r_map_reg (REG_a0 + pos) else args
      externArgsWalkSpec rest (pos + 1) pos_float false args
    | 'f' =>
      if only_floats_so_far ∧ pos_float < 4 then
        externArgsWalkSpec rest (pos + 1) (pos_float + 2) only_floats_so_far args
      else
        let args := if pos < 4 then args ||| r_map_reg (REG_a0 + pos) else args
        externArgsWalkSpec rest (pos + 1) pos_float only_floats_so_far args
    | 'd' =>
      let pos := if pos % 2 ≠ 0 then pos + 1 else pos
      if only_floats_so_far ∧ pos_float < 4 then
        externArgsWalkSpec rest (pos + 2) (pos_float + 2) only_floats_so_far args
      else
        let args := if pos < 4 then
            args ||| r_map_reg (REG_a0 + pos) ||| r_map_reg (REG_a0 + pos + 1)
          else args
        externArgsWalkSpec rest (pos + 2) pos_float only_floats_so_far args
    | 'l' | 'j' =>
      let pos := if pos % 2 ≠ 0 then pos + 1 else pos
      let args := if pos < 4 then
          args ||| r_map_reg (REG_a0 + pos) ||| r_map_reg (REG_a0 + pos + 1)
        else args
      externArgsWalkSpec rest (pos + 2) pos_float false args
    | _ => externArgsWalkSpec rest pos pos_float only_floats_so_far args

/-- Modelled from the spec: the argument-register mask with proper even
alignment of `pos` before double/64-bit parameters. -/
def externCallArgsMaskSpec (fn : ExternFunction) : Nat :=
  let args : Nat := 1
  let args :=
    if fn.flags &&& FLAG_VARARG ≠ 0 then
      args ||| r_map_reg (REG_a0 + 0) ||| r_map_reg (REG_a0 + 1) |||
        r_map_reg (REG_a0 + 2) ||| r_map_reg (REG_a0 + 3)
    else args
  externArgsWalkSpec (fn.params.toList.drop 1) 0 0 true args ||| r_map_reg REG_sp

/-- The `linked_insn` mutual-consistency property of the claim: for every
pair of instruction indices, `rinsns[s].linked_insn == o` iff
`rinsns[o].linked_insn == s`. -/
def linkedMutuallyConsistent (st : St) : Prop :=
  ∀ s o : Nat, s < st.rinsns.length → o < st.rinsns.length →
    (st.linkedAt s = (o : Int) ↔ st.linkedAt o = (s : Int))

/-- Split a character list at newlines. -/
def splitLines : List Char → List (List Char)
  | [] => [[]]
  | c :: rest =>
    let r := splitLines rest
    if c = '\n' then [] :: r
    else
      match r with
      | [] => [[c]]
      | l :: ls => (c :: l) :: ls

/-- Whether `stmt` occurs in `line` before any `//` comment marker (i.e. as
executable text of that line of the emitted program). -/
def lineExec (stmt : List Char) : List Char → Bool
  | [] => false
  | c :: rest =>
    if stmt.isPrefixOf (c :: rest) then true
    else if c = '/' ∧ rest.headD ' ' = '/' then false
    else lineExec stmt rest

/-- Whether `stmt` appears as an executable (not commented-out) statement on
some line of the emitted text `out`. -/
def stmtExecutable (out stmt : String) : Bool :=
  (splitLines out.toList).any fun line => lineExec stmt.toList line

/-- Whether `sub` occurs anywhere in `out` (the statement text is emitted at
all). -/
def containsSub (sub : List Char) : List Char → Bool
  | [] => sub.isEmpty
  | c :: rest => sub.isPrefixOf (c :: rest) || containsSub sub rest

def stmtEmitted (out stmt : String) : Bool := containsSub stmt.toList out.toList

/-- Number of successor entries of `rinsns[j]` equal to `e`. -/
def succCount (st : St) (j : Nat) (e : Edge) : Nat := (st.insnAt j).successors.count e

/-- Number of predecessor entries of `rinsns[j]` equal to `e`. -/
def predCount (st : St) (j : Nat) (e : Edge) : Nat := (st.insnAt j).predecessors.count e

/-- The successor and predecessor lists mirror each other: an edge
`(a → b)` with given tags occurs in `a`'s successors exactly as often as the
reversed entry occurs in `b`'s predecessors (over the instruction vector). -/
def edgeMirror (st : St) : Prop :=
  ∀ a b : Nat, a < st.rinsns.length → b < st.rinsns.length →
    ∀ t1 t2 t3 t4 : Bool,
      succCount st a ⟨b, t1, t2, t3, t4⟩ = predCount st b ⟨a, t1, t2, t3, t4⟩

/-- Mask order: `x ⊆ y` as bit sets. -/
def mle (x y : Nat) : Prop := x ||| y = y

/-- Bounds on the forward liveness masks and on the register fields consumed
by `r_map_reg` (register fields are 5-bit in the machine word; `index_reg` is
copied from such a field). -/
def wf4 (st : St) : Prop :=
  ∀ i : Nat, (st.insnAt i).f_livein ≤ FULLMASK ∧ (st.insnAt i).f_liveout ≤ FULLMASK ∧
    (st.insnAt i).instruction.rs < 32 ∧ (st.insnAt i).instruction.rt < 32 ∧
    (st.insnAt i).instruction.rd < 32 ∧ (st.insnAt i).index_reg < 32

/-- The same bounds for the backward masks. -/
def wf5 (st : St) : Prop :=
  ∀ i : Nat, (st.insnAt i).b_livein ≤ FULLMASK ∧ (st.insnAt i).b_liveout ≤ FULLMASK ∧
    (st.insnAt i).instruction.rs < 32 ∧ (st.insnAt i).instruction.rt < 32 ∧
    (st.insnAt i).instruction.rd < 32 ∧ (st.insnAt i).index_reg < 32

/-- Pointwise growth of the forward masks (`⊇` of the new state's masks). -/
def masksLe4 (st st' : St) : Prop :=
  ∀ i : Nat, mle (st.insnAt i).f_livein (st'.insnAt i).f_livein ∧
    mle (st.insnAt i).f_liveout (st'.insnAt i).f_liveout

/-- Pointwise growth of the backward masks. -/
def masksLe5 (st st' : St) : Prop :=
  ∀ i : Nat, mle (st.insnAt i).b_livein (st'.insnAt i).b_livein ∧
    mle (st.insnAt i).b_liveout (st'.insnAt i).b_liveout

/-! ### C2 -/

/-- C2: in `r_pass5`'s argument-register walk, the claimed alignment of `pos`
to the next even value before a `d` or `l`/`j` parameter never happens: the
source tests `pos % 1 != 0`, which is always false.  For an extern function
with parameters `"vid"` (an `int` followed by a `double`), the code marks
`$a1`/`$a2` and leaves `pos` odd, whereas the specification's aligned walk
(`externCallArgsMaskSpec`) marks `$a2`/`$a3`; the two masks differ.  (On every
parameter string in the shipped `extern_functions` catalog `pos` happens to be
even at each `d`/`l`/`j`, so the slip is latent there.) -/
theorem externCallArgsMask_misaligned_double :
    externCallArgsMask ⟨"example_vid", "vid", 0⟩ =
      (1 ||| r_map_reg REG_a0 ||| r_map_reg REG_a1 ||| r_map_reg REG_a2 |||
        r_map_reg REG_sp) ∧
    externCallArgsMaskSpec ⟨"example_vid", "vid", 0⟩ =
      (1 ||| r_map_reg REG_a0 ||| r_map_reg REG_a2 ||| r_map_reg REG_a3 |||
        r_map_reg REG_sp) ∧
    externCallArgsMask ⟨"example_vid", "vid", 0⟩ ≠
      externCallArgsMaskSpec ⟨"example_vid", "vid", 0⟩ ∧
    extern_functions.all
      (fun fn => externCallArgsMask fn == externCallArgsMaskSpec fn) = true := by
  refine ⟨by decide, by decide, by decide, by decide⟩

/-! ### Helper lemmas about the state model -/

theorem listModify_length (l : List RInsn) (i : Nat) (f : RInsn → RInsn) :
    (listModify l i f).length = l.length := by
  unfold listModify
  cases h : l.get? i <;> simp

theorem listModify_oob {l : List RInsn} {i : Nat} {f : RInsn → RInsn}
    (h : l.length ≤ i) : listModify l i f = l := by
  unfold listModify
  rw [List.get?_eq_getElem?, List.getElem?_eq_none h]

theorem listModify_getD_self {l : List RInsn} {i : Nat} {f : RInsn → RInsn}
    (h : i < l.length) (d : RInsn) :
    (listModify l i f).getD i d = f (l.getD i d) := by
  unfold listModify
  rw [List.get?_eq_getElem?, List.getElem?_eq_getElem h]
  simp [List.getD_eq_getElem?_getD, List.getElem?_set_self', List.getElem?_eq_getElem h]

theorem listModify_getD_ne {l : List RInsn} {i j : Nat} {f : RInsn → RInsn}
    (h : j ≠ i) (d : RInsn) : (listModify l i f).getD j d = l.getD j d := by
  unfold listModify
  cases hg : l.get? i with
  | none => rfl
  | some x =>
    simp [List.getD_eq_getElem?_getD, List.getElem?_set_ne (fun hh => h hh.symm)]

@[simp] theorem St.modifyInsn_rinsns_length (st : St) (i : Nat) (f : RInsn → RInsn) :
    (st.modifyInsn i f).rinsns.length = st.rinsns.length := by
  simp [St.modifyInsn, listModify_length]

theorem St.insnAt_modify_self {st : St} {i : Nat} {f : RInsn → RInsn}
    (h : i < st.rinsns.length) : (st.modifyInsn i f).insnAt i = f (st.insnAt i) :=
  listModify_getD_self h _

theorem St.insnAt_modify_ne {st : St} {i j : Nat} {f : RInsn → RInsn}
    (h : j ≠ i) : (st.modifyInsn i f).insnAt j = st.insnAt j :=
  listModify_getD_ne h _

theorem St.modifyInsn_oob {st : St} {i : Nat} {f : RInsn → RInsn}
    (h : st.rinsns.length ≤ i) : st.modifyInsn i f = st := by
  simp [St.modifyInsn, listModify_oob h]

theorem St.insnAt_oob {st : St} {i : Nat} (h : st.rinsns.length ≤ i) :
    st.insnAt i = {} := by
  simp [St.insnAt, List.getD_eq_getElem?_getD, List.getElem?_eq_none h]

theorem St.uidAt_oob {st : St} {i : Nat} (h : st.rinsns.length ≤ i) :
    st.uidAt i = .other := by
  simp [St.uidAt, St.insnAt_oob h]

theorem lt_length_of_uidAt {st : St} {i : Nat} (h : st.uidAt i ≠ .other) :
    i < st.rinsns.length := by
  by_contra hc
  exact h (St.uidAt_oob (Nat.le_of_not_lt hc))

@[simp] theorem St.modifyInsn_text_vaddr (st : St) (i : Nat) (f : RInsn → RInsn) :
    (st.modifyInsn i f).text_vaddr = st.text_vaddr := rfl

@[simp] theorem St.modifyInsn_text_section_len (st : St) (i : Nat) (f : RInsn → RInsn) :
    (st.modifyInsn i f).text_section_len = st.text_section_len := rfl

@[simp] theorem St.modifyInsn_functions (st : St) (i : Nat) (f : RInsn → RInsn) :
    (st.modifyInsn i f).functions = st.functions := rfl

@[simp] theorem add_function_rinsns (st : St) (a : Nat) :
    (add_function st a).rinsns = st.rinsns := by
  unfold add_function
  split
  · cases st.functions.lookup a <;> rfl
  · rfl

@[simp] theorem insertLabel_rinsns (st : St) (a : Nat) :
    (st.insertLabel a).rinsns = st.rinsns := by
  unfold St.insertLabel
  split <;> rfl

theorem add_function_insnAt (st : St) (a j : Nat) :
    (add_function st a).insnAt j = st.insnAt j := by
  simp [St.insnAt]

theorem insertLabel_insnAt (st : St) (a j : Nat) :
    (st.insertLabel a).insnAt j = st.insnAt j := by
  simp [St.insnAt]

/-! ### C1 -/

/-- A two-instruction program (plus the disassembler's sentinel NOP):
`LUI $t0, 0x4000 ; MTC1 $t0, $f4`.  The real instructions carry
`linked_insn = -1` as `r_disassemble` leaves them; the sentinel is
value-initialized with `no_following_successor` set. -/
def exC1 : St :=
  { text_vaddr := 0x400000, text_section_len := 8,
    rinsns := [
      { instruction := { uniqueId := .lui, descr := .lui, rt := 8, imm := 0x4000,
                         vram := 0x400000 },
        linked_insn := -1 },
      { instruction := { uniqueId := .mtc1, descr := .mtc1, rt := 8, fs := 4,
                         vram := 0x400004 },
        linked_insn := -1 },
      { instruction := { uniqueId := .nop, descr := .nop, vram := 0x400008 },
        no_following_successor := true } ] }

/-- The state after `r_pass1` on `exC1`. -/
def exC1After : St := (r_pass1 exC1).toOption.getD {}

/-- C1 counterexample: after `r_pass1`, the floating-point `LI` pairing has
set `rinsns[0].linked_insn = 1` (the `LUI` points at the `MTC1`) but left
`rinsns[1].linked_insn = -1`, so the claimed biconditional
`rinsns[s].linked_insn == o ↔ rinsns[o].linked_insn == s` fails at
`(s, o) = (0, 1)`. -/
theorem r_pass1_float_li_link_asymmetric :
    r_pass1 exC1 = .ok exC1After ∧
    exC1After.linkedAt 0 = 1 ∧ exC1After.linkedAt 1 = -1 ∧
    ¬ linkedMutuallyConsistent exC1After := by
  refine ⟨by rfl, by decide, by decide, fun h => ?_⟩
  have h01 := (h 0 1 (by decide) (by decide)).mp (by decide)
  exact absurd h01 (by decide)

/-- The backward scan of `r_link_with_lui` only designates an in-range `LW`
below its start index. -/
theorem luiScanGo_result {st : St} {offset reg : Nat} {mem_imm : Int}
    {s a : Nat} :
    ∀ {search fuel : Nat}, luiScanGo st offset reg mem_imm search fuel = some (s, a) →
      s ≤ search ∧ st.uidAt s = .lw := by
  intro search fuel
  induction fuel generalizing search with
  | zero => intro h; exact absurd h (by simp [luiScanGo])
  | succ fuel ih =>
    intro h
    unfold luiScanGo at h
    split at h
    · split at h
      · exact absurd h (by simp)
      · exact ⟨Nat.le_trans (ih h).1 (Nat.sub_le _ _), (ih h).2⟩
    · split at h
      · split at h
        · split at h
          · simp only [Option.some.injEq, Prod.mk.injEq] at h
            rcases h with ⟨h1, -⟩
            subst h1
            exact ⟨Nat.le_refl _,
              (‹st.uidAt search = InstrId.lw ∧ st.rsAt search = REG_gp›).1⟩
          · exact absurd h (by simp)
        · exact absurd h (by simp)
      · exact ⟨Nat.le_trans (ih h).1 (Nat.sub_le _ _), (ih h).2⟩
    · split at h
      · split at h
        · split at h
          · simp only [Option.some.injEq, Prod.mk.injEq] at h
            rcases h with ⟨h1, -⟩
            subst h1
            exact ⟨Nat.le_refl _,
              (‹st.uidAt search = InstrId.lw ∧ st.rsAt search = REG_gp›).1⟩
          · exact absurd h (by simp)
        · exact absurd h (by simp)
      · exact ⟨Nat.le_trans (ih h).1 (Nat.sub_le _ _), (ih h).2⟩
    · split at h
      · split at h
        · split at h
          · simp only [Option.some.injEq, Prod.mk.injEq] at h
            rcases h with ⟨h1, -⟩
            subst h1
            exact ⟨Nat.le_refl _,
              (‹st.uidAt search = InstrId.lw ∧ st.rsAt search = REG_gp›).1⟩
          · exact absurd h (by simp)
        · exact absurd h (by simp)
      · exact ⟨Nat.le_trans (ih h).1 (Nat.sub_le _ _), (ih h).2⟩
    · split at h
      · split at h
        · split at h
          · simp only [Option.some.injEq, Prod.mk.injEq] at h
            rcases h with ⟨h1, -⟩
            subst h1
            exact ⟨Nat.le_refl _,
              (‹st.uidAt search = InstrId.lw ∧ st.rsAt search = REG_gp›).1⟩
          · exact absurd h (by simp)
        · exact absurd h (by simp)
      · exact ⟨Nat.le_trans (ih h).1 (Nat.sub_le _ _), (ih h).2⟩
    · split at h
      · split at h
        · split at h
          · simp only [Option.some.injEq, Prod.mk.injEq] at h
            rcases h with ⟨h1, -⟩
            subst h1
            exact ⟨Nat.le_refl _,
              (‹st.uidAt search = InstrId.lw ∧ st.rsAt search = REG_gp›).1⟩
          · exact absurd h (by simp)
        · exact absurd h (by simp)
      · exact ⟨Nat.le_trans (ih h).1 (Nat.sub_le _ _), (ih h).2⟩
    · split at h
      · split at h
        · split at h
          · simp only [Option.some.injEq, Prod.mk.injEq] at h
            rcases h with ⟨h1, -⟩
            subst h1
            exact ⟨Nat.le_refl _,
              (‹st.uidAt search = InstrId.lw ∧ st.rsAt search = REG_gp›).1⟩
          · exact absurd h (by simp)
        · exact absurd h (by simp)
      · exact ⟨Nat.le_trans (ih h).1 (Nat.sub_le _ _), (ih h).2⟩
    · split at h
      · exact absurd h (by simp)
      · exact ⟨Nat.le_trans (ih h).1 (Nat.sub_le _ _), (ih h).2⟩
    · exact ⟨Nat.le_trans (ih h).1 (Nat.sub_le _ _), (ih h).2⟩

theorem St.linkedAt_modify_ne {st : St} {i j : Nat} {f : RInsn → RInsn}
    (h : j ≠ i) : (st.modifyInsn i f).linkedAt j = st.linkedAt j := by
  unfold St.linkedAt
  rw [St.insnAt_modify_ne h]

theorem St.linkedAt_modify_preserve {st : St} {i : Nat} {f : RInsn → RInsn}
    (hf : ∀ r, (f r).linked_insn = r.linked_insn) (j : Nat) :
    (st.modifyInsn i f).linkedAt j = st.linkedAt j := by
  by_cases hj : j = i
  · subst hj
    by_cases hlt : j < st.rinsns.length
    · unfold St.linkedAt
      rw [St.insnAt_modify_self hlt]
      exact hf _
    · rw [St.modifyInsn_oob (Nat.le_of_not_lt hlt)]
  · exact St.linkedAt_modify_ne hj

theorem St.linkedAt_modify_self {st : St} {i : Nat} {f : RInsn → RInsn}
    (h : i < st.rinsns.length) : (st.modifyInsn i f).linkedAt i = (f (st.insnAt i)).linked_insn := by
  unfold St.linkedAt
  rw [St.insnAt_modify_self h]

theorem add_function_linkedAt (st : St) (a j : Nat) :
    (add_function st a).linkedAt j = st.linkedAt j := by
  unfold St.linkedAt
  rw [add_function_insnAt]

theorem luiScanGo_zero {st : St} {offset reg : Nat} {mem_imm : Int} {search : Nat} :
    luiScanGo st offset reg mem_imm search 0 = none := rfl

/-- The backward scan of `r_link_with_jalr`: an `lwOri` decision designates an
in-range `LW`/`ORI` producer at or below its start index. -/
theorem jalrScanGo_lwOri {st : St} {s : Nat} :
    ∀ {search fuel : Nat}, jalrScanGo st search fuel = some (.lwOri s) →
      s ≤ search ∧ (st.uidAt s = .lw ∨ st.uidAt s = .ori) := by
  intro search fuel
  induction fuel generalizing search with
  | zero => intro h; exact absurd h (by simp [jalrScanGo])
  | succ fuel ih =>
    intro h
    unfold jalrScanGo at h
    split at h
    · split at h
      · split at h
        · simp only [Option.some.injEq, JalrDec.lwOri.injEq] at h
          subst h
          exact ⟨Nat.le_refl _, Or.inl ‹st.uidAt search = InstrId.lw›⟩
        · exact absurd h (by simp)
      · split at h
        · simp only [Option.some.injEq, JalrDec.lwOri.injEq] at h
          subst h
          exact ⟨Nat.le_refl _, Or.inr ‹st.uidAt search = InstrId.ori›⟩
        · exact absurd h (by simp)
      · split at h
        · exact absurd h (by simp)
        · exact absurd h (by simp)
      · exact absurd h (by simp)
      · exact absurd h (by simp)
      · exact absurd h (by simp)
      · exact absurd h (by simp)
      · exact absurd h (by simp)
      · exact ⟨Nat.le_trans (ih h).1 (Nat.sub_le _ _), (ih h).2⟩
    · split at h
      · exact absurd h (by simp)
      · exact ⟨Nat.le_trans (ih h).1 (Nat.sub_le _ _), (ih h).2⟩

/-- C1 amended: each link actually recorded by `r_link_with_lui` is recorded
symmetrically (`rinsns[search].linked_insn = offset` and
`rinsns[offset].linked_insn = search`, all other `linked_insn` fields
untouched), and likewise for the `LW`/`ORI` rewrite case of
`r_link_with_jalr`.  (The floating-point `LI` pairing of `r_pass1` and the
`ADDIU` chain case of `r_link_with_jalr` are the one-sided exceptions that
refute the claim as stated.) -/
theorem r_link_helpers_record_symmetric_links :
    (∀ (st : St) (offset reg : Nat) (imm : Int) (st' : St),
      offset < st.rinsns.length →
      r_link_with_lui st offset reg imm = .ok st' →
      (∀ jj, st'.linkedAt jj = st.linkedAt jj) ∨
      ∃ s, s ≠ offset ∧ st'.linkedAt s = (offset : Int) ∧
        st'.linkedAt offset = (s : Int) ∧
        ∀ jj, jj ≠ s → jj ≠ offset → st'.linkedAt jj = st.linkedAt jj) ∧
    (∀ (st : St) (offset s : Nat),
      offset < st.rinsns.length →
      jalrScanGo st (offset - 1) (offset - (offset - 128)) = some (.lwOri s) →
      s ≠ offset ∧
      (r_link_with_jalr st offset).linkedAt s = (offset : Int) ∧
      (r_link_with_jalr st offset).linkedAt offset = (s : Int) ∧
      ∀ jj, jj ≠ s → jj ≠ offset →
        (r_link_with_jalr st offset).linkedAt jj = st.linkedAt jj) := by
  constructor
  · intro st offset reg imm st' hoff hok
    unfold r_link_with_lui at hok
    split at hok
    · left
      injection hok with hok
      subst hok
      intro jj
      rfl
    · rename_i s a heq
      obtain ⟨hs_le, hs_uid⟩ := luiScanGo_result heq
      have hslen : s < st.rinsns.length := lt_length_of_uidAt (by simp [hs_uid])
      have hoffpos : 1 ≤ offset := by
        rcases Nat.eq_zero_or_pos offset with h0 | h1
        · rw [h0] at heq
          exact absurd heq (by simp [luiScanGo_zero])
        · exact h1
      have hsne : s ≠ offset := by omega
      simp only [] at hok
      split at hok
      all_goals first
      | (injection hok
         done)
      | (injection hok with hok
         subst hok
         right
         exact ⟨s, hsne,
           by simp [add_function_linkedAt, St.linkedAt_modify_preserve,
             St.linkedAt_modify_ne, St.linkedAt_modify_self, hslen, hoff, hsne],
           by simp [add_function_linkedAt, St.linkedAt_modify_preserve,
             St.linkedAt_modify_ne, St.linkedAt_modify_self, hslen, hoff, hsne],
           fun jj hjs hjo => by
             simp [add_function_linkedAt, St.linkedAt_modify_preserve,
               St.linkedAt_modify_ne, St.linkedAt_modify_self, hjs, hjo]⟩)
      | (split at hok <;>
          (injection hok with hok
           subst hok
           right
           exact ⟨s, hsne,
             by simp [add_function_linkedAt, St.linkedAt_modify_preserve,
               St.linkedAt_modify_ne, St.linkedAt_modify_self, hslen, hoff, hsne],
             by simp [add_function_linkedAt, St.linkedAt_modify_preserve,
               St.linkedAt_modify_ne, St.linkedAt_modify_self, hslen, hoff, hsne],
             fun jj hjs hjo => by
               simp [add_function_linkedAt, St.linkedAt_modify_preserve,
                 St.linkedAt_modify_ne, St.linkedAt_modify_self, hjs, hjo]⟩))
  · intro st offset s hoff hscan
    obtain ⟨hs_le, hs_uid⟩ := jalrScanGo_lwOri hscan
    have hslen : s < st.rinsns.length :=
      lt_length_of_uidAt (by rcases hs_uid with h | h <;> simp [h])
    have hoffpos : 1 ≤ offset := by
      rcases Nat.eq_zero_or_pos offset with h0 | h1
      · rw [h0] at hscan
        exact absurd hscan (by simp [jalrScanGo])
      · exact h1
    have hsne : s ≠ offset := by omega
    refine ⟨hsne, ?_, ?_, ?_⟩
    · unfold r_link_with_jalr
      rw [hscan]
      simp only []
      simp [add_function_linkedAt, St.linkedAt_modify_preserve,
        St.linkedAt_modify_ne, St.linkedAt_modify_self, hslen, hoff, hsne]
    · unfold r_link_with_jalr
      rw [hscan]
      simp only []
      simp [add_function_linkedAt, St.linkedAt_modify_preserve,
        St.linkedAt_modify_ne, St.linkedAt_modify_self, hslen, hoff, hsne]
    · intro jj hjs hjo
      unfold r_link_with_jalr
      rw [hscan]
      simp only []
      simp [add_function_linkedAt, St.linkedAt_modify_preserve,
        St.linkedAt_modify_ne, St.linkedAt_modify_self, hjs, hjo]

/-- A GOT-local `LW` feeding an `ADDIU` (the HI/LO pairing exercised through
`r_link_with_lui`). -/
def exLui : St :=
  { text_vaddr := 0x400000, text_section_len := 0x1000, gp_value_adj := 0,
    got_locals := [0x400000],
    rinsns := [
      { instruction := { uniqueId := .lw, descr := .lw, rt := 8, rs := 28, imm := 0,
                         vram := 0x400000 },
        linked_insn := -1 },
      { instruction := { uniqueId := .addiu, descr := .addiu, rt := 8, rs := 8, imm := 4,
                         vram := 0x400004 },
        linked_insn := -1 } ] }

def exLuiAfter : St := (r_link_with_lui exLui 1 8 4).toOption.getD {}

/-- A GOT-global `LW` of `$t9` feeding a `JALR $t9`. -/
def exJalr : St :=
  { text_vaddr := 0x400000, text_section_len := 0x1000,
    rinsns := [
      { instruction := { uniqueId := .lw, descr := .lw, rt := 25, rs := 28, imm := 0,
                         vram := 0x400000 },
        linked_insn := -1, is_global_got_memop := true, linked_value := 0x400100 },
      { instruction := { uniqueId := .jalr, descr := .jalr, rs := 25, vram := 0x400004 },
        linked_insn := -1 } ] }

theorem r_link_helpers_record_symmetric_links_witness :
    ((∀ jj, exLuiAfter.linkedAt jj = exLui.linkedAt jj) ∨
      ∃ s, s ≠ 1 ∧ exLuiAfter.linkedAt s = ((1 : Nat) : Int) ∧
        exLuiAfter.linkedAt 1 = (s : Int) ∧
        ∀ jj, jj ≠ s → jj ≠ 1 → exLuiAfter.linkedAt jj = exLui.linkedAt jj) ∧
    (0 ≠ 1 ∧
      (r_link_with_jalr exJalr 1).linkedAt 0 = ((1 : Nat) : Int) ∧
      (r_link_with_jalr exJalr 1).linkedAt 1 = ((0 : Nat) : Int) ∧
      ∀ jj, jj ≠ 0 → jj ≠ 1 →
        (r_link_with_jalr exJalr 1).linkedAt jj = exJalr.linkedAt jj) := by
  constructor
  · exact r_link_helpers_record_symmetric_links.1 exLui 1 8 4 exLuiAfter (by decide) (by rfl)
  · exact r_link_helpers_record_symmetric_links.2 exJalr 1 0 (by decide) (by rfl)

/-! ### C4 -/

/-- A reachable `ADDIU $a0, $a1, 4` whose source `$a1` is not forward-live
(`f_livein = 1`, the bare reachability bit), lowered with `--conservative`
off. -/
def exC4 : St :=
  { text_vaddr := 0x400000, text_section_len := 4, conservative := false,
    rinsns := [
      { instruction := { uniqueId := .addiu, descr := .addiu, rt := 4, rs := 5, imm := 4,
                         vram := 0x400000 },
        linked_insn := -1, f_livein := 1, b_liveout := 0 } ] }

/-- C4 counterexample: for the dead `ADDIU` of `exC4`, `r_dump_instr` does
emit the `// fdead` comment and does emit the statement text, but the
statement lands on the same output line as the comment, so it is *not* an
executable statement of the emitted program — the annotation is not
"diagnostic only". -/
theorem r_dump_instr_fdead_not_diagnostic_only :
    r_dump_instr 8 exC4 0 = .ok ("// fdead 1 a0 = a1 + 0x4;\n", exC4) ∧
    stmtEmitted "// fdead 1 a0 = a1 + 0x4;\n" "a0 = a1 + 0x4;" = true ∧
    stmtExecutable "// fdead 1 a0 = a1 + 0x4;\n" "a0 = a1 + 0x4;" = false := by
  refine ⟨by rfl, by rfl, by rfl⟩

theorem hexDigit_mem (d : Nat) : hexDigit d ∈ "0123456789abcdefx".toList := by
  unfold hexDigit
  rcases Nat.lt_or_ge d 16 with h | h
  · interval_cases d <;> decide
  · rw [List.getD_eq_default _ _ (by simpa using h)]
    decide

theorem natHexAux_no_newline :
    ∀ (fuel n : Nat) (acc : List Char), (∀ c ∈ acc, c ≠ '\n') →
      ∀ c ∈ natHexAux fuel n acc, c ≠ '\n' := by
  intro fuel
  induction fuel with
  | zero => intro n acc hacc; exact hacc
  | succ fuel ih =>
    intro n acc hacc c hc
    unfold natHexAux at hc
    split at hc
    · exact hacc c hc
    · refine ih _ _ ?_ c hc
      intro c' hc'
      rcases List.mem_cons.mp hc' with hc' | hc'
      · subst hc'
        intro hcontra
        have := hexDigit_mem (n % 16)
        rw [hcontra] at this
        exact absurd this (by decide)
      · exact hacc c' hc'

theorem natHex_no_newline (n : Nat) : ∀ c ∈ (natHex n).toList, c ≠ '\n' := by
  unfold natHex
  split
  · intro c hc
    simp only [String.toList] at hc
    intro hcontra
    subst hcontra
    exact absurd hc (by decide)
  · intro c hc
    exact natHexAux_no_newline n n [] (by intro c' hc'; exact absurd hc' (List.not_mem_nil c')) c hc

theorem fdeadTag_no_newline (m : Nat) : ∀ c ∈ (fdeadTag m).toList, c ≠ '\n' := by
  intro c hc
  unfold fdeadTag at hc
  simp only [String.toList, String.data_append] at hc
  rcases List.mem_append.mp hc with hc | hc
  · rcases List.mem_append.mp hc with hc | hc
    · exact fun h => absurd (h ▸ hc) (by decide)
    · exact natHex_no_newline m c hc
  · exact fun h => absurd (h ▸ hc) (by decide)

theorem bdeadTag_no_newline (m : Nat) : ∀ c ∈ (bdeadTag m).toList, c ≠ '\n' := by
  intro c hc
  unfold bdeadTag at hc
  simp only [String.toList, String.data_append] at hc
  rcases List.mem_append.mp hc with hc | hc
  · rcases List.mem_append.mp hc with hc | hc
    · exact fun h => absurd (h ▸ hc) (by decide)
    · exact natHex_no_newline m c hc
  · exact fun h => absurd (h ▸ hc) (by decide)

/-- When the annotation block fires at all, it emits exactly one of the two
tags. -/
theorem r_dump_ann_cases (insn : RInsn) (c : Bool) :
    r_dump_ann insn c = "" ∨
    r_dump_ann insn c = fdeadTag insn.f_livein ∨
    r_dump_ann insn c = bdeadTag insn.b_liveout := by
  unfold r_dump_ann
  repeat' split
  all_goals try simp
  all_goals
    by_cases hfc : insn.f_livein &&& get_all_source_reg_mask insn.instruction =
        get_all_source_reg_mask insn.instruction <;>
      simp [hfc]

theorem except_bind_ok {α β : Type} {x : Except String α} {f : α → Except String β}
    {b : β} (h : x >>= f = .ok b) : ∃ a, x = .ok a ∧ f a = .ok b := by
  cases x with
  | ok a => exact ⟨a, rfl, h⟩
  | error e => exact absurd h (by simp [Bind.bind, Except.bind])

/-- C4 amended: when the dead-code annotation fires, `r_dump_instr` emits it
as a newline-free `// fdead <mask> ` / `// bdead <mask> ` comment placed
immediately before the statement text on the same output line, so the
statement is commented out rather than merely annotated. -/
theorem r_dump_instr_annotation_prefixes_statement (fuel : Nat) (st : St) (i : Nat)
    (out : String) (st' : St)
    (hok : r_dump_instr (fuel + 1) st i = .ok (out, st'))
    (hann : r_dump_ann (st.insnAt i) st.conservative ≠ "") :
    (∃ stmt, out = dumpSymComment st i ++
        r_dump_ann (st.insnAt i) st.conservative ++ stmt) ∧
    (r_dump_ann (st.insnAt i) st.conservative = fdeadTag (st.insnAt i).f_livein ∨
     r_dump_ann (st.insnAt i) st.conservative = bdeadTag (st.insnAt i).b_liveout) ∧
    ∀ c ∈ (r_dump_ann (st.insnAt i) st.conservative).toList, c ≠ '\n' := by
  have htag := r_dump_ann_cases (st.insnAt i) st.conservative
  rcases htag with htag | htag | htag
  · exact absurd htag hann
  · refine ⟨?_, Or.inl htag, by rw [htag]; exact fdeadTag_no_newline _⟩
    unfold r_dump_instr at hok
    simp only [] at hok
    obtain ⟨⟨stmt, st2⟩, hm, hp⟩ := except_bind_ok hok
    simp only [pure, Except.pure] at hp
    injection hp with hp
    injection hp with h1 h2
    exact ⟨stmt, h1.symm⟩
  · refine ⟨?_, Or.inr htag, by rw [htag]; exact bdeadTag_no_newline _⟩
    unfold r_dump_instr at hok
    simp only [] at hok
    obtain ⟨⟨stmt, st2⟩, hm, hp⟩ := except_bind_ok hok
    simp only [pure, Except.pure] at hp
    injection hp with hp
    injection hp with h1 h2
    exact ⟨stmt, h1.symm⟩

theorem r_dump_instr_annotation_prefixes_statement_witness :
    (∃ stmt, "// fdead 1 a0 = a1 + 0x4;\n" = dumpSymComment exC4 0 ++
        r_dump_ann (exC4.insnAt 0) exC4.conservative ++ stmt) ∧
    (r_dump_ann (exC4.insnAt 0) exC4.conservative = fdeadTag (exC4.insnAt 0).f_livein ∨
     r_dump_ann (exC4.insnAt 0) exC4.conservative = bdeadTag (exC4.insnAt 0).b_liveout) ∧
    ∀ c ∈ (r_dump_ann (exC4.insnAt 0) exC4.conservative).toList, c ≠ '\n' :=
  r_dump_instr_annotation_prefixes_statement 7 exC4 0 "// fdead 1 a0 = a1 + 0x4;\n" exC4
    (by rfl) (by decide)

/-- An 8-instruction window forming a recognizable jump-table `JR` whose
5-entry table at `0x500004` overruns the 8-byte `.rodata` section. -/
def exC9 : St :=
  { text_vaddr := 0x400000, text_section_len := 32,
    rodata_section := some (List.replicate 8 0),
    rodata_vaddr := 0x500000, rodata_section_len := 8,
    rinsns := [
      { instruction := { uniqueId := .nop, descr := .nop, vram := 0x400000 },
        linked_insn := -1 },
      { instruction := { uniqueId := .sltiu, descr := .sltiu, rt := 1, rs := 10, imm := 5,
                         vram := 0x400004 }, linked_insn := -1 },
      { instruction := { uniqueId := .beqz, descr := .beqz, rs := 1, vram := 0x400008 },
        linked_insn := -1 },
      { instruction := { uniqueId := .nop, descr := .nop, vram := 0x40000c },
        linked_insn := -1 },
      { instruction := { uniqueId := .sll, descr := .sll, rd := 10, rt := 10, rs := 9, sa := 2,
                         vram := 0x400010 }, linked_insn := -1 },
      { instruction := { uniqueId := .addu, descr := .addu, rd := 8, rs := 8, rt := 10,
                         vram := 0x400014 }, linked_insn := -1 },
      { instruction := { uniqueId := .lw, descr := .lw, rt := 10, rs := 8, imm := 0,
                         vram := 0x400018 }, linked_insn := 1, linked_value := 0x500004 },
      { instruction := { uniqueId := .jr, descr := .jr, rs := 10, vram := 0x40001c },
        linked_insn := -1 } ] }

@[simp] theorem St.modifyInsn_rodata_vaddr (st : St) (i : Nat) (f : RInsn → RInsn) :
    (st.modifyInsn i f).rodata_vaddr = st.rodata_vaddr := rfl

@[simp] theorem St.modifyInsn_rodata_section_len (st : St) (i : Nat) (f : RInsn → RInsn) :
    (st.modifyInsn i f).rodata_section_len = st.rodata_section_len := rfl

@[simp] theorem nopPatch_rodata_vaddr (st : St) (j : Nat) :
    (nopPatch st j).rodata_vaddr = st.rodata_vaddr := rfl

@[simp] theorem nopPatch_rodata_section_len (st : St) (j : Nat) :
    (nopPatch st j).rodata_section_len = st.rodata_section_len := rfl

/-- C9: when the `JR` jump-table recognition succeeds (`r_jtbl_recognize`
returns parameters) but the recognized table does not lie entirely inside
`.rodata`, the pass stops with the fatal "jump table outside rodata"
diagnostic: the jump-table step, the whole `r_pass1` step for that index, and
every continuation of the pass-1 loop from that index all return that error,
so the tool produces no recompiled output for the input. -/
theorem r_pass1_jtbl_outside_rodata_fatal (st : St) (i : Nat) (bytes : List Nat)
    (jt : JtblRec)
    (hrod : st.rodata_section = some bytes)
    (hrec : r_jtbl_recognize st i = some jt)
    (huid : st.uidAt i = .jr)
    (hdescr : st.descrAt i = .jr)
    (hbound : jt.jtbl_addr < st.rodata_vaddr ∨
      jt.jtbl_addr + jt.num_cases * 4 > u32 (st.rodata_vaddr + st.rodata_section_len)) :
    r_jtbl_step st i = .error "jump table outside rodata" ∧
    r_pass1_step st i = .error "jump table outside rodata" ∧
    ∀ fuel, r_pass1_go st i (fuel + 1) = .error "jump table outside rodata" := by
  have h1 : r_jtbl_step st i = .error "jump table outside rodata" := by
    unfold r_jtbl_step
    simp only [hrod, hrec]
    exact if_pos hbound
  have h2 : r_pass1_step st i = .error "jump table outside rodata" := by
    unfold r_pass1_step
    simp only [huid, hdescr, h1, (rfl : InstrId.jr.isJump = true),
      (by simp : (InstrId.jr = InstrId.bgezal) = False),
      (by simp : (InstrId.jr = InstrId.jal) = False),
      (by simp : (InstrId.jr = InstrId.j) = False),
      eq_self_iff_true, false_and, false_or, or_self, or_false, ite_true, ite_false,
      if_true, if_false]
    rfl
  refine ⟨h1, h2, fun fuel => ?_⟩
  unfold r_pass1_go
  rw [h2]
  rfl

theorem r_pass1_jtbl_outside_rodata_fatal_witness :
    r_jtbl_step exC9 7 = .error "jump table outside rodata" ∧
    r_pass1_step exC9 7 = .error "jump table outside rodata" ∧
    (∀ fuel, r_pass1_go exC9 7 (fuel + 1) = .error "jump table outside rodata") ∧
    r_pass1 exC9 = .error "jump table outside rodata" := by
  obtain ⟨h1, h2, h3⟩ :=
    r_pass1_jtbl_outside_rodata_fatal exC9 7 (List.replicate 8 0)
      ⟨0x500004, 5, 9, false, false, 6, 5⟩ (by rfl) (by rfl) (by rfl) (by rfl) (by decide)
  exact ⟨h1, h2, h3, by rfl⟩

/-! ### C6 -/

theorem nret_fold_two (p q : Nat → Prop) [DecidablePred p] [DecidablePred q]
    (l : List Nat) :
    l.foldl (fun nret ret => if p ret then 2 else if q ret ∧ nret = 0 then 1 else nret) 2
      = 2 := by
  induction l with
  | nil => rfl
  | cons ret rest ih =>
    simp only [List.foldl_cons]
    by_cases hp : p ret
    · simpa [hp] using ih
    · simpa [hp] using ih

theorem nret_fold_one (p q : Nat → Prop) [DecidablePred p] [DecidablePred q]
    (l : List Nat) :
    l.foldl (fun nret ret => if p ret then 2 else if q ret ∧ nret = 0 then 1 else nret) 1
      = if ∃ r ∈ l, p r then 2 else 1 := by
  induction l with
  | nil => simp
  | cons ret rest ih =>
    simp only [List.foldl_cons]
    by_cases hp : p ret
    · simp [hp, nret_fold_two]
    · simpa [hp] using ih

theorem nret_fold_zero (p q : Nat → Prop) [DecidablePred p] [DecidablePred q]
    (l : List Nat) :
    l.foldl (fun nret ret => if p ret then 2 else if q ret ∧ nret = 0 then 1 else nret) 0
      = if ∃ r ∈ l, p r then 2 else if ∃ r ∈ l, q r then 1 else 0 := by
  induction l with
  | nil => simp
  | cons ret rest ih =>
    simp only [List.foldl_cons]
    by_cases hp : p ret
    · simp [hp, nret_fold_two]
    · by_cases hq : q ret
      · simp [hp, hq, nret_fold_one]
      · simpa [hp, hq] using ih

/-- C6: the signature formulas `r_pass6` computes.  `r_pass6` rewrites every
function through `r_pass6_fn`; for a function whose counters start at the
value-initialized 0, the inferred `nret` is 2 when some return has `$v1` in
forward∩backward liveout, else 1 when some return has `$v0` there, else 0;
`nargs` is `1 + i` for the highest `i < 4` with `$a(i)` in forward∩backward
livein at the entry instruction (0 when there is none); and `v0_in` holds iff
`$v0` is live both ways at entry and the function is not referenced by a
function pointer. -/
theorem r_pass6_signature_formulas (st : St) (addr : Nat) (f : Function)
    (hnret : f.nret = 0) (hnargs : f.nargs = 0) :
    (r_pass6 st).functions = st.functions.map (fun p => (p.1, r_pass6_fn st p.1 p.2)) ∧
    (r_pass6_fn st addr f).nret =
      (if ∃ ret ∈ f.returns,
          (st.insnAt (addr_to_i st ret)).f_liveout &&& (st.insnAt (addr_to_i st ret)).b_liveout
            &&& r_map_reg REG_v1 ≠ 0 then 2
       else if ∃ ret ∈ f.returns,
          (st.insnAt (addr_to_i st ret)).f_liveout &&& (st.insnAt (addr_to_i st ret)).b_liveout
            &&& r_map_reg REG_v0 ≠ 0 then 1
       else 0) ∧
    (r_pass6_fn st addr f).nargs =
      (if (st.insnAt (addr_to_i st addr)).f_livein &&& (st.insnAt (addr_to_i st addr)).b_livein
            &&& r_map_reg (REG_a0 + 3) ≠ 0 then 4
       else if (st.insnAt (addr_to_i st addr)).f_livein &&& (st.insnAt (addr_to_i st addr)).b_livein
            &&& r_map_reg (REG_a0 + 2) ≠ 0 then 3
       else if (st.insnAt (addr_to_i st addr)).f_livein &&& (st.insnAt (addr_to_i st addr)).b_livein
            &&& r_map_reg (REG_a0 + 1) ≠ 0 then 2
       else if (st.insnAt (addr_to_i st addr)).f_livein &&& (st.insnAt (addr_to_i st addr)).b_livein
            &&& r_map_reg (REG_a0 + 0) ≠ 0 then 1
       else 0) ∧
    ((r_pass6_fn st addr f).v0_in = true ↔
      (st.insnAt (addr_to_i st addr)).f_livein &&& (st.insnAt (addr_to_i st addr)).b_livein
        &&& r_map_reg REG_v0 ≠ 0 ∧ f.referenced_by_function_pointer = false) := by
  refine ⟨rfl, ?_, ?_, ?_⟩
  · simp only [r_pass6_fn]
    rw [hnret]
    exact nret_fold_zero
      (fun ret => (st.insnAt (addr_to_i st ret)).f_liveout &&&
        (st.insnAt (addr_to_i st ret)).b_liveout &&& r_map_reg REG_v1 ≠ 0)
      (fun ret => (st.insnAt (addr_to_i st ret)).f_liveout &&&
        (st.insnAt (addr_to_i st ret)).b_liveout &&& r_map_reg REG_v0 ≠ 0)
      f.returns
  · simp only [r_pass6_fn]
    rw [hnargs]
    rfl
  · simp only [r_pass6_fn]
    simp [decide_eq_true_iff]

/-- A one-function state for exercising `r_pass6`: entry at `0x400000` with
`$a0`/`$a1` live both ways, one return at `0x400008` with `$v0` live both
ways. -/
def exC6fn : Function := { returns := [0x400008] }

def exC6 : St :=
  { text_vaddr := 0x400000, text_section_len := 12,
    functions := [(0x400000, exC6fn)],
    rinsns := [
      { instruction := { uniqueId := .addiu, descr := .addiu, rt := 4, rs := 5 },
        linked_insn := -1,
        f_livein := 1 ||| r_map_reg REG_a0 ||| r_map_reg (REG_a0 + 1),
        b_livein := 1 ||| r_map_reg REG_a0 ||| r_map_reg (REG_a0 + 1) },
      { instruction := { uniqueId := .nop, descr := .nop }, linked_insn := -1 },
      { instruction := { uniqueId := .jr, descr := .jr, rs := 31 }, linked_insn := -1,
        f_liveout := r_map_reg REG_v0, b_liveout := r_map_reg REG_v0 } ] }

theorem r_pass6_signature_formulas_witness :
    (r_pass6 exC6).functions =
      exC6.functions.map (fun p => (p.1, r_pass6_fn exC6 p.1 p.2)) ∧
    (r_pass6_fn exC6 0x400000 exC6fn).nret =
      (if ∃ ret ∈ exC6fn.returns,
          (exC6.insnAt (addr_to_i exC6 ret)).f_liveout &&&
            (exC6.insnAt (addr_to_i exC6 ret)).b_liveout &&& r_map_reg REG_v1 ≠ 0 then 2
       else if ∃ ret ∈ exC6fn.returns,
          (exC6.insnAt (addr_to_i exC6 ret)).f_liveout &&&
            (exC6.insnAt (addr_to_i exC6 ret)).b_liveout &&& r_map_reg REG_v0 ≠ 0 then 1
       else 0) ∧
    (r_pass6_fn exC6 0x400000 exC6fn).nargs =
      (if (exC6.insnAt (addr_to_i exC6 0x400000)).f_livein &&&
            (exC6.insnAt (addr_to_i exC6 0x400000)).b_livein &&& r_map_reg (REG_a0 + 3) ≠ 0 then 4
       else if (exC6.insnAt (addr_to_i exC6 0x400000)).f_livein &&&
            (exC6.insnAt (addr_to_i exC6 0x400000)).b_livein &&& r_map_reg (REG_a0 + 2) ≠ 0 then 3
       else if (exC6.insnAt (addr_to_i exC6 0x400000)).f_livein &&&
            (exC6.insnAt (addr_to_i exC6 0x400000)).b_livein &&& r_map_reg (REG_a0 + 1) ≠ 0 then 2
       else if (exC6.insnAt (addr_to_i exC6 0x400000)).f_livein &&&
            (exC6.insnAt (addr_to_i exC6 0x400000)).b_livein &&& r_map_reg (REG_a0 + 0) ≠ 0 then 1
       else 0) ∧
    ((r_pass6_fn exC6 0x400000 exC6fn).v0_in = true ↔
      (exC6.insnAt (addr_to_i exC6 0x400000)).f_livein &&&
        (exC6.insnAt (addr_to_i exC6 0x400000)).b_livein &&& r_map_reg REG_v0 ≠ 0 ∧
      exC6fn.referenced_by_function_pointer = false) :=
  r_pass6_signature_formulas exC6 0x400000 exC6fn (by rfl) (by rfl)

/-! ### C3 -/

/-- Two returns: the one at `0x400008` has `$v0` live both ways, the one at
`0x400010` does not (only the reachability bit). -/
def exC3fn : Function := { returns := [0x400008, 0x400010] }

def exC3 : St :=
  { text_vaddr := 0x400000, text_section_len := 20,
    functions := [(0x400000, exC3fn)],
    rinsns := [
      { instruction := { uniqueId := .nop, descr := .nop }, linked_insn := -1,
        f_livein := 1, b_livein := 1 },
      { instruction := { uniqueId := .nop, descr := .nop }, linked_insn := -1 },
      { instruction := { uniqueId := .jr, descr := .jr, rs := 31 }, linked_insn := -1,
        f_liveout := 1 ||| r_map_reg REG_v0, b_liveout := 1 ||| r_map_reg REG_v0 },
      { instruction := { uniqueId := .nop, descr := .nop }, linked_insn := -1 },
      { instruction := { uniqueId := .jr, descr := .jr, rs := 31 }, linked_insn := -1,
        f_liveout := 1, b_liveout := 1 } ] }

/-- C3 counterexample: a function whose inferred `nret` is 1 while its second
return does *not* have `$v0` in forward∩backward liveout — `nret = 1`
guarantees only that *some* return does, not every return. -/
theorem r_pass6_nret_one_return_lacks_v0 :
    (r_pass6 exC3).functions.lookup 0x400000 =
      some (r_pass6_fn exC3 0x400000 exC3fn) ∧
    (r_pass6_fn exC3 0x400000 exC3fn).nret = 1 ∧
    0x400010 ∈ (r_pass6_fn exC3 0x400000 exC3fn).returns ∧
    (exC3.insnAt (addr_to_i exC3 0x400010)).f_liveout &&&
      (exC3.insnAt (addr_to_i exC3 0x400010)).b_liveout &&& r_map_reg REG_v0 = 0 := by
  refine ⟨by rfl, by rfl, by decide, by rfl⟩

/-- C3 amended: after signature inference, a function (with value-initialized
`nret = 0`) whose inferred `nret` equals 1 has *some* return instruction with
`$v0` set in forward∩backward liveout. -/
theorem r_pass6_nret_one_some_return_v0 (st : St) (addr : Nat) (f : Function)
    (hmem : (addr, f) ∈ st.functions) (hnret : f.nret = 0)
    (h1 : (r_pass6_fn st addr f).nret = 1) :
    (addr, r_pass6_fn st addr f) ∈ (r_pass6 st).functions ∧
    ∃ ret ∈ f.returns,
      (st.insnAt (addr_to_i st ret)).f_liveout &&& (st.insnAt (addr_to_i st ret)).b_liveout
        &&& r_map_reg REG_v0 ≠ 0 := by
  constructor
  · unfold r_pass6
    exact List.mem_map_of_mem (fun p => (p.1, r_pass6_fn st p.1 p.2)) hmem
  · have hch : (r_pass6_fn st addr f).nret =
        (if ∃ ret ∈ f.returns,
            (st.insnAt (addr_to_i st ret)).f_liveout &&& (st.insnAt (addr_to_i st ret)).b_liveout
              &&& r_map_reg REG_v1 ≠ 0 then 2
         else if ∃ ret ∈ f.returns,
            (st.insnAt (addr_to_i st ret)).f_liveout &&& (st.insnAt (addr_to_i st ret)).b_liveout
              &&& r_map_reg REG_v0 ≠ 0 then 1
         else 0) := by
      simp only [r_pass6_fn]
      rw [hnret]
      exact nret_fold_zero _ _ f.returns
    rw [hch] at h1
    split at h1
    · exact absurd h1 (by decide)
    · split at h1
      · assumption
      · exact absurd h1 (by decide)

theorem r_pass6_nret_one_some_return_v0_witness :
    (0x400000, r_pass6_fn exC3 0x400000 exC3fn) ∈ (r_pass6 exC3).functions ∧
    ∃ ret ∈ exC3fn.returns,
      (exC3.insnAt (addr_to_i exC3 ret)).f_liveout &&&
        (exC3.insnAt (addr_to_i exC3 ret)).b_liveout &&& r_map_reg REG_v0 ≠ 0 :=
  r_pass6_nret_one_some_return_v0 exC3 0x400000 exC3fn (by decide) (by rfl) (by rfl)

/-! ### Edge bookkeeping lemmas (shared by the CFG claims) -/

theorem insnAt_modify_successors {st : St} {j k : Nat} {f : RInsn → RInsn}
    (hf : ∀ r, (f r).successors = r.successors) :
    ((st.modifyInsn j f).insnAt k).successors = (st.insnAt k).successors := by
  by_cases hk : k = j
  · subst hk
    by_cases hlt : k < st.rinsns.length
    · rw [St.insnAt_modify_self hlt, hf]
    · rw [St.modifyInsn_oob (Nat.le_of_not_lt hlt)]
  · rw [St.insnAt_modify_ne hk]

theorem insnAt_modify_predecessors {st : St} {j k : Nat} {f : RInsn → RInsn}
    (hf : ∀ r, (f r).predecessors = r.predecessors) :
    ((st.modifyInsn j f).insnAt k).predecessors = (st.insnAt k).predecessors := by
  by_cases hk : k = j
  · subst hk
    by_cases hlt : k < st.rinsns.length
    · rw [St.insnAt_modify_self hlt, hf]
    · rw [St.modifyInsn_oob (Nat.le_of_not_lt hlt)]
  · rw [St.insnAt_modify_ne hk]

theorem insnAt_modify_nfs {st : St} {j k : Nat} {f : RInsn → RInsn}
    (hf : ∀ r, (f r).no_following_successor = r.no_following_successor) :
    ((st.modifyInsn j f).insnAt k).no_following_successor =
      (st.insnAt k).no_following_successor := by
  by_cases hk : k = j
  · subst hk
    by_cases hlt : k < st.rinsns.length
    · rw [St.insnAt_modify_self hlt, hf]
    · rw [St.modifyInsn_oob (Nat.le_of_not_lt hlt)]
  · rw [St.insnAt_modify_ne hk]

theorem insnAt_modify_instr {st : St} {j k : Nat} {f : RInsn → RInsn}
    (hf : ∀ r, (f r).instruction = r.instruction) :
    ((st.modifyInsn j f).insnAt k).instruction = (st.insnAt k).instruction := by
  by_cases hk : k = j
  · subst hk
    by_cases hlt : k < st.rinsns.length
    · rw [St.insnAt_modify_self hlt, hf]
    · rw [St.modifyInsn_oob (Nat.le_of_not_lt hlt)]
  · rw [St.insnAt_modify_ne hk]

@[simp] theorem r_add_edge_length (st : St) (a b : Nat) (t1 t2 t3 t4 : Bool) :
    (r_add_edge st a b t1 t2 t3 t4).rinsns.length = st.rinsns.length := by
  simp [r_add_edge]

@[simp] theorem r_add_edge_text_vaddr (st : St) (a b : Nat) (t1 t2 t3 t4 : Bool) :
    (r_add_edge st a b t1 t2 t3 t4).text_vaddr = st.text_vaddr := rfl

theorem r_add_edge_succ_at {st : St} {a : Nat} (b : Nat) (t1 t2 t3 t4 : Bool)
    (h : a < st.rinsns.length) :
    ((r_add_edge st a b t1 t2 t3 t4).insnAt a).successors =
      (st.insnAt a).successors ++ [⟨b, t1, t2, t3, t4⟩] := by
  simp only [r_add_edge]
  by_cases hab : a = b
  · subst hab
    rw [St.insnAt_modify_self (by simpa using h), St.insnAt_modify_self h]
  · rw [St.insnAt_modify_ne hab, St.insnAt_modify_self h]

theorem r_add_edge_succ_ne {st : St} {a k : Nat} (b : Nat) (t1 t2 t3 t4 : Bool)
    (h : k ≠ a) :
    ((r_add_edge st a b t1 t2 t3 t4).insnAt k).successors =
      (st.insnAt k).successors := by
  simp only [r_add_edge]
  by_cases hkb : k = b
  · subst hkb
    by_cases hlt : k < st.rinsns.length
    · rw [St.insnAt_modify_self (by simpa using hlt), St.insnAt_modify_ne h]
    · rw [St.modifyInsn_oob (by simpa using Nat.le_of_not_lt hlt), St.insnAt_modify_ne h]
  · rw [St.insnAt_modify_ne hkb, St.insnAt_modify_ne h]

theorem r_add_edge_pred_at {st : St} (a : Nat) {b : Nat} (t1 t2 t3 t4 : Bool)
    (h : b < st.rinsns.length) :
    ((r_add_edge st a b t1 t2 t3 t4).insnAt b).predecessors =
      (st.insnAt b).predecessors ++ [⟨a, t1, t2, t3, t4⟩] := by
  simp only [r_add_edge]
  rw [St.insnAt_modify_self (by simpa using h)]
  by_cases hab : b = a
  · subst hab
    rw [St.insnAt_modify_self h]
  · rw [St.insnAt_modify_ne hab]

theorem r_add_edge_pred_ne {st : St} (a : Nat) {b k : Nat} (t1 t2 t3 t4 : Bool)
    (h : k ≠ b) :
    ((r_add_edge st a b t1 t2 t3 t4).insnAt k).predecessors =
      (st.insnAt k).predecessors := by
  simp only [r_add_edge]
  rw [St.insnAt_modify_ne h]
  by_cases hka : k = a
  · subst hka
    by_cases hlt : k < st.rinsns.length
    · rw [St.insnAt_modify_self hlt]
    · rw [St.modifyInsn_oob (Nat.le_of_not_lt hlt)]
  · rw [St.insnAt_modify_ne hka]

theorem r_add_edge_nfs (st : St) (a b k : Nat) (t1 t2 t3 t4 : Bool) :
    ((r_add_edge st a b t1 t2 t3 t4).insnAt k).no_following_successor =
      (st.insnAt k).no_following_successor := by
  simp only [r_add_edge]
  by_cases hkb : k = b
  · subst hkb
    by_cases hlt2 : k < (st.modifyInsn a fun r =>
        { r with successors := r.successors ++
            [⟨k, t1, t2, t3, t4⟩] }).rinsns.length
    · rw [St.insnAt_modify_self hlt2]
      show ((st.modifyInsn a _).insnAt k).no_following_successor = _
      by_cases hka : k = a
      · subst hka
        rw [St.insnAt_modify_self (by simpa using hlt2)]
      · rw [St.insnAt_modify_ne hka]
    · rw [St.modifyInsn_oob (Nat.le_of_not_lt hlt2)]
      by_cases hka : k = a
      · subst hka
        rw [St.modifyInsn_oob (by simpa using Nat.le_of_not_lt hlt2)]
      · rw [St.insnAt_modify_ne hka]
  · rw [St.insnAt_modify_ne hkb]
    by_cases hka : k = a
    · subst hka
      by_cases hlt : k < st.rinsns.length
      · rw [St.insnAt_modify_self hlt]
      · rw [St.modifyInsn_oob (Nat.le_of_not_lt hlt)]
    · rw [St.insnAt_modify_ne hka]

theorem r_add_edge_instr (st : St) (a b k : Nat) (t1 t2 t3 t4 : Bool) :
    ((r_add_edge st a b t1 t2 t3 t4).insnAt k).instruction =
      (st.insnAt k).instruction := by
  simp only [r_add_edge]
  by_cases hkb : k = b
  · subst hkb
    by_cases hlt2 : k < (st.modifyInsn a fun r =>
        { r with successors := r.successors ++
            [⟨k, t1, t2, t3, t4⟩] }).rinsns.length
    · rw [St.insnAt_modify_self hlt2]
      show ((st.modifyInsn a _).insnAt k).instruction = _
      by_cases hka : k = a
      · subst hka
        rw [St.insnAt_modify_self (by simpa using hlt2)]
      · rw [St.insnAt_modify_ne hka]
    · rw [St.modifyInsn_oob (Nat.le_of_not_lt hlt2)]
      by_cases hka : k = a
      · subst hka
        rw [St.modifyInsn_oob (by simpa using Nat.le_of_not_lt hlt2)]
      · rw [St.insnAt_modify_ne hka]
  · rw [St.insnAt_modify_ne hkb]
    by_cases hka : k = a
    · subst hka
      by_cases hlt : k < st.rinsns.length
      · rw [St.insnAt_modify_self hlt]
      · rw [St.modifyInsn_oob (Nat.le_of_not_lt hlt)]
    · rw [St.insnAt_modify_ne hka]

theorem r_add_edge_succ_mono {st : St} {k : Nat} {e : Edge} (a b : Nat)
    (t1 t2 t3 t4 : Bool) (hmem : e ∈ (st.insnAt k).successors) :
    e ∈ ((r_add_edge st a b t1 t2 t3 t4).insnAt k).successors := by
  by_cases hk : k = a
  · subst hk
    by_cases hlt : k < st.rinsns.length
    · rw [r_add_edge_succ_at b t1 t2 t3 t4 hlt]
      exact List.mem_append_left _ hmem
    · have hsame : ((r_add_edge st k b t1 t2 t3 t4).insnAt k).successors =
          (st.insnAt k).successors := by
        simp only [r_add_edge]
        by_cases hkb : k = b
        · subst hkb
          rw [St.modifyInsn_oob (Nat.le_of_not_lt hlt),
            St.modifyInsn_oob (Nat.le_of_not_lt hlt)]
        · rw [St.insnAt_modify_ne hkb, St.modifyInsn_oob (Nat.le_of_not_lt hlt)]
      rw [hsame]
      exact hmem
  · rw [r_add_edge_succ_ne b t1 t2 t3 t4 hk]
    exact hmem

theorem r_add_edge_pred_mono {st : St} {k : Nat} {e : Edge} (a b : Nat)
    (t1 t2 t3 t4 : Bool) (hmem : e ∈ (st.insnAt k).predecessors) :
    e ∈ ((r_add_edge st a b t1 t2 t3 t4).insnAt k).predecessors := by
  by_cases hk : k = b
  · subst hk
    by_cases hlt : k < st.rinsns.length
    · rw [r_add_edge_pred_at a t1 t2 t3 t4 hlt]
      exact List.mem_append_left _ hmem
    · have hsame : ((r_add_edge st a k t1 t2 t3 t4).insnAt k).predecessors =
          (st.insnAt k).predecessors := by
        simp only [r_add_edge]
        rw [St.modifyInsn_oob (by simpa using Nat.le_of_not_lt hlt)]
        by_cases hka : k = a
        · subst hka
          rw [St.modifyInsn_oob (Nat.le_of_not_lt hlt)]
        · rw [St.insnAt_modify_ne hka]
      rw [hsame]
      exact hmem
  · rw [r_add_edge_pred_ne a t1 t2 t3 t4 hk]
    exact hmem

theorem r_add_edge_patched (st : St) (a b k : Nat) (t1 t2 t3 t4 : Bool) :
    ((r_add_edge st a b t1 t2 t3 t4).insnAt k).patched = (st.insnAt k).patched := by
  simp only [r_add_edge]
  by_cases hkb : k = b
  · subst hkb
    by_cases hlt2 : k < (st.modifyInsn a fun r =>
        { r with successors := r.successors ++
            [⟨k, t1, t2, t3, t4⟩] }).rinsns.length
    · rw [St.insnAt_modify_self hlt2]
      show ((st.modifyInsn a _).insnAt k).patched = _
      by_cases hka : k = a
      · subst hka
        rw [St.insnAt_modify_self (by simpa using hlt2)]
      · rw [St.insnAt_modify_ne hka]
    · rw [St.modifyInsn_oob (Nat.le_of_not_lt hlt2)]
      by_cases hka : k = a
      · subst hka
        rw [St.modifyInsn_oob (by simpa using Nat.le_of_not_lt hlt2)]
      · rw [St.insnAt_modify_ne hka]
  · rw [St.insnAt_modify_ne hkb]
    by_cases hka : k = a
    · subst hka
      by_cases hlt : k < st.rinsns.length
      · rw [St.insnAt_modify_self hlt]
      · rw [St.modifyInsn_oob (Nat.le_of_not_lt hlt)]
    · rw [St.insnAt_modify_ne hka]

theorem r_add_edge_patched_addr (st : St) (a b k : Nat) (t1 t2 t3 t4 : Bool) :
    ((r_add_edge st a b t1 t2 t3 t4).insnAt k).patched_addr = (st.insnAt k).patched_addr := by
  simp only [r_add_edge]
  by_cases hkb : k = b
  · subst hkb
    by_cases hlt2 : k < (st.modifyInsn a fun r =>
        { r with successors := r.successors ++
            [⟨k, t1, t2, t3, t4⟩] }).rinsns.length
    · rw [St.insnAt_modify_self hlt2]
      show ((st.modifyInsn a _).insnAt k).patched_addr = _
      by_cases hka : k = a
      · subst hka
        rw [St.insnAt_modify_self (by simpa using hlt2)]
      · rw [St.insnAt_modify_ne hka]
    · rw [St.modifyInsn_oob (Nat.le_of_not_lt hlt2)]
      by_cases hka : k = a
      · subst hka
        rw [St.modifyInsn_oob (by simpa using Nat.le_of_not_lt hlt2)]
      · rw [St.insnAt_modify_ne hka]
  · rw [St.insnAt_modify_ne hkb]
    by_cases hka : k = a
    · subst hka
      by_cases hlt : k < st.rinsns.length
      · rw [St.insnAt_modify_self hlt]
      · rw [St.modifyInsn_oob (Nat.le_of_not_lt hlt)]
    · rw [St.insnAt_modify_ne hka]

@[simp] theorem r_add_edge_functions (st : St) (a b : Nat) (t1 t2 t3 t4 : Bool) :
    (r_add_edge st a b t1 t2 t3 t4).functions = st.functions := rfl

@[simp] theorem r_add_edge_mcount_addr (st : St) (a b : Nat) (t1 t2 t3 t4 : Bool) :
    (r_add_edge st a b t1 t2 t3 t4).mcount_addr = st.mcount_addr := rfl

@[simp] theorem r_add_edge_text_section_len (st : St) (a b : Nat) (t1 t2 t3 t4 : Bool) :
    (r_add_edge st a b t1 t2 t3 t4).text_section_len = st.text_section_len := rfl

@[simp] theorem addr_to_i_r_add_edge (st : St) (a b x : Nat) (t1 t2 t3 t4 : Bool) :
    addr_to_i (r_add_edge st a b t1 t2 t3 t4) x = addr_to_i st x := rfl

theorem flagModify_succ (st : St) (j k : Nat) :
    ((st.modifyInsn j fun r => { r with no_following_successor := true }).insnAt k).successors
      = (st.insnAt k).successors := by
  by_cases hk : k = j
  · subst hk
    by_cases hlt : k < st.rinsns.length
    · rw [St.insnAt_modify_self hlt]
    · rw [St.modifyInsn_oob (Nat.le_of_not_lt hlt)]
  · rw [St.insnAt_modify_ne hk]

theorem flagModify_pred (st : St) (j k : Nat) :
    ((st.modifyInsn j fun r => { r with no_following_successor := true }).insnAt k).predecessors
      = (st.insnAt k).predecessors := by
  by_cases hk : k = j
  · subst hk
    by_cases hlt : k < st.rinsns.length
    · rw [St.insnAt_modify_self hlt]
    · rw [St.modifyInsn_oob (Nat.le_of_not_lt hlt)]
  · rw [St.insnAt_modify_ne hk]

theorem flagModify_nfs_self {st : St} {j : Nat} (h : j < st.rinsns.length) :
    ((st.modifyInsn j fun r => { r with no_following_successor := true }).insnAt j).no_following_successor
      = true := by
  rw [St.insnAt_modify_self h]

theorem addReturnEdges_text_vaddr (i2 : Nat) (l : List Nat) : ∀ st : St,
    (addReturnEdges st i2 l).text_vaddr = st.text_vaddr := by
  induction l with
  | nil => intro st; rfl
  | cons r0 rest ih =>
    intro st
    simp only [addReturnEdges]
    rw [ih]
    rfl

theorem addReturnEdges_length (i2 : Nat) (l : List Nat) : ∀ st : St,
    (addReturnEdges st i2 l).rinsns.length = st.rinsns.length := by
  induction l with
  | nil => intro st; rfl
  | cons r0 rest ih =>
    intro st
    simp only [addReturnEdges]
    rw [ih]
    simp

theorem addReturnEdges_succ_mono (i2 : Nat) (l : List Nat) :
    ∀ (st : St) (k : Nat) (e : Edge), e ∈ (st.insnAt k).successors →
      e ∈ ((addReturnEdges st i2 l).insnAt k).successors := by
  induction l with
  | nil => intro st k e h; exact h
  | cons r0 rest ih =>
    intro st k e h
    simp only [addReturnEdges]
    exact ih _ k e (r_add_edge_succ_mono _ _ _ _ _ _ h)

theorem addReturnEdges_pred_mono (i2 : Nat) (l : List Nat) :
    ∀ (st : St) (k : Nat) (e : Edge), e ∈ (st.insnAt k).predecessors →
      e ∈ ((addReturnEdges st i2 l).insnAt k).predecessors := by
  induction l with
  | nil => intro st k e h; exact h
  | cons r0 rest ih =>
    intro st k e h
    simp only [addReturnEdges]
    exact ih _ k e (r_add_edge_pred_mono _ _ _ _ _ _ h)

theorem addReturnEdges_mem (i2 : Nat) (l : List Nat) :
    ∀ (st : St) (ret : Nat), ret ∈ l → addr_to_i st ret < st.rinsns.length →
      (⟨i2, false, true, false, false⟩ : Edge) ∈
        ((addReturnEdges st i2 l).insnAt (addr_to_i st ret)).successors := by
  induction l with
  | nil => intro st ret h; exact absurd h (List.not_mem_nil ret)
  | cons r0 rest ih =>
    intro st ret hret hlt
    simp only [addReturnEdges]
    rcases List.mem_cons.mp hret with hr | hr
    · subst hr
      apply addReturnEdges_succ_mono
      rw [r_add_edge_succ_at i2 false true false false hlt]
      exact List.mem_append_right _ (List.mem_singleton.mpr rfl)
    · have h1 : addr_to_i (r_add_edge st (addr_to_i st r0) i2 false true false false) ret
          = addr_to_i st ret := rfl
      have := ih (r_add_edge st (addr_to_i st r0) i2 false true false false) ret hr
        (by rw [h1]; simpa using hlt)
      rw [h1] at this
      exact this

/-- C7: the `JAL` case of CFG construction.  With the delay-slot flag clear,
a successful `r_pass3_step` on a `JAL` at `i` adds the fallthrough edge
`i → i+1`; when the call target lies strictly above `mcount_addr` and inside
`.text`, it adds `i+1 → target` tagged `function_entry` and, for each return
of the target function, `return → i+2` tagged `function_exit`; otherwise it
adds the single edge `i+1 → i+2` tagged `extern_function`; in all cases the
delay slot `i+1` is marked `no_following_successor`. -/
theorem r_pass3_jal_edges (st st' : St) (i dest : Nat)
    (hlen : i + 2 < st.rinsns.length)
    (hflag : (st.insnAt i).no_following_successor = false)
    (huid : st.uidAt i = .jal)
    (hdest : dest = (if (st.insnAt i).patched then (st.insnAt i).patched_addr
                     else (st.insnAt i).instruction.instrIndexVram))
    (hok : r_pass3_step st i = .ok st') :
    ((⟨i + 1, false, false, false, false⟩ : Edge) ∈ (st'.insnAt i).successors) ∧
    (st'.insnAt (i + 1)).no_following_successor = true ∧
    ((st.mcount_addr < dest ∧ st.text_vaddr ≤ dest ∧
        dest < st.text_vaddr + st.text_section_len) →
      ∃ f, st.functions.lookup dest = some f ∧
        ((⟨addr_to_i st dest, true, false, false, false⟩ : Edge) ∈
          (st'.insnAt (i + 1)).successors) ∧
        ∀ ret ∈ f.returns, addr_to_i st ret < st.rinsns.length →
          (⟨i + 2, false, true, false, false⟩ : Edge) ∈
            (st'.insnAt (addr_to_i st ret)).successors) ∧
    (¬(st.mcount_addr < dest ∧ st.text_vaddr ≤ dest ∧
        dest < st.text_vaddr + st.text_section_len) →
      (⟨i + 2, false, false, true, false⟩ : Edge) ∈ (st'.insnAt (i + 1)).successors) := by
  have hi : i < st.rinsns.length := by omega
  have hi1 : i + 1 < st.rinsns.length := by omega
  simp only [r_pass3_step, hflag, huid, Bool.false_eq_true, if_false, ite_false,
    r_add_edge_patched, r_add_edge_patched_addr, r_add_edge_instr, r_add_edge_functions,
    r_add_edge_mcount_addr, r_add_edge_text_section_len, r_add_edge_text_vaddr,
    addr_to_i_r_add_edge] at hok
  rw [← hdest] at hok
  split at hok
  · rename_i hcond
    split at hok
    · cases hok
    · rename_i f heq
      injection hok with hok
      subst hok
      refine ⟨?_, ?_, ?_, fun hc => absurd hcond hc⟩
      · rw [flagModify_succ]
        apply addReturnEdges_succ_mono
        apply r_add_edge_succ_mono
        rw [r_add_edge_succ_at (i + 1) false false false false hi]
        exact List.mem_append_right _ (List.mem_singleton.mpr rfl)
      · apply flagModify_nfs_self
        rw [addReturnEdges_length]
        simpa using hi1
      · intro _
        refine ⟨f, heq, ?_, ?_⟩
        · rw [flagModify_succ]
          apply addReturnEdges_succ_mono
          rw [r_add_edge_succ_at (addr_to_i st dest) true false false false
            (by simpa using hi1)]
          exact List.mem_append_right _ (List.mem_singleton.mpr rfl)
        · intro ret hret hrlt
          rw [flagModify_succ]
          have := addReturnEdges_mem (i + 2) f.returns
            (r_add_edge (r_add_edge st i (i + 1)) (i + 1) (addr_to_i st dest) true)
            ret hret (by simpa using hrlt)
          exact this
  · rename_i hcond
    injection hok with hok
    subst hok
    refine ⟨?_, ?_, fun hc => absurd hc hcond, ?_⟩
    · rw [flagModify_succ]
      apply r_add_edge_succ_mono
      rw [r_add_edge_succ_at (i + 1) false false false false hi]
      exact List.mem_append_right _ (List.mem_singleton.mpr rfl)
    · apply flagModify_nfs_self
      simpa using hi1
    · intro _
      rw [flagModify_succ]
      rw [r_add_edge_succ_at (i + 2) false false true false (by simpa using hi1)]
      exact List.mem_append_right _ (List.mem_singleton.mpr rfl)

/-- A `JAL` at index 0 calling the internal function at `0x40000c` (index 3)
whose single return is the `JR` at `0x400010` (index 4). -/
def exC7 : St :=
  { text_vaddr := 0x400000, text_section_len := 20, mcount_addr := 0,
    functions := [(0x40000c, { returns := [0x400010] })],
    rinsns := [
      { instruction := { uniqueId := .jal, descr := .jal, instrIndexVram := 0x40000c },
        linked_insn := -1 },
      { instruction := { uniqueId := .nop, descr := .nop }, linked_insn := -1 },
      { instruction := { uniqueId := .nop, descr := .nop }, linked_insn := -1 },
      { instruction := { uniqueId := .nop, descr := .nop }, linked_insn := -1 },
      { instruction := { uniqueId := .jr, descr := .jr, rs := 31 }, linked_insn := -1 } ] }

theorem r_pass3_jal_edges_witness :
    ∃ st' : St, r_pass3_step exC7 0 = .ok st' ∧
      ((⟨1, false, false, false, false⟩ : Edge) ∈ (st'.insnAt 0).successors) ∧
      (st'.insnAt 1).no_following_successor = true ∧
      ((⟨addr_to_i exC7 0x40000c, true, false, false, false⟩ : Edge) ∈
        (st'.insnAt 1).successors) ∧
      ((⟨2, false, true, false, false⟩ : Edge) ∈
        (st'.insnAt (addr_to_i exC7 0x400010)).successors) := by
  obtain ⟨st', hok⟩ : ∃ st', r_pass3_step exC7 0 = .ok st' := ⟨_, rfl⟩
  obtain ⟨h1, h2, h3, h4⟩ :=
    r_pass3_jal_edges exC7 st' 0 0x40000c (by decide) (by rfl) (by rfl) (by rfl) hok
  obtain ⟨f, hf, hm1, hm2⟩ := h3 (by decide)
  have hfeq : f = { returns := [0x400010] } := by
    have h := hf
    rw [show exC7.functions.lookup 0x40000c = some { returns := [0x400010] } from rfl] at h
    exact (Option.some.inj h).symm
  rw [hfeq] at hm2
  exact ⟨st', hok, h1, h2, hm1, hm2 0x400010 (by decide) (by decide)⟩

/-! ### C10 -/

theorem count_append_singleton (l : List Edge) (e f : Edge) :
    (l ++ [f]).count e = l.count e + (if e = f then 1 else 0) := by
  rw [List.count_append]
  by_cases h : e = f
  · subst h
    simp
  · simp [h]

theorem r_add_edge_edgeMirror {st : St} (a b : Nat) (t1 t2 t3 t4 : Bool)
    (h : edgeMirror st) : edgeMirror (r_add_edge st a b t1 t2 t3 t4) := by
  intro x y hx hy u1 u2 u3 u4
  have hx' : x < st.rinsns.length := by simpa using hx
  have hy' : y < st.rinsns.length := by simpa using hy
  have hbase := h x y hx' hy' u1 u2 u3 u4
  unfold succCount predCount at hbase ⊢
  by_cases hxa : x = a
  · subst hxa
    rw [r_add_edge_succ_at b t1 t2 t3 t4 hx', count_append_singleton]
    by_cases hyb : y = b
    · subst hyb
      rw [r_add_edge_pred_at x t1 t2 t3 t4 hy', count_append_singleton, hbase]
      congr 1
      simp [Edge.mk.injEq]
    · rw [r_add_edge_pred_ne x t1 t2 t3 t4 hyb, hbase]
      have : ¬((⟨y, u1, u2, u3, u4⟩ : Edge) = ⟨b, t1, t2, t3, t4⟩) := by
        simp [Edge.mk.injEq]
        intro hyb2
        exact absurd hyb2 hyb
      rw [if_neg this, Nat.add_zero]
  · rw [r_add_edge_succ_ne b t1 t2 t3 t4 hxa]
    by_cases hyb : y = b
    · subst hyb
      rw [r_add_edge_pred_at a t1 t2 t3 t4 hy', count_append_singleton, hbase]
      have : ¬((⟨x, u1, u2, u3, u4⟩ : Edge) = ⟨a, t1, t2, t3, t4⟩) := by
        simp [Edge.mk.injEq]
        intro hxa2
        exact absurd hxa2 hxa
      rw [if_neg this, Nat.add_zero]
    · rw [r_add_edge_pred_ne a t1 t2 t3 t4 hyb, hbase]

theorem flagModify_edgeMirror {st : St} (j : Nat) (h : edgeMirror st) :
    edgeMirror (st.modifyInsn j fun r => { r with no_following_successor := true }) := by
  intro x y hx hy u1 u2 u3 u4
  unfold succCount predCount
  rw [flagModify_succ, flagModify_pred]
  exact h x y (by simpa using hx) (by simpa using hy) u1 u2 u3 u4

theorem addJtblEdges_edgeMirror (i : Nat) (bytes : List Nat) (jtblPos n jv : Nat)
    (st : St) (h : edgeMirror st) :
    edgeMirror (addJtblEdges st i bytes jtblPos jv n) := by
  induction n generalizing st jv with
  | zero => exact h
  | succ n ih =>
    simp only [addJtblEdges]
    exact ih _ _ (r_add_edge_edgeMirror _ _ _ _ _ _ h)

theorem addReturnEdges_edgeMirror (i2 : Nat) (l : List Nat) (st : St)
    (h : edgeMirror st) : edgeMirror (addReturnEdges st i2 l) := by
  induction l generalizing st with
  | nil => exact h
  | cons r0 rest ih =>
    simp only [addReturnEdges]
    exact ih _ (r_add_edge_edgeMirror _ _ _ _ _ _ h)

set_option maxHeartbeats 3200000 in
theorem r_pass3_step_edgeMirror {st st' : St} {i : Nat}
    (hok : r_pass3_step st i = .ok st') (h : edgeMirror st) : edgeMirror st' := by
  unfold r_pass3_step at hok
  split at hok
  · injection hok with hok
    subst hok
    exact h
  · split at hok
    all_goals try (simp only [] at hok)
    all_goals try (repeat' split at hok)
    all_goals first
      | (injection hok with hok; subst hok;
         repeat first
           | apply flagModify_edgeMirror
           | apply addReturnEdges_edgeMirror
           | apply addJtblEdges_edgeMirror
           | apply r_add_edge_edgeMirror
           | exact h)
      | (exact Except.noConfusion hok)

theorem r_pass3_go_edgeMirror : ∀ (fuel k : Nat) (st st' : St),
    r_pass3_go st k fuel = .ok st' → edgeMirror st → edgeMirror st' := by
  intro fuel
  induction fuel with
  | zero =>
    intro k st st' hok h
    injection hok with hok
    subst hok
    exact h
  | succ fuel ih =>
    intro k st st' hok h
    simp only [r_pass3_go] at hok
    obtain ⟨st1, h1, h2⟩ := except_bind_ok hok
    exact ih (k + 1) st1 st' h2 (r_pass3_step_edgeMirror h1 h)

/-- C10: every edge insertion goes through `r_add_edge`, which appends
exactly one successor entry at `rinsns[from]` and exactly one predecessor
entry at `rinsns[to]` carrying identical tag bits; consequently the mirror
property of the successor/predecessor multisets (same tagged edge set seen
from either side) is an invariant of CFG construction: it is preserved by
`r_pass3`. -/
theorem r_add_edge_mirror_invariant (st st' : St) (a b : Nat) (t1 t2 t3 t4 : Bool)
    (ha : a < st.rinsns.length) (hb : b < st.rinsns.length)
    (hmirror : edgeMirror st) (hok : r_pass3 st = .ok st') :
    ((r_add_edge st a b t1 t2 t3 t4).insnAt a).successors =
      (st.insnAt a).successors ++ [⟨b, t1, t2, t3, t4⟩] ∧
    ((r_add_edge st a b t1 t2 t3 t4).insnAt b).predecessors =
      (st.insnAt b).predecessors ++ [⟨a, t1, t2, t3, t4⟩] ∧
    edgeMirror st' :=
  ⟨r_add_edge_succ_at b t1 t2 t3 t4 ha, r_add_edge_pred_at a t1 t2 t3 t4 hb,
    r_pass3_go_edgeMirror _ 0 st st' hok hmirror⟩

/-- Three reachable NOPs. -/
def exC10 : St :=
  { text_vaddr := 0x400000, text_section_len := 12,
    rinsns := [
      { instruction := { uniqueId := .nop, descr := .nop }, linked_insn := -1 },
      { instruction := { uniqueId := .nop, descr := .nop }, linked_insn := -1 },
      { instruction := { uniqueId := .nop, descr := .nop }, linked_insn := -1 } ] }

theorem r_add_edge_mirror_invariant_witness :
    ∃ st' : St, r_pass3 exC10 = .ok st' ∧
      ((r_add_edge exC10 0 1 true false false false).insnAt 0).successors =
        (exC10.insnAt 0).successors ++ [⟨1, true, false, false, false⟩] ∧
      ((r_add_edge exC10 0 1 true false false false).insnAt 1).predecessors =
        (exC10.insnAt 1).predecessors ++ [⟨0, true, false, false, false⟩] ∧
      edgeMirror st' := by
  obtain ⟨st', hok⟩ : ∃ st', r_pass3 exC10 = .ok st' := ⟨_, rfl⟩
  have hm : edgeMirror exC10 := by
    intro a b ha hb t1 t2 t3 t4
    have ha3 : a < 3 := by simpa [exC10] using ha
    have hb3 : b < 3 := by simpa [exC10] using hb
    interval_cases a <;> interval_cases b <;> rfl
  obtain ⟨h1, h2, h3⟩ :=
    r_add_edge_mirror_invariant exC10 st' 0 1 true false false false
      (by decide) (by decide) hm hok
  exact ⟨st', hok, h1, h2, h3⟩

/-! ### C8 -/

theorem flagModify_nfs_ne {st : St} {j k : Nat} (hk : k ≠ j) :
    ((st.modifyInsn j fun r => { r with no_following_successor := true }).insnAt k).no_following_successor
      = (st.insnAt k).no_following_successor := by
  rw [St.insnAt_modify_ne hk]

theorem addJtblEdges_length (i : Nat) (bytes : List Nat) (jtblPos n jv : Nat)
    (st : St) : (addJtblEdges st i bytes jtblPos jv n).rinsns.length = st.rinsns.length := by
  induction n generalizing st jv with
  | zero => rfl
  | succ n ih =>
    simp only [addJtblEdges]
    rw [ih]
    simp

theorem addJtblEdges_nfs (i : Nat) (bytes : List Nat) (jtblPos n jv k : Nat)
    (st : St) :
    ((addJtblEdges st i bytes jtblPos jv n).insnAt k).no_following_successor
      = ((st.insnAt k)).no_following_successor := by
  induction n generalizing st jv with
  | zero => rfl
  | succ n ih =>
    simp only [addJtblEdges]
    rw [ih, r_add_edge_nfs]

theorem addJtblEdges_succ_mono (i : Nat) (bytes : List Nat) (jtblPos n jv k : Nat)
    (e : Edge) (st : St) (h : e ∈ (st.insnAt k).successors) :
    e ∈ ((addJtblEdges st i bytes jtblPos jv n).insnAt k).successors := by
  induction n generalizing st jv with
  | zero => exact h
  | succ n ih =>
    simp only [addJtblEdges]
    exact ih _ _ (r_add_edge_succ_mono _ _ _ _ _ _ h)

theorem addReturnEdges_nfs (i2 : Nat) (l : List Nat) (k : Nat) : ∀ st : St,
    ((addReturnEdges st i2 l).insnAt k).no_following_successor
      = (st.insnAt k).no_following_successor := by
  induction l with
  | nil => intro st; rfl
  | cons r0 rest ih =>
    intro st
    simp only [addReturnEdges]
    rw [ih, r_add_edge_nfs]

set_option maxHeartbeats 3200000 in
theorem r_pass3_step_length {st st' : St} {i : Nat}
    (hok : r_pass3_step st i = .ok st') :
    st'.rinsns.length = st.rinsns.length := by
  unfold r_pass3_step at hok
  split at hok
  · injection hok with hok
    subst hok
    rfl
  · split at hok
    all_goals try (simp only [] at hok)
    all_goals try (repeat' split at hok)
    all_goals first
      | (injection hok with hok; subst hok;
         simp [addReturnEdges_length, addJtblEdges_length])
      | (exact Except.noConfusion hok)

set_option maxHeartbeats 3200000 in
theorem r_pass3_step_nfs_ne {st st' : St} {i : Nat}
    (hok : r_pass3_step st i = .ok st') (k : Nat) (hk : k ≠ i + 1) :
    (st'.insnAt k).no_following_successor = (st.insnAt k).no_following_successor := by
  unfold r_pass3_step at hok
  split at hok
  · injection hok with hok
    subst hok
    rfl
  · split at hok
    all_goals try (simp only [] at hok)
    all_goals try (repeat' split at hok)
    all_goals first
      | (injection hok with hok; subst hok;
         repeat first
           | rw [flagModify_nfs_ne hk]
           | rw [addJtblEdges_nfs]
           | rw [addReturnEdges_nfs]
           | rw [r_add_edge_nfs])
      | (exact Except.noConfusion hok)

set_option maxHeartbeats 3200000 in
theorem r_pass3_step_succ_mono {st st' : St} {i : Nat}
    (hok : r_pass3_step st i = .ok st') {k : Nat} {e : Edge}
    (hmem : e ∈ (st.insnAt k).successors) : e ∈ (st'.insnAt k).successors := by
  unfold r_pass3_step at hok
  split at hok
  · injection hok with hok
    subst hok
    exact hmem
  · split at hok
    all_goals try (simp only [] at hok)
    all_goals try (repeat' split at hok)
    all_goals first
      | (injection hok with hok; subst hok;
         repeat first
           | rw [flagModify_succ]
           | apply addJtblEdges_succ_mono
           | apply addReturnEdges_succ_mono
           | apply r_add_edge_succ_mono
           | exact hmem)
      | (exact Except.noConfusion hok)

set_option maxHeartbeats 3200000 in
theorem r_pass3_step_adds_fallthrough {st st' : St} {i : Nat}
    (hlt : i < st.rinsns.length)
    (hflag : (st.insnAt i).no_following_successor = false)
    (hok : r_pass3_step st i = .ok st') :
    (⟨i + 1, false, false, false, false⟩ : Edge) ∈ (st'.insnAt i).successors := by
  unfold r_pass3_step at hok
  rw [hflag] at hok
  simp only [Bool.false_eq_true, if_false] at hok
  split at hok
  all_goals try (repeat' split at hok)
  all_goals first
    | (injection hok with hok; subst hok;
       repeat first
         | (rw [r_add_edge_succ_at (i + 1) false false false false hlt];
            exact List.mem_append_right _ (List.mem_singleton.mpr rfl))
         | rw [flagModify_succ]
         | apply addJtblEdges_succ_mono
         | apply addReturnEdges_succ_mono
         | apply r_add_edge_succ_mono)
    | (exact Except.noConfusion hok)

theorem r_pass3_go_fallthrough : ∀ (fuel k : Nat) (st st' : St),
    r_pass3_go st k fuel = .ok st' →
    (∀ j, j < k → j < st.rinsns.length →
      (st.insnAt j).no_following_successor = false →
      (⟨j + 1, false, false, false, false⟩ : Edge) ∈ (st.insnAt j).successors) →
    ∀ j, j < k + fuel → j < st.rinsns.length →
      (st'.insnAt j).no_following_successor = false →
      (⟨j + 1, false, false, false, false⟩ : Edge) ∈ (st'.insnAt j).successors := by
  intro fuel
  induction fuel with
  | zero =>
    intro k st st' hok hinv j hj hjl hflag
    injection hok with hok
    subst hok
    exact hinv j (by omega) hjl hflag
  | succ fuel ih =>
    intro k st st' hok hinv j hj hjl hflag
    simp only [r_pass3_go] at hok
    obtain ⟨st1, h1, h2⟩ := except_bind_ok hok
    have hlen1 : st1.rinsns.length = st.rinsns.length := r_pass3_step_length h1
    refine ih (k + 1) st1 st' h2 ?_ j (by omega) (by rw [hlen1]; exact hjl) hflag
    intro j' hj' hj'l hfl1
    have hne : j' ≠ k + 1 := by omega
    have hfl : (st.insnAt j').no_following_successor = false := by
      rw [← r_pass3_step_nfs_ne h1 j' hne]
      exact hfl1
    rcases Nat.lt_or_ge j' k with hlt | hge
    · exact r_pass3_step_succ_mono h1
        (hinv j' hlt (by rw [← hlen1]; exact hj'l) hfl)
    · have hjk : j' = k := by omega
      subst hjk
      exact r_pass3_step_adds_fallthrough (by rw [← hlen1]; exact hj'l) hfl h1

/-- C8: after CFG construction (`r_pass3`), every in-range instruction index
`j` whose `no_following_successor` flag is false has the untagged fallthrough
edge to `j+1` in its successors list — for every opcode class, since the
statement holds for an arbitrary instruction vector. -/
theorem r_pass3_fallthrough_edges (st st' : St) (hok : r_pass3 st = .ok st') :
    ∀ j, j < st.rinsns.length →
      (st'.insnAt j).no_following_successor = false →
      (⟨j + 1, false, false, false, false⟩ : Edge) ∈ (st'.insnAt j).successors := by
  intro j hj hflag
  exact r_pass3_go_fallthrough st.rinsns.length 0 st st' hok
    (fun j' hj0 _ _ => absurd hj0 (Nat.not_lt_zero j')) j (by omega) hj hflag

theorem r_pass3_fallthrough_edges_witness :
    r_pass3 exC10 = .ok ((r_pass3 exC10).toOption.getD exC10) ∧
    (((r_pass3 exC10).toOption.getD exC10).insnAt 0).no_following_successor = false ∧
    (⟨1, false, false, false, false⟩ : Edge) ∈
      (((r_pass3 exC10).toOption.getD exC10).insnAt 0).successors := by
  refine ⟨by rfl, by rfl, ?_⟩
  exact r_pass3_fallthrough_edges exC10 _ (by rfl) 0 (by decide) (by rfl)

/-! ### C5: bit-mask order and measure accounting -/

theorem le_or_left (a b : Nat) : a ≤ a ||| b :=
  Nat.le_of_testBit fun i h => by
    rw [Nat.testBit_or]
    simp [h]

theorem le_or_right (a b : Nat) : b ≤ a ||| b :=
  Nat.le_of_testBit fun i h => by
    rw [Nat.testBit_or]
    simp [h]

theorem lt_or_of_ne {a v : Nat} (h : a ||| v ≠ a) : a < a ||| v :=
  lt_of_le_of_ne (le_or_left a v) (fun he => h he.symm)

theorem ldiff_le (a b : Nat) : a.ldiff b ≤ a :=
  Nat.le_of_testBit fun i h => by
    rw [Nat.testBit_ldiff] at h
    exact (Bool.and_eq_true_iff.mp h).1

theorem mle_refl (x : Nat) : mle x x := Nat.or_self x

theorem mle_or_self (x v : Nat) : mle x (x ||| v) := by
  unfold mle
  rw [← Nat.or_assoc, Nat.or_self]

theorem mle_trans {x y z : Nat} (h1 : mle x y) (h2 : mle y z) : mle x z := by
  unfold mle at h1 h2 ⊢
  calc x ||| z = x ||| (y ||| z) := by rw [h2]
    _ = (x ||| y) ||| z := by rw [Nat.or_assoc]
    _ = y ||| z := by rw [h1]
    _ = z := h2

theorem masksLe4_refl (st : St) : masksLe4 st st :=
  fun _ => ⟨mle_refl _, mle_refl _⟩

theorem masksLe4_trans {a b c : St} (h1 : masksLe4 a b) (h2 : masksLe4 b c) :
    masksLe4 a c :=
  fun i => ⟨mle_trans (h1 i).1 (h2 i).1, mle_trans (h1 i).2 (h2 i).2⟩

theorem masksLe5_refl (st : St) : masksLe5 st st :=
  fun _ => ⟨mle_refl _, mle_refl _⟩

theorem masksLe5_trans {a b c : St} (h1 : masksLe5 a b) (h2 : masksLe5 b c) :
    masksLe5 a c :=
  fun i => ⟨mle_trans (h1 i).1 (h2 i).1, mle_trans (h1 i).2 (h2 i).2⟩

theorem sumMissing4_listModify : ∀ (l : List RInsn) (i : Nat) (f : RInsn → RInsn),
    i < l.length →
    sumMissing4 (listModify l i f) + insnMissing4 (l.getD i {}) =
      sumMissing4 l + insnMissing4 (f (l.getD i {})) := by
  intro l
  induction l with
  | nil => intro i f h; cases h
  | cons x xs ih =>
    intro i f h
    cases i with
    | zero =>
      have hm : listModify (x :: xs) 0 f = f x :: xs := rfl
      rw [hm]
      simp only [sumMissing4, List.getD_cons_zero]
      omega
    | succ n =>
      have hlt : n < xs.length := Nat.lt_of_succ_lt_succ h
      have hm : listModify (x :: xs) (n + 1) f = x :: listModify xs n f := by
        unfold listModify
        have hg : (x :: xs).get? (n + 1) = xs.get? n := rfl
        rw [hg]
        cases hg2 : xs.get? n with
        | none =>
          exact absurd (List.get?_eq_none.mp hg2) (Nat.not_le_of_lt hlt)
        | some y => rfl
      rw [hm]
      simp only [sumMissing4, List.getD_cons_succ]
      have := ih n f hlt
      omega

theorem sumMissing5_listModify : ∀ (l : List RInsn) (i : Nat) (f : RInsn → RInsn),
    i < l.length →
    sumMissing5 (listModify l i f) + insnMissing5 (l.getD i {}) =
      sumMissing5 l + insnMissing5 (f (l.getD i {})) := by
  intro l
  induction l with
  | nil => intro i f h; cases h
  | cons x xs ih =>
    intro i f h
    cases i with
    | zero =>
      have hm : listModify (x :: xs) 0 f = f x :: xs := rfl
      rw [hm]
      simp only [sumMissing5, List.getD_cons_zero]
      omega
    | succ n =>
      have hlt : n < xs.length := Nat.lt_of_succ_lt_succ h
      have hm : listModify (x :: xs) (n + 1) f = x :: listModify xs n f := by
        unfold listModify
        have hg : (x :: xs).get? (n + 1) = xs.get? n := rfl
        rw [hg]
        cases hg2 : xs.get? n with
        | none =>
          exact absurd (List.get?_eq_none.mp hg2) (Nat.not_le_of_lt hlt)
        | some y => rfl
      rw [hm]
      simp only [sumMissing5, List.getD_cons_succ]
      have := ih n f hlt
      omega

theorem sumMissing4_modifyInsn {st : St} {i : Nat} (f : RInsn → RInsn)
    (h : i < st.rinsns.length) :
    sumMissing4 (st.modifyInsn i f).rinsns + insnMissing4 (st.insnAt i) =
      sumMissing4 st.rinsns + insnMissing4 (f (st.insnAt i)) :=
  sumMissing4_listModify st.rinsns i f h

theorem sumMissing5_modifyInsn {st : St} {i : Nat} (f : RInsn → RInsn)
    (h : i < st.rinsns.length) :
    sumMissing5 (st.modifyInsn i f).rinsns + insnMissing5 (st.insnAt i) =
      sumMissing5 st.rinsns + insnMissing5 (f (st.insnAt i)) :=
  sumMissing5_listModify st.rinsns i f h

/-- All CFG successor targets are in range (the C++ would `abort` on an
out-of-range `rinsns.at`). -/
def edgesIn4 (st : St) : Prop :=
  ∀ i : Nat, ∀ e ∈ (st.insnAt i).successors, e.i < st.rinsns.length

/-- All CFG predecessor sources are in range. -/
def edgesIn5 (st : St) : Prop :=
  ∀ i : Nat, ∀ e ∈ (st.insnAt i).predecessors, e.i < st.rinsns.length

set_option maxHeartbeats 1600000 in
theorem r_insn_to_type_keep (r : RInsn) :
    (r_insn_to_type r).2.f_livein = r.f_livein ∧
    (r_insn_to_type r).2.f_liveout = r.f_liveout ∧
    (r_insn_to_type r).2.b_livein = r.b_livein ∧
    (r_insn_to_type r).2.b_liveout = r.b_liveout ∧
    (r_insn_to_type r).2.successors = r.successors ∧
    (r_insn_to_type r).2.predecessors = r.predecessors := by
  cases huid : r.instruction.uniqueId
  all_goals simp only [r_insn_to_type, huid]
  all_goals try (repeat' split)
  all_goals simp

set_option maxHeartbeats 1600000 in
theorem r_insn_to_type_bounds (r : RInsn)
    (hrs : r.instruction.rs < 32) (hrt : r.instruction.rt < 32)
    (hrd : r.instruction.rd < 32) (hir : r.index_reg < 32) :
    (r_insn_to_type r).2.instruction.rs < 32 ∧
    (r_insn_to_type r).2.instruction.rt < 32 ∧
    (r_insn_to_type r).2.instruction.rd < 32 ∧
    (r_insn_to_type r).2.index_reg < 32 := by
  cases huid : r.instruction.uniqueId
  all_goals simp only [r_insn_to_type, huid]
  all_goals try (repeat' split)
  all_goals simp_all

theorem FULLMASK_le_iff (m : Nat) : m ≤ FULLMASK ↔ m < 2 ^ 35 := by
  unfold FULLMASK
  have h : 0 < 2 ^ 35 := Nat.two_pow_pos 35
  omega

theorem r_map_reg_lt {reg : Nat} (h : reg < 34) : r_map_reg reg < 2 ^ 35 := by
  unfold r_map_reg REG_zero
  rw [Nat.shiftLeft_eq, Nat.one_mul]
  exact Nat.pow_lt_pow_right (by decide) (by omega)

theorem get_dest_reg_mask_lt {ins : Instr} (hrt : ins.rt < 32) (hrd : ins.rd < 32) :
    get_dest_reg_mask ins < 2 ^ 35 := by
  unfold get_dest_reg_mask
  split
  · exact r_map_reg_lt (by omega)
  · split
    · exact r_map_reg_lt (by omega)
    · exact Nat.two_pow_pos 35

theorem get_single_source_reg_mask_lt {ins : Instr} (hrs : ins.rs < 32)
    (hrt : ins.rt < 32) : get_single_source_reg_mask ins < 2 ^ 35 := by
  unfold get_single_source_reg_mask
  split
  · exact r_map_reg_lt (by omega)
  · split
    · exact r_map_reg_lt (by omega)
    · exact Nat.two_pow_pos 35

theorem get_all_source_reg_mask_lt {ins : Instr} (hrs : ins.rs < 32)
    (hrt : ins.rt < 32) : get_all_source_reg_mask ins < 2 ^ 35 := by
  unfold get_all_source_reg_mask
  apply Nat.or_lt_two_pow
  · split
    · exact r_map_reg_lt (by omega)
    · exact Nat.two_pow_pos 35
  · split
    · exact r_map_reg_lt (by omega)
    · exact Nat.two_pow_pos 35

theorem externCallArgsMask_catalog_lt :
    extern_functions.all (fun fn => externCallArgsMask fn < 2 ^ 35) = true := by decide

theorem findExternFn_mem {st : St} {address : Nat} {fn : ExternFunction}
    (h : findExternFn st address = some fn) : fn ∈ extern_functions := by
  unfold findExternFn at h
  split at h
  · exact absurd h (by simp)
  · exact List.mem_of_find?_eq_some h

theorem externCallArgsMask_lt {fn : ExternFunction} (h : fn ∈ extern_functions) :
    externCallArgsMask fn < 2 ^ 35 := by
  have hall := externCallArgsMask_catalog_lt
  rw [List.all_eq_true] at hall
  exact of_decide_eq_true (hall fn h)

/-- Per-record form of `wf4`. -/
def rinsnWf4 (r : RInsn) : Prop :=
  r.f_livein ≤ FULLMASK ∧ r.f_liveout ≤ FULLMASK ∧
  r.instruction.rs < 32 ∧ r.instruction.rt < 32 ∧
  r.instruction.rd < 32 ∧ r.index_reg < 32

/-- Per-record form of `wf5`. -/
def rinsnWf5 (r : RInsn) : Prop :=
  r.b_livein ≤ FULLMASK ∧ r.b_liveout ≤ FULLMASK ∧
  r.instruction.rs < 32 ∧ r.instruction.rt < 32 ∧
  r.instruction.rd < 32 ∧ r.index_reg < 32

theorem wf4_def (st : St) : wf4 st ↔ ∀ i, rinsnWf4 (st.insnAt i) := Iff.rfl

theorem wf5_def (st : St) : wf5 st ↔ ∀ i, rinsnWf5 (st.insnAt i) := Iff.rfl

theorem wf4_modify {st : St} {j : Nat} {f : RInsn → RInsn} (hwf : wf4 st)
    (hf : rinsnWf4 (st.insnAt j) → rinsnWf4 (f (st.insnAt j))) :
    wf4 (st.modifyInsn j f) := by
  rw [wf4_def]
  intro i
  by_cases hij : i = j
  · subst hij
    by_cases hlt : i < st.rinsns.length
    · rw [St.insnAt_modify_self hlt]
      exact hf (hwf i)
    · rw [St.modifyInsn_oob (Nat.le_of_not_lt hlt)]
      exact hwf i
  · rw [St.insnAt_modify_ne hij]
    exact hwf i

theorem wf5_modify {st : St} {j : Nat} {f : RInsn → RInsn} (hwf : wf5 st)
    (hf : rinsnWf5 (st.insnAt j) → rinsnWf5 (f (st.insnAt j))) :
    wf5 (st.modifyInsn j f) := by
  rw [wf5_def]
  intro i
  by_cases hij : i = j
  · subst hij
    by_cases hlt : i < st.rinsns.length
    · rw [St.insnAt_modify_self hlt]
      exact hf (hwf i)
    · rw [St.modifyInsn_oob (Nat.le_of_not_lt hlt)]
      exact hwf i
  · rw [St.insnAt_modify_ne hij]
    exact hwf i

theorem masksLe4_modify {st : St} {j : Nat} {f : RInsn → RInsn}
    (hin : mle (st.insnAt j).f_livein (f (st.insnAt j)).f_livein)
    (hout : mle (st.insnAt j).f_liveout (f (st.insnAt j)).f_liveout) :
    masksLe4 st (st.modifyInsn j f) := by
  intro i
  by_cases hij : i = j
  · subst hij
    by_cases hlt : i < st.rinsns.length
    · rw [St.insnAt_modify_self hlt]
      exact ⟨hin, hout⟩
    · rw [St.modifyInsn_oob (Nat.le_of_not_lt hlt)]
      exact ⟨mle_refl _, mle_refl _⟩
  · rw [St.insnAt_modify_ne hij]
    exact ⟨mle_refl _, mle_refl _⟩

theorem masksLe5_modify {st : St} {j : Nat} {f : RInsn → RInsn}
    (hin : mle (st.insnAt j).b_livein (f (st.insnAt j)).b_livein)
    (hout : mle (st.insnAt j).b_liveout (f (st.insnAt j)).b_liveout) :
    masksLe5 st (st.modifyInsn j f) := by
  intro i
  by_cases hij : i = j
  · subst hij
    by_cases hlt : i < st.rinsns.length
    · rw [St.insnAt_modify_self hlt]
      exact ⟨hin, hout⟩
    · rw [St.modifyInsn_oob (Nat.le_of_not_lt hlt)]
      exact ⟨mle_refl _, mle_refl _⟩
  · rw [St.insnAt_modify_ne hij]
    exact ⟨mle_refl _, mle_refl _⟩

theorem edgesIn4_modify {st : St} {j : Nat} {f : RInsn → RInsn}
    (h : edgesIn4 st) (hf : ∀ r, (f r).successors = r.successors) :
    edgesIn4 (st.modifyInsn j f) := by
  intro i e he
  rw [St.modifyInsn_rinsns_length]
  by_cases hij : i = j
  · subst hij
    by_cases hlt : i < st.rinsns.length
    · rw [St.insnAt_modify_self hlt, hf] at he
      exact h i e he
    · rw [St.modifyInsn_oob (Nat.le_of_not_lt hlt)] at he
      exact h i e he
  · rw [St.insnAt_modify_ne hij] at he
    exact h i e he

theorem edgesIn5_modify {st : St} {j : Nat} {f : RInsn → RInsn}
    (h : edgesIn5 st) (hf : ∀ r, (f r).predecessors = r.predecessors) :
    edgesIn5 (st.modifyInsn j f) := by
  intro i e he
  rw [St.modifyInsn_rinsns_length]
  by_cases hij : i = j
  · subst hij
    by_cases hlt : i < st.rinsns.length
    · rw [St.insnAt_modify_self hlt, hf] at he
      exact h i e he
    · rw [St.modifyInsn_oob (Nat.le_of_not_lt hlt)] at he
      exact h i e he
  · rw [St.insnAt_modify_ne hij] at he
    exact h i e he

set_option maxHeartbeats 1600000 in
theorem r_pass4_prop_spec (i live : Nat) (hlive : live < 2 ^ 35) :
    ∀ (es : List Edge) (st : St) (q : List Nat) (fe : Bool)
      (out : St × List Nat × Bool),
      r_pass4_prop st i live es q fe = .ok out →
      wf4 st → (∀ e ∈ es, e.i < st.rinsns.length) →
      masksLe4 st out.1 ∧ wf4 out.1 ∧ out.1.rinsns.length = st.rinsns.length ∧
      (∀ k, (out.1.insnAt k).successors = (st.insnAt k).successors) ∧
      sumMissing4 out.1.rinsns + out.2.1.length ≤ sumMissing4 st.rinsns + q.length := by
  intro es
  induction es with
  | nil =>
    intro st q fe out hok hwf hes
    injection hok with hok
    subst hok
    exact ⟨masksLe4_refl st, hwf, rfl, fun k => rfl, Nat.le_refl _⟩
  | cons e es ih =>
    intro st q fe out hok hwf hes
    simp only [r_pass4_prop] at hok
    obtain ⟨⟨nl, fe'⟩, hnl, hcont⟩ := except_bind_ok hok
    simp only [] at hcont
    simp only [pure, Except.pure] at hnl
    have hnl_lt : nl < 2 ^ 35 := by
      repeat' split at hnl
      all_goals first
        | exact Except.noConfusion hnl
        | (injection hnl with hnl; injection hnl with h1 h2; subst h1;
           (repeat' apply Nat.or_lt_two_pow) <;>
             first
               | exact hlive
               | exact lt_of_le_of_lt Nat.and_le_left hlive
               | exact lt_of_le_of_lt Nat.and_le_right hlive
               | exact lt_of_le_of_lt (ldiff_le _ _) hlive
               | decide)
    have hei : e.i < st.rinsns.length := hes e (List.mem_cons_self e es)
    have hes' : ∀ e' ∈ es, e'.i < st.rinsns.length :=
      fun e' he' => hes e' (List.mem_cons_of_mem e he')
    split at hcont
    · rename_i hguard
      have hwf1 : wf4 (st.modifyInsn e.i fun r => { r with f_livein := r.f_livein ||| nl }) := by
        refine wf4_modify hwf (fun hr => ⟨?_, hr.2.1, hr.2.2.1, hr.2.2.2.1,
          hr.2.2.2.2.1, hr.2.2.2.2.2⟩)
        exact (FULLMASK_le_iff _).mpr
          (Nat.or_lt_two_pow ((FULLMASK_le_iff _).mp hr.1) hnl_lt)
      have hes1 : ∀ e' ∈ es, e'.i <
          (st.modifyInsn e.i fun r => { r with f_livein := r.f_livein ||| nl }).rinsns.length := by
        intro e' he'
        rw [St.modifyInsn_rinsns_length]
        exact hes' e' he'
      obtain ⟨hm, hw, hl, hs, hq⟩ := ih _ _ _ _ hcont hwf1 hes1
      have hsum : sumMissing4
            (st.modifyInsn e.i fun r => { r with f_livein := r.f_livein ||| nl }).rinsns + 1 ≤
          sumMissing4 st.rinsns := by
        have hacc := sumMissing4_modifyInsn
          (fun r => { r with f_livein := r.f_livein ||| nl }) hei
        have hlt_old : (st.insnAt e.i).f_livein < (st.insnAt e.i).f_livein ||| nl :=
          lt_or_of_ne hguard
        have hle_new : (st.insnAt e.i).f_livein ||| nl ≤ FULLMASK :=
          (FULLMASK_le_iff _).mpr
            (Nat.or_lt_two_pow ((FULLMASK_le_iff _).mp (hwf e.i).1) hnl_lt)
        unfold insnMissing4 at hacc
        simp only [] at hacc
        omega
      refine ⟨masksLe4_trans (masksLe4_modify (mle_or_self _ _) (mle_refl _)) hm,
        hw, by rw [hl, St.modifyInsn_rinsns_length], ?_, ?_⟩
      · intro k
        exact (hs k).trans (insnAt_modify_successors (fun r => rfl))
      · have : sumMissing4 out.1.rinsns + out.2.1.length ≤
            sumMissing4
              (st.modifyInsn e.i fun r => { r with f_livein := r.f_livein ||| nl }).rinsns +
              (q.length + 1) := by
          simpa using hq
        omega
    · obtain ⟨hm, hw, hl, hs, hq⟩ := ih _ _ _ _ hcont hwf hes'
      exact ⟨hm, hw, hl, hs, hq⟩

theorem mle_zero (y : Nat) : mle 0 y := Nat.zero_or y

theorem mle_or_right_self (x v : Nat) : mle x (v ||| x) := by
  unfold mle
  rw [Nat.or_comm v x, ← Nat.or_assoc, Nat.or_self]

theorem pass4Live_lt {ty : TYPE} {insn : RInsn}
    (hin : insn.f_livein ≤ FULLMASK)
    (hrt : insn.instruction.rt < 32) (hrd : insn.instruction.rd < 32) :
    pass4Live ty insn < 2 ^ 35 := by
  have h0 : insn.f_livein ||| 1 < 2 ^ 35 :=
    Nat.or_lt_two_pow ((FULLMASK_le_iff _).mp hin) (by decide)
  unfold pass4Live
  cases ty
  all_goals simp only []
  all_goals try (repeat' split)
  all_goals
    first
      | exact h0
      | exact Nat.or_lt_two_pow h0 (get_dest_reg_mask_lt hrt hrd)
      | exact Nat.or_lt_two_pow (Nat.or_lt_two_pow h0 (r_map_reg_lt (by decide)))
          (r_map_reg_lt (by decide))

theorem pass5Live_lt {ty : TYPE} {insn : RInsn}
    (hout : insn.b_liveout ≤ FULLMASK) (hrs : insn.instruction.rs < 32)
    (hrt : insn.instruction.rt < 32) :
    pass5Live ty insn < 2 ^ 35 := by
  have h0 : insn.b_liveout ||| 1 < 2 ^ 35 :=
    Nat.or_lt_two_pow ((FULLMASK_le_iff _).mp hout) (by decide)
  unfold pass5Live
  cases ty
  all_goals simp only []
  all_goals try (repeat' split)
  all_goals
    first
      | exact h0
      | exact Nat.or_lt_two_pow h0 (get_single_source_reg_mask_lt hrs hrt)
      | exact Nat.or_lt_two_pow h0 (get_all_source_reg_mask_lt hrs hrt)
      | exact lt_of_le_of_lt (ldiff_le _ _) h0
      | exact Nat.or_lt_two_pow (lt_of_le_of_lt (ldiff_le _ _) h0)
          (get_single_source_reg_mask_lt hrs hrt)
      | exact Nat.or_lt_two_pow (lt_of_le_of_lt (ldiff_le _ _) h0)
          (get_all_source_reg_mask_lt hrs hrt)

theorem edgesIn4_of {st st' : St}
    (hs : ∀ k, (st'.insnAt k).successors = (st.insnAt k).successors)
    (hl : st'.rinsns.length = st.rinsns.length)
    (h : edgesIn4 st) : edgesIn4 st' := by
  intro i e he
  rw [hl]
  rw [hs i] at he
  exact h i e he

theorem edgesIn5_of {st st' : St}
    (hs : ∀ k, (st'.insnAt k).predecessors = (st.insnAt k).predecessors)
    (hl : st'.rinsns.length = st.rinsns.length)
    (h : edgesIn5 st) : edgesIn5 st' := by
  intro i e he
  rw [hl]
  rw [hs i] at he
  exact h i e he
